import Mathlib

/-!
# web-txt2img single-flight scheduler: shallow embedding

This file embeds the two scheduler implementations of the `web-txt2img`
repository:

* the worker host (`packages/web-txt2img/src/worker/host.ts`), namespace `Host`;
* the in-process inline scheduler (`src/runtime/inline_host.ts`,
  class `InlineScheduler`), namespace `Inline`.

Both are small event-driven state machines (single current job, single pending
slot, an `aborting` flag, an abort-timeout watchdog and a debounce timer).
The embedding is a deterministic step function per scheduler, driven by
external events (a `generate` request, an `abort` request, settlement of the
executor's promise for a started job, and timer firings), producing the next
state together with the list of messages emitted during the step
(`postMessage` calls for the host, promise resolutions / callbacks for the
inline scheduler).

Environment modelling (the parts that are not scheduler code):
* `setTimeout(f, d)` at time `now` is an armed timer with fire time `now + d`;
  a timer-fire event is valid only when the timer is armed and its fire time
  has passed.  A fired or cleared timer is `none`.
* An `AbortController` is its `aborted` flag; `controller.abort()` sets the
  flag, and a `Msg.signal` message is recorded exactly when the flag
  transitions from `false` to `true` (an already-aborted controller ignores
  further `abort()` calls, per the DOM semantics).
* `outstanding` is the list of job ids whose `generateImage` call has started
  and not yet settled; a `jobSettled` event is valid only for such an id
  (the executor contract: each started run settles exactly once).
* `used` is the list of job ids of all `generate` requests seen so far;
  validity requires fresh ids (the clients generate unique ids via `uid()`).
-/

/-- Model identifiers (`ModelId` in `types.ts`). -/
inductive ModelId
  | sdTurbo
  | janusPro
deriving DecidableEq, Repr

/-- `ErrorCode` from `types.ts`. -/
inductive ErrorCode
  | webgpuUnsupported
  | backendUnavailable
  | modelNotLoaded
  | unsupportedOption
  | cancelled
  | internalError
deriving DecidableEq, Repr

/-- Busy policies (`WorkerBusyPolicy` in `worker/protocol.ts`). -/
inductive BusyPolicy
  | reject
  | abortAndQueue
  | queue
deriving DecidableEq, Repr

/-- Scheduler states (`WorkerState` / `SchedulerState`). -/
inductive WState
  | idle
  | running
  | aborting
  | queued
deriving DecidableEq, Repr

/-- Failure reasons carried on a failed wire result.  The worker protocol
declares `reason : string`; the values actually posted are `'busy'`,
`'superseded'`, or an `ErrorCode` passed through from the executor.  The
inline scheduler's `GenerateResult` only carries `ErrorCode` reasons, embedded
here via `Reason.ec`. -/
inductive Reason
  | busy
  | superseded
  | ec (e : ErrorCode)
deriving DecidableEq, Repr

/-- A terminal generate result on the wire (`WorkerGenerateResult` /
`GenerateResult`): `ok` carries the blob (abstracted to a `Nat`) and
`timeMs`; failures carry a reason and an optional message. -/
inductive WireRes
  | ok (blob : Nat) (timeMs : Nat)
  | err (reason : Reason) (message : Option String)
deriving DecidableEq, Repr

/-- The executor's settlement (`GenerateResult` from `types.ts`): its failure
reasons are `ErrorCode`s only. -/
inductive ExecRes
  | ok (blob : Nat) (timeMs : Nat)
  | err (reason : ErrorCode) (message : Option String)
deriving DecidableEq, Repr

/-- Embed an executor settlement into a wire result (the schedulers pass
executor outcomes through unchanged). -/
def ExecRes.toWire : ExecRes → WireRes
  | .ok b t => .ok b t
  | .err r m => .err (.ec r) m

/-- Job parameters as the scheduler sees them (`WorkerGenerateParams` /
`JobParams`): the optional model, everything else opaque. -/
structure JobParams where
  model : Option ModelId
  payload : Nat
deriving DecidableEq, Repr

/-- The current job slot (`CurrentJob`): id, cancellation token (modelled by
its `aborted` flag), and parameters. -/
structure CurrentJob where
  id : Nat
  aborted : Bool
  params : JobParams
deriving DecidableEq, Repr

/-- The pending slot occupant (`PendingJob`): id, parameters, and the optional
debounce deadline (`debounceUntil`). -/
structure PendingJob where
  id : Nat
  params : JobParams
  debounceUntil : Option Nat
deriving DecidableEq, Repr

/-- Observable messages emitted during a step: `state` messages, `accepted`
acks, the generic ok ack for a no-op abort request, the `aborting_timeout`
progress hint (with the id of the sink it is delivered to), the cancellation
signal of a job's token, and terminal results. -/
inductive Msg
  | state (s : WState)
  | accepted (id : Nat)
  | ackOk (id : Nat)
  | hint (sink : Nat)
  | signal (jobId : Nat)
  | result (id : Nat) (r : WireRes)
deriving DecidableEq, Repr

/-- External events driving a scheduler. -/
inductive Event
  | generate (id : Nat) (params : JobParams) (busyPolicy : Option BusyPolicy)
      (replaceQueued : Option Bool) (debounceMs : Option Int)
  | abortReq (reqId : Nat)
  | jobSettled (jobId : Nat) (res : ExecRes)
  | abortTimerFire
  | debounceTimerFire
deriving DecidableEq, Repr

/-- Is this message a terminal result for job `j`? -/
def Msg.isResultFor (j : Nat) : Msg → Bool
  | .result i _ => i == j
  | _ => false

/-- Is this message the cancellation signal of job `j`'s token? -/
def Msg.isSignalFor (j : Nat) : Msg → Bool
  | .signal i => i == j
  | _ => false

/-- Number of terminal results delivered for job `j` in a message log. -/
def settleCount (log : List Msg) (j : Nat) : Nat :=
  log.countP (Msg.isResultFor j)

/-- Number of cancellation signals recorded for job `j`'s token. -/
def signalCount (log : List Msg) (j : Nat) : Nat :=
  log.countP (Msg.isSignalFor j)

/-- The settlements (id, result) contained in a message list, in order. -/
def jobResults (log : List Msg) : List (Nat × WireRes) :=
  log.filterMap fun m => match m with
    | .result i r => some (i, r)
    | _ => none

/-- `ABORT_TIMEOUT_MS` (both schedulers). -/
def ABORT_TIMEOUT_MS : Nat := 8000

namespace Host

/-- Worker host state: the module-level mutable variables of `worker/host.ts`
(`currentJob`, `pendingJob`, `aborting`, `abortTimer`, `debounceTimer`),
timers as optional fire times, plus the environment-model fields
`outstanding` (started, unsettled executor runs) and `used` (ids already
given out). -/
structure State where
  currentJob : Option CurrentJob
  pendingJob : Option PendingJob
  aborting : Bool
  abortTimer : Option Nat
  debounceTimer : Option Nat
  outstanding : List Nat
  used : List Nat
deriving DecidableEq, Repr

/-- Initial host state: everything empty, as at worker startup. -/
def init : State :=
  { currentJob := none, pendingJob := none, aborting := false,
    abortTimer := none, debounceTimer := none, outstanding := [], used := [] }

/-- `startPending` (`host.ts` L103-110): if the pending slot is occupied and
no job is running, move the pending job to current with a fresh controller
and start its executor run (`runJob` emits `setState('running')` and begins
the `generateImage` call). -/
def startPending (st : State) : State × List Msg :=
  match st.pendingJob, st.currentJob with
  | some p, none =>
      ({ st with pendingJob := none,
                 currentJob := some { id := p.id, aborted := false, params := p.params },
                 outstanding := p.id :: st.outstanding },
       [.state .running])
  | _, _ => (st, [])

/-- `maybeStartNext` (`host.ts` L84-101): when no job is running, either go
idle, or (pending occupied) emit `queued` and start the pending job now or
after its remaining debounce wait. -/
def maybeStartNext (now : Nat) (st : State) : State × List Msg :=
  match st.currentJob with
  | some _ => (st, [])
  | none =>
    match st.pendingJob with
    | none => (st, [.state .idle])
    | some p =>
      let wait : Nat := (p.debounceUntil.getD 0) - now
      let st1 := { st with debounceTimer := none }
      if wait > 0 then
        ({ st1 with debounceTimer := some (now + wait) }, [.state .queued])
      else
        let (st2, out) := startPending st1
        (st2, .state .queued :: out)

/-- `supersedePending` (`host.ts` L112-119): settle the displaced pending job
(if any) with reason `superseded`, install the new job, emit `queued`. -/
def supersedePending (st : State) (newJob : PendingJob) : State × List Msg :=
  let out0 : List Msg :=
    match st.pendingJob with
    | some p => [.result p.id (.err .superseded none)]
    | none => []
  ({ st with pendingJob := some newJob }, out0 ++ [.state .queued])

/-- Abort the current job's controller: sets the token's `aborted` flag; a
signal is recorded only on the `false → true` transition. -/
def abortController (c : CurrentJob) : CurrentJob × List Msg :=
  if c.aborted then (c, []) else ({ c with aborted := true }, [.signal c.id])

/-- The shared abort block (`host.ts` L227-232 and L254-259): mark aborting,
emit `aborting`, signal the controller, clear any old abort timer and start
the Abort Timeout Guard (`handleAbortTimeout`, L121-129, arms a timer for
`ABORT_TIMEOUT_MS`). -/
def beginAbort (now : Nat) (st : State) (c : CurrentJob) : State × List Msg :=
  let (c1, sig) := abortController c
  ({ st with aborting := true, currentJob := some c1,
             abortTimer := some (now + ABORT_TIMEOUT_MS) },
   .state .aborting :: sig)

/-- The `generate` case of `onMessage` (`host.ts` L198-251). -/
def generate (now : Nat) (st : State) (id : Nat) (p : JobParams)
    (bp : Option BusyPolicy) (rq : Option Bool) (dm : Option Int) :
    State × List Msg :=
  let policy := bp.getD .queue
  let replaceQueued := rq.getD true
  let debounceMs : Nat := (max 0 (dm.getD 0)).toNat
  let st := { st with used := id :: st.used }
  match st.currentJob with
  | none =>
      -- idle: start immediately (runJob emits 'running' and starts the run)
      ({ st with currentJob := some { id := id, aborted := false, params := p },
                 outstanding := id :: st.outstanding },
       [.state .running])
  | some _ =>
    match policy with
    | .reject => (st, [.result id (.err .busy none)])
    | .abortAndQueue =>
        let pj : PendingJob := { id := id, params := p, debounceUntil := none }
        let installed : Option (State × List Msg) :=
          if replaceQueued then some (supersedePending st pj)
          else match st.pendingJob with
            | none => some ({ st with pendingJob := some pj }, [])
            | some _ => none
        match installed with
        | none => (st, [.result id (.err .busy none)])
        | some (st1, out1) =>
            let st2 :=
              if 0 < debounceMs then
                { st1 with pendingJob :=
                    st1.pendingJob.map fun q => { q with debounceUntil := some (now + debounceMs) } }
              else st1
            let (st3, out2) :=
              if !st2.aborting then
                match st2.currentJob with
                | some c2 => beginAbort now st2 c2
                | none => (st2, [])
              else (st2, [])
            (st3, out1 ++ out2 ++ [.accepted id])
    | .queue =>
        let pj : PendingJob :=
          { id := id, params := p,
            debounceUntil := if 0 < debounceMs then some (now + debounceMs) else none }
        match st.pendingJob with
        | some _ =>
            if replaceQueued then
              let (st1, out1) := supersedePending st pj
              (st1, out1 ++ [.accepted id, .state .queued])
            else
              (st, [.result id (.err .busy none), .state .queued])
        | none =>
            ({ st with pendingJob := some pj }, [.accepted id, .state .queued])

/-- The `abort` case of `onMessage` (`host.ts` L252-266): if a job is
running and not already aborting, run the abort block, then ack with
`accepted`; when idle, reply with a plain ok result (no-op). -/
def abortReq (now : Nat) (st : State) (reqId : Nat) : State × List Msg :=
  match st.currentJob with
  | some c =>
      if !st.aborting then
        let (st1, out1) := beginAbort now st c
        (st1, out1 ++ [.accepted reqId])
      else
        (st, [.accepted reqId])
  | none => (st, [.ackOk reqId])

/-- Settlement of the executor run for job `j` (`runJob`'s continuation after
`await generateImage`, `host.ts` L65-81): the run leaves `outstanding`; if the
job is no longer current (stale) nothing is posted; otherwise the current slot
is cleared, an in-flight abort is wound down, the terminal result is posted,
and `maybeStartNext` runs. -/
def jobSettled (now : Nat) (st : State) (j : Nat) (res : ExecRes) :
    State × List Msg :=
  let st := { st with outstanding := st.outstanding.erase j }
  match st.currentJob with
  | none => (st, [])
  | some c =>
    if c.id ≠ j then (st, [])
    else
      let st1 := { st with currentJob := none }
      let st2 :=
        if st1.aborting then { st1 with aborting := false, abortTimer := none }
        else st1
      let (st3, out3) := maybeStartNext now st2
      (st3, .result j res.toWire :: out3)

/-- Firing of the Abort Timeout Guard (`handleAbortTimeout`'s callback,
`host.ts` L122-128): posts the `aborting_timeout` hint to the current job's
sink (if a job is running) and clears the aborting flag. -/
def abortTimerFire (st : State) : State × List Msg :=
  let out : List Msg :=
    match st.currentJob with
    | some c => [.hint c.id]
    | none => []
  ({ st with abortTimer := none, aborting := false }, out)

/-- Firing of the debounce timer (`maybeStartNext`'s `setTimeout` callback,
`host.ts` L95-97): runs `startPending`. -/
def debounceTimerFire (st : State) : State × List Msg :=
  startPending { st with debounceTimer := none }

/-- One step of the worker host's event loop. -/
def step (now : Nat) (st : State) : Event → State × List Msg
  | .generate id p bp rq dm => generate now st id p bp rq dm
  | .abortReq r => abortReq now st r
  | .jobSettled j res => jobSettled now st j res
  | .abortTimerFire => abortTimerFire st
  | .debounceTimerFire => debounceTimerFire st

/-- Validity of an event against a state: `generate` ids are fresh (`uid()`),
a settlement is only delivered for a started, unsettled run, and a timer only
fires when armed and past its fire time. -/
def validB (st : State) (now : Nat) : Event → Bool
  | .generate id _ _ _ _ => !(st.used.contains id)
  | .abortReq _ => true
  | .jobSettled j _ => st.outstanding.contains j
  | .abortTimerFire =>
      match st.abortTimer with
      | some t => t ≤ now
      | none => false
  | .debounceTimerFire =>
      match st.debounceTimer with
      | some t => t ≤ now
      | none => false

/-- Run a timed event list, accumulating emitted messages. -/
def run (st : State) : List (Nat × Event) → State × List Msg
  | [] => (st, [])
  | (now, ev) :: rest =>
      let (st1, out1) := step now st ev
      let (st2, out2) := run st1 rest
      (st2, out1 ++ out2)

/-- A timed event list is valid when each event is valid in the state it
meets. -/
def validTraceB (st : State) : List (Nat × Event) → Bool
  | [] => true
  | (now, ev) :: rest =>
      validB st now ev && validTraceB (step now st ev).1 rest

end Host

/-- Printable model name, for the inline scheduler's mismatch message. -/
def ModelId.str : ModelId → String
  | .sdTurbo => "sd-turbo"
  | .janusPro => "janus-pro-1b"

namespace Inline

/-- Inline scheduler state: the fields of `InlineScheduler`
(`currentJob`, `pendingJob`, `aborting`, `abortTimer`, `debounceTimer`,
`loadedModel`, `state`), plus `abortSink` — the `onProgress` callback captured
by `handleAbortTimeout` (identified by the id of the submission that supplied
it) — and the environment-model fields `outstanding` and `used`.  A pending
job's `resolve`/`onProgress` callbacks are identified by its id. -/
structure State where
  currentJob : Option CurrentJob
  pendingJob : Option PendingJob
  aborting : Bool
  abortTimer : Option Nat
  abortSink : Option Nat
  debounceTimer : Option Nat
  loadedModel : Option ModelId
  stateF : WState
  outstanding : List Nat
  used : List Nat
deriving DecidableEq, Repr

/-- Initial inline scheduler state (fresh `InlineScheduler` with a model
already loaded or not, per `setLoadedModel`). -/
def init (m : Option ModelId) : State :=
  { currentJob := none, pendingJob := none, aborting := false,
    abortTimer := none, abortSink := none, debounceTimer := none,
    loadedModel := m, stateF := .idle, outstanding := [], used := [] }

/-- `setState`: store the state and notify the `onStateChange` callback. -/
def setState (st : State) (s : WState) : State × List Msg :=
  ({ st with stateF := s }, [.state s])

/-- `InlineScheduler.startPending` (`inline_host.ts` L132-153). -/
def startPending (st : State) : State × List Msg :=
  match st.pendingJob, st.currentJob with
  | some p, none =>
      let (st1, out1) := setState st .running
      ({ st1 with pendingJob := none,
                  currentJob := some { id := p.id, aborted := false, params := p.params },
                  outstanding := p.id :: st1.outstanding },
       out1)
  | _, _ => (st, [])

/-- `InlineScheduler.maybeStartNext` (`inline_host.ts` L106-130). -/
def maybeStartNext (now : Nat) (st : State) : State × List Msg :=
  match st.currentJob with
  | some _ => (st, [])
  | none =>
    match st.pendingJob with
    | none => setState st .idle
    | some p =>
      let (st0, out0) := setState st .queued
      let wait : Nat := (p.debounceUntil.getD 0) - now
      let st1 := { st0 with debounceTimer := none }
      if wait > 0 then
        ({ st1 with debounceTimer := some (now + wait) }, out0)
      else
        let (st2, out2) := startPending st1
        (st2, out0 ++ out2)

/-- `InlineScheduler.supersedePending` (`inline_host.ts` L155-162): the
displaced pending job's promise is resolved with `{ ok: false, reason:
'cancelled' }`, then the new job is installed. -/
def supersedePending (st : State) (newJob : PendingJob) : State × List Msg :=
  let out0 : List Msg :=
    match st.pendingJob with
    | some p => [.result p.id (.err (.ec .cancelled) none)]
    | none => []
  let (st1, out1) := setState { st with pendingJob := some newJob } .queued
  (st1, out0 ++ out1)

/-- The abort block shared by `enqueueGenerate`'s `abort_and_queue` branch
(`inline_host.ts` L264-274) and `abort()` (L292-307): mark aborting, set
state, signal the controller, restart the Abort Timeout Guard capturing the
given progress sink (`handleAbortTimeout`, L164-172). -/
def beginAbort (now : Nat) (st : State) (c : CurrentJob) (sink : Option Nat) :
    State × List Msg :=
  let (st1, out1) := setState { st with aborting := true } .aborting
  let (c1, sig) := Host.abortController c
  ({ st1 with currentJob := some c1,
              abortTimer := some (now + ABORT_TIMEOUT_MS),
              abortSink := sink },
   out1 ++ sig)

/-- `InlineScheduler.enqueueGenerate` (`inline_host.ts` L174-290).  The
submission's promise / progress sink are identified by `id` (the `uid()`
generated at L216). -/
def generate (now : Nat) (st : State) (id : Nat) (p : JobParams)
    (bp : Option BusyPolicy) (rq : Option Bool) (dm : Option Int) :
    State × List Msg :=
  let policy := bp.getD .queue
  let replaceQueued := rq.getD true
  let debounceMs : Nat := (max 0 (dm.getD 0)).toNat
  let st := { st with used := id :: st.used }
  match p.model.orElse (fun _ => st.loadedModel) with
  | none =>
      (st, [.result id (.err (.ec .modelNotLoaded)
        (some "No model loaded; specify a model or call load() first."))])
  | some resolvedModel =>
    match st.loadedModel with
    | none =>
        (st, [.result id (.err (.ec .modelNotLoaded)
          (some "No model loaded; call load() first."))])
    | some loaded =>
      if loaded ≠ resolvedModel then
        (st, [.result id (.err (.ec .modelNotLoaded)
          (some ("Loaded model is \"" ++ loaded.str ++ "\"; requested generate for \""
                 ++ resolvedModel.str ++ "\".")))])
      else
        let rp : JobParams := { p with model := some resolvedModel }
        match st.currentJob with
        | none =>
            let (st1, out1) := setState st .running
            ({ st1 with currentJob := some { id := id, aborted := false, params := rp },
                        outstanding := id :: st1.outstanding },
             out1)
        | some _ =>
          match policy with
          | .reject =>
              (st, [.result id (.err (.ec .internalError) (some "Generator is busy"))])
          | .abortAndQueue =>
              let pj : PendingJob :=
                { id := id, params := rp,
                  debounceUntil := if debounceMs > 0 then some (now + debounceMs) else none }
              let installed : Option (State × List Msg) :=
                if replaceQueued then some (supersedePending st pj)
                else match st.pendingJob with
                  | none => some ({ st with pendingJob := some pj }, [])
                  | some _ => none
              match installed with
              | none =>
                  (st, [.result id (.err (.ec .internalError) (some "Generator is busy"))])
              | some (st1, out1) =>
                  let (st2, out2) :=
                    if !st1.aborting then
                      match st1.currentJob with
                      | some c2 => beginAbort now st1 c2 (some id)
                      | none => (st1, [])
                    else (st1, [])
                  (st2, out1 ++ out2)
          | .queue =>
              let pj : PendingJob :=
                { id := id, params := rp,
                  debounceUntil := if debounceMs > 0 then some (now + debounceMs) else none }
              let (st1, out1) :=
                match st.pendingJob with
                | some _ =>
                    if replaceQueued then supersedePending st pj
                    else (st, [.result id (.err (.ec .internalError) (some "Generator is busy"))])
                | none => ({ st with pendingJob := some pj }, [])
              let (st2, out2) := setState st1 .queued
              (st2, out1 ++ out2)

/-- `InlineScheduler.abort` (`inline_host.ts` L292-307): no reply; the guard
is started without a progress sink. -/
def abortReq (now : Nat) (st : State) : State × List Msg :=
  match st.currentJob with
  | some c =>
      if !st.aborting then beginAbort now st c none
      else (st, [])
  | none => (st, [])

/-- Settlement of the executor run for job `j` (`InlineScheduler.runJob`
after `await generateImage`, `inline_host.ts` L85-104, then the promise
resolution wired in `startPending`/`enqueueGenerate`): a stale job resolves
with `{ ok: false, reason: 'cancelled' }` and changes nothing else; otherwise
the slot is cleared, an in-flight abort wound down, `maybeStartNext` runs,
and the job's promise resolves with the executor's result. -/
def jobSettled (now : Nat) (st : State) (j : Nat) (res : ExecRes) :
    State × List Msg :=
  let st := { st with outstanding := st.outstanding.erase j }
  let stale : Bool :=
    match st.currentJob with
    | none => true
    | some c => c.id != j
  if stale then
    (st, [.result j (.err (.ec .cancelled) none)])
  else
    let st1 := { st with currentJob := none }
    let st2 :=
      if st1.aborting then { st1 with aborting := false, abortTimer := none }
      else st1
    let (st3, out3) := maybeStartNext now st2
    (st3, out3 ++ [.result j res.toWire])

/-- Firing of the inline Abort Timeout Guard (`handleAbortTimeout`'s
callback, `inline_host.ts` L165-171): the hint goes to the captured sink — if
one was supplied — when a job is still running; the aborting flag clears. -/
def abortTimerFire (st : State) : State × List Msg :=
  let out : List Msg :=
    match st.currentJob, st.abortSink with
    | some _, some s => [.hint s]
    | _, _ => []
  ({ st with abortTimer := none, aborting := false }, out)

/-- Firing of the inline debounce timer (`maybeStartNext`'s `setTimeout`
callback, `inline_host.ts` L124-126). -/
def debounceTimerFire (st : State) : State × List Msg :=
  startPending { st with debounceTimer := none }

/-- One step of the inline scheduler. -/
def step (now : Nat) (st : State) : Event → State × List Msg
  | .generate id p bp rq dm => generate now st id p bp rq dm
  | .abortReq _ => abortReq now st
  | .jobSettled j res => jobSettled now st j res
  | .abortTimerFire => abortTimerFire st
  | .debounceTimerFire => debounceTimerFire st

/-- Event validity, as for the host. -/
def validB (st : State) (now : Nat) : Event → Bool
  | .generate id _ _ _ _ => !(st.used.contains id)
  | .abortReq _ => true
  | .jobSettled j _ => st.outstanding.contains j
  | .abortTimerFire =>
      match st.abortTimer with
      | some t => t ≤ now
      | none => false
  | .debounceTimerFire =>
      match st.debounceTimer with
      | some t => t ≤ now
      | none => false

/-- Run a timed event list, accumulating emitted messages. -/
def run (st : State) : List (Nat × Event) → State × List Msg
  | [] => (st, [])
  | (now, ev) :: rest =>
      let (st1, out1) := step now st ev
      let (st2, out2) := run st1 rest
      (st2, out1 ++ out2)

/-- Validity of a timed event list. -/
def validTraceB (st : State) : List (Nat × Event) → Bool
  | [] => true
  | (now, ev) :: rest =>
      validB st now ev && validTraceB (step now st ev).1 rest

end Inline

/-! ## Counting and bookkeeping lemmas -/

/-- Live occurrences of job `j` in a (current, pending) slot pair. -/
def live (cur : Option CurrentJob) (pend : Option PendingJob) (j : Nat) : Nat :=
  (match cur with
   | some c => if c.id = j then 1 else 0
   | none => 0) +
  (match pend with
   | some p => if p.id = j then 1 else 0
   | none => 0)

/-- The pending job installed for a busy `queue`/`abort_and_queue`
submission: its `debounceUntil` is set `debounceMs` past `now` when a
positive debounce was requested (both schedulers produce this same shape). -/
def mkPending (now : Nat) (id : Nat) (p : JobParams) (debounceMs : Nat) : PendingJob :=
  { id := id, params := p,
    debounceUntil := if 0 < debounceMs then some (now + debounceMs) else none }

theorem settleCount_nil (j : Nat) : settleCount [] j = 0 := rfl

theorem settleCount_append (l₁ l₂ : List Msg) (j : Nat) :
    settleCount (l₁ ++ l₂) j = settleCount l₁ j + settleCount l₂ j :=
  List.countP_append _ _ _

theorem settleCount_cons (m : Msg) (l : List Msg) (j : Nat) :
    settleCount (m :: l) j = settleCount l j + (if m.isResultFor j then 1 else 0) := by
  simp [settleCount, List.countP_cons]

theorem signalCount_nil (j : Nat) : signalCount [] j = 0 := rfl

theorem signalCount_append (l₁ l₂ : List Msg) (j : Nat) :
    signalCount (l₁ ++ l₂) j = signalCount l₁ j + signalCount l₂ j :=
  List.countP_append _ _ _

theorem signalCount_cons (m : Msg) (l : List Msg) (j : Nat) :
    signalCount (m :: l) j = signalCount l j + (if m.isSignalFor j then 1 else 0) := by
  simp [signalCount, List.countP_cons]

/-- Messages that are neither terminal results nor token signals; appending
them changes no settle or signal count. -/
def Msg.neutral : Msg → Bool
  | .result _ _ => false
  | .signal _ => false
  | _ => true

theorem settleCount_neutral (out : List Msg) (hout : ∀ m ∈ out, m.neutral)
    (j : Nat) : settleCount out j = 0 := by
  refine List.countP_eq_zero.mpr ?_
  intro m hm
  have := hout m hm
  cases m <;> simp_all [Msg.neutral, Msg.isResultFor]

theorem signalCount_neutral (out : List Msg) (hout : ∀ m ∈ out, m.neutral)
    (j : Nat) : signalCount out j = 0 := by
  refine List.countP_eq_zero.mpr ?_
  intro m hm
  have := hout m hm
  cases m <;> simp_all [Msg.neutral, Msg.isSignalFor]

namespace Host

/-- Ids currently executing, as seen by the scheduler. -/
def currentIds (st : State) : List Nat :=
  match st.currentJob with
  | some c => [c.id]
  | none => []

/-- Live occurrences of `j` in the host's slots. -/
def liveCount (st : State) (j : Nat) : Nat :=
  live st.currentJob st.pendingJob j

/-- Reachability invariant of the worker host, without the debounce-deadline
clause (which is transiently broken between clearing the current slot on
settlement and the `maybeStartNext` call that re-establishes it). -/
structure InvND (st : State) (log : List Msg) : Prop where
  out_current : st.outstanding = currentIds st
  used_current : ∀ c, st.currentJob = some c → c.id ∈ st.used
  used_pending : ∀ p, st.pendingJob = some p → p.id ∈ st.used
  cp_distinct : ∀ c p, st.currentJob = some c → st.pendingJob = some p → c.id ≠ p.id
  settle_bal : ∀ j, settleCount log j + liveCount st j = (if j ∈ st.used then 1 else 0)
  aborting_current : st.aborting = true → st.currentJob.isSome
  abortTimer_inv : st.abortTimer.isSome → st.aborting = true ∧ st.currentJob.isSome
  db_pending : st.debounceTimer.isSome → st.pendingJob.isSome
  sig_le : ∀ j, signalCount log j ≤ 1
  sig_used : ∀ j, 1 ≤ signalCount log j → j ∈ st.used
  sig_pending : ∀ p, st.pendingJob = some p → signalCount log p.id = 0
  sig_current : ∀ c, st.currentJob = some c →
      signalCount log c.id = (if c.aborted then 1 else 0)

/-- Full reachability invariant of the worker host, relative to the message
log emitted so far: single-flight bookkeeping, settle/live balance (each used
id is either settled exactly once in the log or live in exactly one slot),
abort-guard consistency, the debounce-deadline bound of the armed debounce
timer, and at-most-once token signalling. -/
structure Inv (st : State) (log : List Msg) extends InvND st log : Prop where
  db_inv : ∀ t, st.debounceTimer = some t → st.currentJob = none →
      ∃ p, st.pendingJob = some p ∧ p.debounceUntil.getD 0 ≤ t

theorem inv_init : Inv init [] := by
  refine ⟨⟨rfl, ?_, ?_, ?_, ?_, ?_, ?_, ?_, ?_, ?_, ?_, ?_⟩, ?_⟩ <;>
    simp [init, settleCount, signalCount, liveCount, live, currentIds]

/-! ### Branch equations for the host step function -/

theorem generate_idle_eq (now : Nat) (st : State) (id : Nat) (p : JobParams)
    (bp : Option BusyPolicy) (rq : Option Bool) (dm : Option Int)
    (hc : st.currentJob = none) :
    generate now st id p bp rq dm =
      ({ st with used := id :: st.used,
                 currentJob := some { id := id, aborted := false, params := p },
                 outstanding := id :: st.outstanding },
       [.state .running]) := by
  simp [generate, hc]

theorem generate_reject_eq (now : Nat) (st : State) (id : Nat) (p : JobParams)
    (bp : Option BusyPolicy) (rq : Option Bool) (dm : Option Int) (c : CurrentJob)
    (hc : st.currentJob = some c) (hbp : bp.getD .queue = .reject) :
    generate now st id p bp rq dm =
      ({ st with used := id :: st.used }, [.result id (.err .busy none)]) := by
  simp [generate, hc, hbp]

theorem generate_queue_install_eq (now : Nat) (st : State) (id : Nat) (p : JobParams)
    (bp : Option BusyPolicy) (rq : Option Bool) (dm : Option Int) (c : CurrentJob)
    (hc : st.currentJob = some c) (hp : st.pendingJob = none)
    (hbp : bp.getD .queue = .queue) :
    generate now st id p bp rq dm =
      ({ st with used := id :: st.used,
                 pendingJob := some (mkPending now id p (max 0 (dm.getD 0)).toNat) },
       [.accepted id, .state .queued]) := by
  simp [generate, hc, hp, hbp, mkPending]

theorem generate_queue_replace_eq (now : Nat) (st : State) (id : Nat) (p : JobParams)
    (bp : Option BusyPolicy) (rq : Option Bool) (dm : Option Int) (c : CurrentJob)
    (q : PendingJob) (hc : st.currentJob = some c) (hp : st.pendingJob = some q)
    (hbp : bp.getD .queue = .queue) (hrq : rq.getD true = true) :
    generate now st id p bp rq dm =
      ({ st with used := id :: st.used,
                 pendingJob := some (mkPending now id p (max 0 (dm.getD 0)).toNat) },
       [.result q.id (.err .superseded none), .state .queued, .accepted id, .state .queued]) := by
  simp [generate, hc, hp, hbp, hrq, supersedePending, mkPending]

theorem generate_queue_busy_eq (now : Nat) (st : State) (id : Nat) (p : JobParams)
    (bp : Option BusyPolicy) (rq : Option Bool) (dm : Option Int) (c : CurrentJob)
    (q : PendingJob) (hc : st.currentJob = some c) (hp : st.pendingJob = some q)
    (hbp : bp.getD .queue = .queue) (hrq : rq.getD true = false) :
    generate now st id p bp rq dm =
      ({ st with used := id :: st.used },
       [.result id (.err .busy none), .state .queued]) := by
  simp [generate, hc, hp, hbp, hrq]

theorem generate_aaq_busy_eq (now : Nat) (st : State) (id : Nat) (p : JobParams)
    (bp : Option BusyPolicy) (rq : Option Bool) (dm : Option Int) (c : CurrentJob)
    (q : PendingJob) (hc : st.currentJob = some c) (hp : st.pendingJob = some q)
    (hbp : bp.getD .queue = .abortAndQueue) (hrq : rq.getD true = false) :
    generate now st id p bp rq dm =
      ({ st with used := id :: st.used }, [.result id (.err .busy none)]) := by
  simp [generate, hc, hp, hbp, hrq]

theorem beginAbort_eq (now : Nat) (st : State) (c : CurrentJob) :
    beginAbort now st c =
      ({ st with aborting := true,
                 currentJob := some { c with aborted := true },
                 abortTimer := some (now + ABORT_TIMEOUT_MS) },
       .state .aborting :: (if c.aborted then [] else [.signal c.id])) := by
  rcases c with ⟨ci, ca, cp⟩
  by_cases h : ca <;> simp [beginAbort, abortController, h]

theorem generate_aaq_go_eq (now : Nat) (st : State) (id : Nat) (p : JobParams)
    (bp : Option BusyPolicy) (rq : Option Bool) (dm : Option Int) (c : CurrentJob)
    (hc : st.currentJob = some c) (hbp : bp.getD .queue = .abortAndQueue)
    (hinst : rq.getD true = true ∨ st.pendingJob = none) :
    generate now st id p bp rq dm =
      let sup : List Msg :=
        if rq.getD true = true then
          (match st.pendingJob with
           | some q => [.result q.id (.err .superseded none)]
           | none => []) ++ [.state .queued]
        else []
      let st1 : State :=
        { st with used := id :: st.used,
                  pendingJob := some (mkPending now id p (max 0 (dm.getD 0)).toNat) }
      if st.aborting then (st1, sup ++ [.accepted id])
      else
        ({ st1 with aborting := true,
                    currentJob := some { c with aborted := true },
                    abortTimer := some (now + ABORT_TIMEOUT_MS) },
         sup ++ (.state .aborting :: (if c.aborted then [] else [.signal c.id]))
             ++ [.accepted id]) := by
  rcases c with ⟨ci, ca, cp⟩
  rcases hrq : rq.getD true with _ | _
  · rcases hinst with h | hp
    · rw [hrq] at h; exact absurd h (by simp)
    · by_cases ha : st.aborting <;>
        by_cases hca : ca <;>
          by_cases hdm : 0 < (max 0 (dm.getD 0)).toNat <;>
            simp [generate, hc, hp, hbp, hrq, ha, hca, hdm, supersedePending, beginAbort,
              abortController, mkPending]
  · rcases hp : st.pendingJob with _ | q <;>
      by_cases ha : st.aborting <;>
        by_cases hca : ca <;>
          by_cases hdm : 0 < (max 0 (dm.getD 0)).toNat <;>
            simp [generate, hc, hp, hbp, hrq, ha, hca, hdm, supersedePending, beginAbort,
              abortController, mkPending]

theorem startPending_go_eq (st : State) (p : PendingJob)
    (hp : st.pendingJob = some p) (hc : st.currentJob = none) :
    startPending st =
      ({ st with pendingJob := none,
                 currentJob := some { id := p.id, aborted := false, params := p.params },
                 outstanding := p.id :: st.outstanding },
       [.state .running]) := by
  simp [startPending, hp, hc]

theorem startPending_skip_current_eq (st : State) (c : CurrentJob)
    (hc : st.currentJob = some c) : startPending st = (st, []) := by
  rcases hp : st.pendingJob with _ | p <;> simp [startPending, hp, hc]

theorem startPending_skip_pending_eq (st : State)
    (hp : st.pendingJob = none) : startPending st = (st, []) := by
  rcases hc : st.currentJob with _ | c <;> simp [startPending, hp, hc]

theorem maybeStartNext_current_eq (now : Nat) (st : State) (c : CurrentJob)
    (hc : st.currentJob = some c) : maybeStartNext now st = (st, []) := by
  simp [maybeStartNext, hc]

theorem maybeStartNext_idle_eq (now : Nat) (st : State)
    (hc : st.currentJob = none) (hp : st.pendingJob = none) :
    maybeStartNext now st = (st, [.state .idle]) := by
  simp [maybeStartNext, hc, hp]

theorem maybeStartNext_wait_eq (now : Nat) (st : State) (p : PendingJob)
    (hc : st.currentJob = none) (hp : st.pendingJob = some p)
    (hw : now < p.debounceUntil.getD 0) :
    maybeStartNext now st =
      ({ st with debounceTimer := some (p.debounceUntil.getD 0) }, [.state .queued]) := by
  have h1 : now + (p.debounceUntil.getD 0 - now) = p.debounceUntil.getD 0 := by omega
  have h2 : 0 < p.debounceUntil.getD 0 - now := by omega
  simp [maybeStartNext, hc, hp, h1, h2]

theorem maybeStartNext_go_eq (now : Nat) (st : State) (p : PendingJob)
    (hc : st.currentJob = none) (hp : st.pendingJob = some p)
    (hw : p.debounceUntil.getD 0 ≤ now) :
    maybeStartNext now st =
      ({ st with debounceTimer := none, pendingJob := none,
                 currentJob := some { id := p.id, aborted := false, params := p.params },
                 outstanding := p.id :: st.outstanding },
       [.state .queued, .state .running]) := by
  have h2 : p.debounceUntil.getD 0 - now = 0 := by omega
  simp [maybeStartNext, hc, hp, h2, startPending]

theorem jobSettled_stale_none_eq (now : Nat) (st : State) (j : Nat) (res : ExecRes)
    (hc : st.currentJob = none) :
    jobSettled now st j res = ({ st with outstanding := st.outstanding.erase j }, []) := by
  simp [jobSettled, hc]

theorem jobSettled_stale_other_eq (now : Nat) (st : State) (j : Nat) (res : ExecRes)
    (c : CurrentJob) (hc : st.currentJob = some c) (hj : c.id ≠ j) :
    jobSettled now st j res = ({ st with outstanding := st.outstanding.erase j }, []) := by
  simp [jobSettled, hc, hj]

theorem jobSettled_current_eq (now : Nat) (st : State) (j : Nat) (res : ExecRes)
    (c : CurrentJob) (hc : st.currentJob = some c) (hj : c.id = j) :
    jobSettled now st j res =
      (let st2 : State :=
        { st with outstanding := st.outstanding.erase j, currentJob := none,
                  aborting := false,
                  abortTimer := if st.aborting then none else st.abortTimer }
       ((maybeStartNext now st2).1, .result j res.toWire :: (maybeStartNext now st2).2)) := by
  by_cases ha : st.aborting <;> simp [jobSettled, hc, hj, ha]

theorem abortReq_idle_eq (now : Nat) (st : State) (r : Nat)
    (hc : st.currentJob = none) : abortReq now st r = (st, [.ackOk r]) := by
  simp [abortReq, hc]

theorem abortReq_aborting_eq (now : Nat) (st : State) (r : Nat) (c : CurrentJob)
    (hc : st.currentJob = some c) (ha : st.aborting = true) :
    abortReq now st r = (st, [.accepted r]) := by
  simp [abortReq, hc, ha]

theorem abortReq_go_eq (now : Nat) (st : State) (r : Nat) (c : CurrentJob)
    (hc : st.currentJob = some c) (ha : st.aborting = false) :
    abortReq now st r =
      ((beginAbort now st c).1, (beginAbort now st c).2 ++ [.accepted r]) := by
  simp [abortReq, hc, ha]

/-! ### Invariant preservation, worker host -/

theorem inv_startPending (st : State) (log : List Msg) (h : Inv st log)
    (hdb : st.debounceTimer = none) :
    Inv (startPending st).1 (log ++ (startPending st).2) := by
  rcases hp : st.pendingJob with _ | p
  · rw [startPending_skip_pending_eq st hp]
    simpa using h
  · rcases hc : st.currentJob with _ | c
    · rw [startPending_go_eq st p hp hc]
      have hout : st.outstanding = [] := by rw [h.out_current]; simp [currentIds, hc]
      have hps := h.sig_pending p hp
      have hpu := h.used_pending p hp
      refine ⟨⟨?_, ?_, ?_, ?_, ?_, ?_, ?_, ?_, ?_, ?_, ?_, ?_⟩, ?_⟩
      · simp [currentIds, hout]
      · rintro c' hc'
        simp at hc'
        simp [← hc', hpu]
      · simp
      · simp
      · intro j
        have hb := h.settle_bal j
        simp only [liveCount, live, hc, hp] at hb
        simp only [settleCount_append, settleCount_cons, settleCount_nil,
          Msg.isResultFor, liveCount, live]
        simp
        omega
      · simp
      · intro hti
        simp at hti ⊢
        exact (h.abortTimer_inv (by simpa using hti)).1
      · simp [hdb]
      · intro j
        simpa [signalCount_append, signalCount_cons, signalCount_nil,
          Msg.isSignalFor] using h.sig_le j
      · intro j hj
        simp [signalCount_append, signalCount_cons, signalCount_nil,
          Msg.isSignalFor] at hj
        simpa using h.sig_used j hj
      · simp
      · rintro c' hc'
        simp at hc'
        simp [signalCount_append, signalCount_cons, signalCount_nil,
          Msg.isSignalFor, ← hc']
        exact hps
      · simp
    · rw [startPending_skip_current_eq st c hc]
      simpa using h

theorem inv_maybeStartNext (now : Nat) (st : State) (log : List Msg)
    (h : InvND st log) (hc : st.currentJob = none) :
    Inv (maybeStartNext now st).1 (log ++ (maybeStartNext now st).2) := by
  rcases hp : st.pendingJob with _ | p
  · rw [maybeStartNext_idle_eq now st hc hp]
    have hdb : st.debounceTimer = none := by
      cases hdb : st.debounceTimer with
      | none => rfl
      | some t =>
        have := h.db_pending (by simp [hdb])
        simp [hp] at this
    refine ⟨⟨h.out_current, h.used_current, h.used_pending, h.cp_distinct, ?_,
      h.aborting_current, h.abortTimer_inv, h.db_pending, ?_, ?_, ?_, ?_⟩, ?_⟩
    · intro j
      simpa [settleCount_append, settleCount_cons, settleCount_nil,
        Msg.isResultFor] using h.settle_bal j
    · intro j
      simpa [signalCount_append, signalCount_cons, signalCount_nil,
        Msg.isSignalFor] using h.sig_le j
    · intro j hj
      refine h.sig_used j ?_
      simpa [signalCount_append, signalCount_cons, signalCount_nil,
        Msg.isSignalFor] using hj
    · intro p hp'
      simpa [signalCount_append, signalCount_cons, signalCount_nil,
        Msg.isSignalFor] using h.sig_pending p hp'
    · intro c hc'
      simpa [signalCount_append, signalCount_cons, signalCount_nil,
        Msg.isSignalFor] using h.sig_current c hc'
    · intro t ht _
      rw [hdb] at ht
      cases ht
  · by_cases hw : now < p.debounceUntil.getD 0
    · rw [maybeStartNext_wait_eq now st p hc hp hw]
      refine ⟨⟨h.out_current, h.used_current, h.used_pending, h.cp_distinct, ?_,
        h.aborting_current, ?_, ?_, ?_, ?_, ?_, ?_⟩, ?_⟩
      · intro j
        simpa [settleCount_append, settleCount_cons, settleCount_nil,
          Msg.isResultFor, liveCount, live] using h.settle_bal j
      · intro hti
        exact h.abortTimer_inv (by simpa using hti)
      · simp [hp]
      · intro j
        simpa [signalCount_append, signalCount_cons, signalCount_nil,
          Msg.isSignalFor] using h.sig_le j
      · intro j hj
        refine h.sig_used j ?_
        simpa [signalCount_append, signalCount_cons, signalCount_nil,
          Msg.isSignalFor] using hj
      · intro q hq
        simp at hq
        simpa [signalCount_append, signalCount_cons, signalCount_nil,
          Msg.isSignalFor] using h.sig_pending q (by simpa using hq)
      · intro c hc'
        rw [hc] at hc'
        cases hc'
      · intro t ht _
        simp at ht
        refine ⟨p, by simp [hp], ?_⟩
        omega
    · rw [maybeStartNext_go_eq now st p hc hp (by omega)]
      have hout : st.outstanding = [] := by rw [h.out_current]; simp [currentIds, hc]
      have hps := h.sig_pending p hp
      have hpu := h.used_pending p hp
      refine ⟨⟨?_, ?_, ?_, ?_, ?_, ?_, ?_, ?_, ?_, ?_, ?_, ?_⟩, ?_⟩
      · simp [currentIds, hout]
      · rintro c' hc'
        simp at hc'
        simp [← hc', hpu]
      · simp
      · simp
      · intro j
        have hb := h.settle_bal j
        simp only [liveCount, live, hc, hp] at hb
        simp only [settleCount_append, settleCount_cons, settleCount_nil,
          Msg.isResultFor, liveCount, live]
        simp
        omega
      · simp
      · intro hti
        simp at hti ⊢
        exact (h.abortTimer_inv (by simpa using hti)).1
      · simp
      · intro j
        simpa [signalCount_append, signalCount_cons, signalCount_nil,
          Msg.isSignalFor] using h.sig_le j
      · intro j hj
        simp [signalCount_append, signalCount_cons, signalCount_nil,
          Msg.isSignalFor] at hj
        simpa using h.sig_used j hj
      · simp
      · rintro c' hc'
        simp at hc'
        simp [signalCount_append, signalCount_cons, signalCount_nil,
          Msg.isSignalFor, ← hc']
        exact hps
      · simp

theorem inv_beginAbort (now : Nat) (st : State) (log : List Msg) (c : CurrentJob)
    (h : Inv st log) (hc : st.currentJob = some c) :
    Inv (beginAbort now st c).1 (log ++ (beginAbort now st c).2) := by
  rw [beginAbort_eq]
  have hcu : c.id ∈ st.used := h.used_current c hc
  have hsc := h.sig_current c hc
  refine ⟨⟨?_, ?_, ?_, ?_, ?_, ?_, ?_, ?_, ?_, ?_, ?_, ?_⟩, ?_⟩
  · simpa [currentIds, hc] using h.out_current
  · rintro c' hc'
    simp at hc'
    simp [← hc', hcu]
  · intro p hp
    exact h.used_pending p hp
  · rintro c' p hc' hp
    simp at hc'
    simp [← hc']
    exact h.cp_distinct c p hc hp
  · intro j
    have hb := h.settle_bal j
    simp only [liveCount, live, hc] at hb
    by_cases hca : c.aborted <;>
      by_cases hij : c.id = j <;>
        simp [settleCount_append, settleCount_cons, settleCount_nil,
          Msg.isResultFor, liveCount, live, hca, hij] at hb ⊢ <;>
      omega
  · intro _
    simp
  · intro _
    simp
  · intro hti
    exact h.db_pending hti
  · intro j
    by_cases hij : c.id = j
    · subst hij
      by_cases hca : c.aborted <;>
        simp [signalCount_append, signalCount_cons, signalCount_nil,
          Msg.isSignalFor, hca, hsc]
    · have hl := h.sig_le j
      by_cases hca : c.aborted <;>
        simp [signalCount_append, signalCount_cons, signalCount_nil,
          Msg.isSignalFor, hca, hij, hl]
  · intro j hj
    by_cases hij : c.id = j
    · subst hij
      exact hcu
    · refine h.sig_used j ?_
      by_cases hca : c.aborted <;>
        simpa [signalCount_append, signalCount_cons, signalCount_nil,
          Msg.isSignalFor, hca, hij] using hj
  · intro p hp
    have hd := h.cp_distinct c p hc hp
    have h0 := h.sig_pending p hp
    by_cases hca : c.aborted <;>
      simp [signalCount_append, signalCount_cons, signalCount_nil,
        Msg.isSignalFor, hca, h0, hd]
  · rintro c' hc'
    simp at hc'
    by_cases hca : c.aborted <;>
      simp [← hc', signalCount_append, signalCount_cons, signalCount_nil,
        Msg.isSignalFor, hca, hsc]
  · intro t ht hnone
    simp at hnone

theorem inv_append_neutral (st : State) (log out : List Msg) (h : Inv st log)
    (hout : ∀ m ∈ out, m.neutral) : Inv st (log ++ out) := by
  have hs : ∀ j, settleCount (log ++ out) j = settleCount log j := by
    intro j
    simp [settleCount_append, settleCount_neutral out hout]
  have hg : ∀ j, signalCount (log ++ out) j = signalCount log j := by
    intro j
    simp [signalCount_append, signalCount_neutral out hout]
  refine ⟨⟨h.out_current, h.used_current, h.used_pending, h.cp_distinct, ?_,
    h.aborting_current, h.abortTimer_inv, h.db_pending, ?_, ?_, ?_, ?_⟩, h.db_inv⟩
  · intro j
    rw [hs]
    exact h.settle_bal j
  · intro j
    rw [hg]
    exact h.sig_le j
  · intro j hj
    rw [hg] at hj
    exact h.sig_used j hj
  · intro p hp
    rw [hg]
    exact h.sig_pending p hp
  · intro c hc
    rw [hg]
    exact h.sig_current c hc

/-- Freshly-generated counting facts for an unused id. -/
theorem fresh_counts (st : State) (log : List Msg) (h : Inv st log) (id : Nat)
    (hv : id ∉ st.used) :
    settleCount log id = 0 ∧ liveCount st id = 0 ∧ signalCount log id = 0 := by
  have hb := h.settle_bal id
  rw [if_neg hv] at hb
  have hsig : signalCount log id = 0 := by
    by_contra h0
    exact hv (h.sig_used id (by omega))
  exact ⟨by omega, by omega, hsig⟩

/-- Installing a fresh pending job into the empty pending slot preserves the
invariant (no message emitted here). -/
theorem inv_install (now : Nat) (st : State) (log : List Msg) (h : Inv st log)
    (c : CurrentJob) (hc : st.currentJob = some c) (id : Nat) (p : JobParams)
    (dms : Nat) (hv : id ∉ st.used) (hp : st.pendingJob = none) :
    Inv { st with used := id :: st.used,
                  pendingJob := some (mkPending now id p dms) } log := by
  obtain ⟨hs0, hl0, hg0⟩ := fresh_counts st log h id hv
  have hci : c.id ≠ id := fun he => hv (he ▸ h.used_current c hc)
  refine ⟨⟨?_, ?_, ?_, ?_, ?_, ?_, ?_, ?_, ?_, ?_, ?_, ?_⟩, ?_⟩
  · simpa [currentIds] using h.out_current
  · intro c' hc'
    exact List.mem_cons_of_mem _ (h.used_current c' hc')
  · rintro p' hp'
    simp [mkPending] at hp'
    simp [← hp', mkPending]
  · rintro c' p' hc' hp'
    simp [mkPending] at hp'
    simp at hc'
    rw [hc] at hc'
    cases hc'
    simp [← hp', mkPending]
    exact hci
  · intro j
    have hb := h.settle_bal j
    simp only [liveCount, live, hc, hp] at hb ⊢
    by_cases hij : id = j
    · subst hij
      simp [mkPending, hci, hv] at hb ⊢
      omega
    · by_cases hm : j ∈ st.used <;>
        simp [mkPending, hij, Ne.symm hij, hm] at hb ⊢ <;> omega
  · intro ha
    simpa using (h.aborting_current ha)
  · intro hti
    simpa using h.abortTimer_inv hti
  · simp
  · exact h.sig_le
  · intro j hj
    exact List.mem_cons_of_mem _ (h.sig_used j hj)
  · rintro p' hp'
    simp [mkPending] at hp'
    simpa [← hp', mkPending] using hg0
  · exact h.sig_current
  · intro t ht hn
    rw [hc] at hn
    cases hn

/-- Superseding the occupied pending slot with a fresh job settles the
displaced job with `superseded` and preserves the invariant. -/
theorem inv_replace (now : Nat) (st : State) (log : List Msg) (h : Inv st log)
    (c : CurrentJob) (hc : st.currentJob = some c) (id : Nat) (p : JobParams)
    (dms : Nat) (hv : id ∉ st.used) (q : PendingJob) (hq : st.pendingJob = some q) :
    Inv { st with used := id :: st.used,
                  pendingJob := some (mkPending now id p dms) }
        (log ++ [.result q.id (.err .superseded none)]) := by
  obtain ⟨hs0, hl0, hg0⟩ := fresh_counts st log h id hv
  have hci : c.id ≠ id := fun he => hv (he ▸ h.used_current c hc)
  have hqi : q.id ≠ id := fun he => hv (he ▸ h.used_pending q hq)
  have hcq : c.id ≠ q.id := h.cp_distinct c q hc hq
  refine ⟨⟨?_, ?_, ?_, ?_, ?_, ?_, ?_, ?_, ?_, ?_, ?_, ?_⟩, ?_⟩
  · simpa [currentIds] using h.out_current
  · intro c' hc'
    exact List.mem_cons_of_mem _ (h.used_current c' hc')
  · rintro p' hp'
    simp [mkPending] at hp'
    simp [← hp', mkPending]
  · rintro c' p' hc' hp'
    simp [mkPending] at hp'
    simp at hc'
    rw [hc] at hc'
    cases hc'
    simp [← hp', mkPending]
    exact hci
  · intro j
    have hb := h.settle_bal j
    simp only [liveCount, live, hc, hq] at hb ⊢
    by_cases hij : id = j
    · subst hij
      simp [mkPending, settleCount_append, settleCount_cons, settleCount_nil,
        Msg.isResultFor, hci, hqi, hv] at hb ⊢
      omega
    · by_cases hqj : q.id = j
      · subst hqj
        have hqu := h.used_pending q hq
        simp [mkPending, settleCount_append, settleCount_cons, settleCount_nil,
          Msg.isResultFor, hij, Ne.symm hij, hcq, hqu] at hb ⊢
        omega
      · by_cases hm : j ∈ st.used <;>
          simp [mkPending, settleCount_append, settleCount_cons, settleCount_nil,
            Msg.isResultFor, hij, Ne.symm hij, hqj, hm] at hb ⊢ <;> omega
  · intro ha
    simpa using (h.aborting_current ha)
  · intro hti
    simpa using h.abortTimer_inv hti
  · simp
  · intro j
    simpa [signalCount_append, signalCount_cons, signalCount_nil,
      Msg.isSignalFor] using h.sig_le j
  · intro j hj
    simp [signalCount_append, signalCount_cons, signalCount_nil,
      Msg.isSignalFor] at hj
    exact List.mem_cons_of_mem _ (h.sig_used j hj)
  · rintro p' hp'
    simp [mkPending] at hp'
    simp [← hp', mkPending, signalCount_append, signalCount_cons,
      signalCount_nil, Msg.isSignalFor]
    exact hg0
  · intro c' hc'
    simpa [signalCount_append, signalCount_cons, signalCount_nil,
      Msg.isSignalFor] using h.sig_current c' hc'
  · intro t ht hn
    rw [hc] at hn
    cases hn

/-- Settling a fresh submission immediately with a failed result (`busy`)
preserves the invariant. -/
theorem inv_busyResult (st : State) (log : List Msg) (h : Inv st log)
    (c : CurrentJob) (_hc : st.currentJob = some c) (id : Nat)
    (r : Reason) (m : Option String) (hv : id ∉ st.used) :
    Inv { st with used := id :: st.used }
        (log ++ [.result id (.err r m)]) := by
  obtain ⟨hs0, hl0, hg0⟩ := fresh_counts st log h id hv
  refine ⟨⟨?_, ?_, ?_, ?_, ?_, ?_, ?_, ?_, ?_, ?_, ?_, ?_⟩, ?_⟩
  · simpa [currentIds] using h.out_current
  · intro c' hc'
    exact List.mem_cons_of_mem _ (h.used_current c' hc')
  · intro p' hp'
    exact List.mem_cons_of_mem _ (h.used_pending p' hp')
  · exact h.cp_distinct
  · intro j
    have hb := h.settle_bal j
    simp only [liveCount, live] at hb ⊢
    by_cases hij : id = j
    · subst hij
      simp [settleCount_append, settleCount_cons, settleCount_nil,
        Msg.isResultFor, hv] at hb ⊢
      omega
    · by_cases hm : j ∈ st.used <;>
        simp [settleCount_append, settleCount_cons, settleCount_nil,
          Msg.isResultFor, hij, Ne.symm hij, hm] at hb ⊢ <;> omega
  · exact h.aborting_current
  · exact h.abortTimer_inv
  · exact h.db_pending
  · intro j
    simpa [signalCount_append, signalCount_cons, signalCount_nil,
      Msg.isSignalFor] using h.sig_le j
  · intro j hj
    simp [signalCount_append, signalCount_cons, signalCount_nil,
      Msg.isSignalFor] at hj
    exact List.mem_cons_of_mem _ (h.sig_used j hj)
  · intro p' hp'
    simpa [signalCount_append, signalCount_cons, signalCount_nil,
      Msg.isSignalFor] using h.sig_pending p' hp'
  · intro c' hc'
    simpa [signalCount_append, signalCount_cons, signalCount_nil,
      Msg.isSignalFor] using h.sig_current c' hc'
  · exact h.db_inv

theorem inv_generate (now : Nat) (st : State) (log : List Msg) (h : Inv st log)
    (id : Nat) (p : JobParams) (bp : Option BusyPolicy) (rq : Option Bool)
    (dm : Option Int) (hv : id ∉ st.used) :
    Inv (generate now st id p bp rq dm).1
        (log ++ (generate now st id p bp rq dm).2) := by
  rcases hc : st.currentJob with _ | c
  · rw [generate_idle_eq now st id p bp rq dm hc]
    obtain ⟨hs0, hl0, hg0⟩ := fresh_counts st log h id hv
    refine ⟨⟨?_, ?_, ?_, ?_, ?_, ?_, ?_, ?_, ?_, ?_, ?_, ?_⟩, ?_⟩
    · have hout : st.outstanding = [] := by rw [h.out_current]; simp [currentIds, hc]
      simp [currentIds, hout]
    · rintro c' hc'
      simp at hc'
      simp [← hc']
    · intro p' hp'
      exact List.mem_cons_of_mem _ (h.used_pending p' hp')
    · rintro c' p' hc' hp'
      simp at hc'
      have := h.used_pending p' hp'
      simp [← hc']
      intro he
      exact hv (he ▸ this)
    · intro j
      have hb := h.settle_bal j
      simp only [liveCount, live, hc] at hb ⊢
      by_cases hij : id = j
      · subst hij
        simp [settleCount_append, settleCount_cons, settleCount_nil,
          Msg.isResultFor, hv] at hb ⊢
        omega
      · by_cases hm : j ∈ st.used <;>
          simp [settleCount_append, settleCount_cons, settleCount_nil,
            Msg.isResultFor, hij, Ne.symm hij, hm] at hb ⊢ <;> omega
    · intro _
      simp
    · intro hti
      obtain ⟨_, hcs⟩ := h.abortTimer_inv (by simpa using hti)
      rw [hc] at hcs
      cases hcs
    · exact h.db_pending
    · intro j
      simpa [signalCount_append, signalCount_cons, signalCount_nil,
        Msg.isSignalFor] using h.sig_le j
    · intro j hj
      refine List.mem_cons_of_mem _ (h.sig_used j ?_)
      simpa [signalCount_append, signalCount_cons, signalCount_nil,
        Msg.isSignalFor] using hj
    · intro p' hp'
      simpa [signalCount_append, signalCount_cons, signalCount_nil,
        Msg.isSignalFor] using h.sig_pending p' hp'
    · rintro c' hc'
      simp at hc'
      simp [← hc', signalCount_append, signalCount_cons, signalCount_nil,
        Msg.isSignalFor]
      exact hg0
    · intro t ht hn
      simp at hn
  · rcases hpol : bp.getD .queue with _ | _ | _
    · -- reject
      rw [generate_reject_eq now st id p bp rq dm c hc hpol]
      exact inv_busyResult st log h c hc id .busy none hv
    · -- abort_and_queue
      rcases hrq : rq.getD true with _ | _
      · rcases hq : st.pendingJob with _ | q
        · -- install into empty slot, then abort block
          rw [generate_aaq_go_eq now st id p bp rq dm c hc hpol (Or.inr hq)]
          simp only [hrq]
          have h1 := inv_install now st log h c hc id p (max 0 (dm.getD 0)).toNat hv hq
          by_cases ha : st.aborting
          · have := inv_append_neutral _ _ [.accepted id] h1 (by simp [Msg.neutral])
            simpa [ha] using this
          · have h2 := inv_beginAbort now _ _ c h1 (by simpa using hc)
            rw [beginAbort_eq] at h2
            have h3 := inv_append_neutral _ _ [.accepted id] h2 (by simp [Msg.neutral])
            simpa [ha, mkPending] using h3
        · -- pending occupied, replaceQueued = false: busy, nothing else
          rw [generate_aaq_busy_eq now st id p bp rq dm c q hc hq hpol hrq]
          exact inv_busyResult st log h c hc id .busy none hv
      · -- replaceQueued = true: supersede then abort block
        rw [generate_aaq_go_eq now st id p bp rq dm c hc hpol (Or.inl hrq)]
        simp only [hrq]
        have h1 : Inv { st with used := id :: st.used, pendingJob := some (mkPending now id p (max 0 (dm.getD 0)).toNat) }
            (log ++ ((match st.pendingJob with
              | some q => [Msg.result q.id (.err .superseded none)]
              | none => []) ++ [Msg.state .queued])) := by
          rcases hq : st.pendingJob with _ | q
          · have := inv_install now st log h c hc id p (max 0 (dm.getD 0)).toNat hv hq
            exact inv_append_neutral _ _ _ this (by simp [Msg.neutral])
          · have := inv_replace now st log h c hc id p (max 0 (dm.getD 0)).toNat hv q hq
            have h2 := inv_append_neutral _ _ [.state .queued] this (by simp [Msg.neutral])
            simpa using h2
        by_cases ha : st.aborting
        · have := inv_append_neutral _ _ [.accepted id] h1 (by simp [Msg.neutral])
          simpa [ha] using this
        · have h2 := inv_beginAbort now _ _ c h1 (by simpa using hc)
          rw [beginAbort_eq] at h2
          have h3 := inv_append_neutral _ _ [.accepted id] h2 (by simp [Msg.neutral])
          simpa [ha, mkPending] using h3
    · -- queue
      rcases hq : st.pendingJob with _ | q
      · rw [generate_queue_install_eq now st id p bp rq dm c hc hq hpol]
        have := inv_install now st log h c hc id p (max 0 (dm.getD 0)).toNat hv hq
        exact inv_append_neutral _ _ _ this (by simp [Msg.neutral])
      · rcases hrq : rq.getD true with _ | _
        · rw [generate_queue_busy_eq now st id p bp rq dm c q hc hq hpol hrq]
          have := inv_busyResult st log h c hc id .busy none hv
          have h2 := inv_append_neutral _ _ [.state .queued] this (by simp [Msg.neutral])
          simpa using h2
        · rw [generate_queue_replace_eq now st id p bp rq dm c q hc hq hpol hrq]
          have := inv_replace now st log h c hc id p (max 0 (dm.getD 0)).toNat hv q hq
          have h2 := inv_append_neutral _ _
            [.state .queued, .accepted id, .state .queued] this (by simp [Msg.neutral])
          simpa using h2

theorem inv_abortReq (now : Nat) (st : State) (log : List Msg) (h : Inv st log)
    (r : Nat) : Inv (abortReq now st r).1 (log ++ (abortReq now st r).2) := by
  rcases hc : st.currentJob with _ | c
  · rw [abortReq_idle_eq now st r hc]
    exact inv_append_neutral _ _ _ h (by simp [Msg.neutral])
  · rcases ha : st.aborting with _ | _
    · rw [abortReq_go_eq now st r c hc ha]
      have h2 := inv_beginAbort now st log c h hc
      have h3 := inv_append_neutral _ _ [.accepted r] h2 (by simp [Msg.neutral])
      simpa using h3
    · rw [abortReq_aborting_eq now st r c hc ha]
      exact inv_append_neutral _ _ _ h (by simp [Msg.neutral])

theorem inv_abortTimerFire (st : State) (log : List Msg) (h : Inv st log) :
    Inv (abortTimerFire st).1 (log ++ (abortTimerFire st).2) := by
  have hneu : ∀ m ∈ (abortTimerFire st).2, m.neutral := by
    rcases hc : st.currentJob with _ | c <;> simp [abortTimerFire, hc, Msg.neutral]
  have hs : ∀ j, settleCount (log ++ (abortTimerFire st).2) j = settleCount log j := by
    intro j
    simp [settleCount_append, settleCount_neutral _ hneu]
  have hg : ∀ j, signalCount (log ++ (abortTimerFire st).2) j = signalCount log j := by
    intro j
    simp [signalCount_append, signalCount_neutral _ hneu]
  have hst : (abortTimerFire st).1 = { st with abortTimer := none, aborting := false } := by
    rcases hc : st.currentJob with _ | c <;> simp [abortTimerFire, hc]
  rw [hst]
  refine ⟨⟨?_, h.used_current, h.used_pending, h.cp_distinct, ?_, ?_, ?_,
    h.db_pending, ?_, ?_, ?_, ?_⟩, ?_⟩
  · simpa [currentIds] using h.out_current
  · intro j
    rw [hs]
    exact h.settle_bal j
  · intro ha
    cases ha
  · intro hti
    simp at hti
  · intro j
    rw [hg]
    exact h.sig_le j
  · intro j hj
    rw [hg] at hj
    exact h.sig_used j hj
  · intro p hp
    rw [hg]
    exact h.sig_pending p hp
  · intro c hc
    rw [hg]
    exact h.sig_current c hc
  · exact h.db_inv

theorem inv_debounceTimerFire (st : State) (log : List Msg) (h : Inv st log) :
    Inv (debounceTimerFire st).1 (log ++ (debounceTimerFire st).2) := by
  have h' : Inv { st with debounceTimer := none } log := by
    refine ⟨⟨h.out_current, h.used_current, h.used_pending, h.cp_distinct,
      h.settle_bal, h.aborting_current, ?_, ?_, h.sig_le, h.sig_used,
      h.sig_pending, h.sig_current⟩, ?_⟩
    · intro hti
      exact h.abortTimer_inv hti
    · simp
    · intro t ht
      simp at ht
  exact inv_startPending _ _ h' rfl

theorem inv_jobSettled (now : Nat) (st : State) (log : List Msg) (h : Inv st log)
    (j : Nat) (res : ExecRes) (hv : j ∈ st.outstanding) :
    Inv (jobSettled now st j res).1 (log ++ (jobSettled now st j res).2) := by
  have hcur : ∃ c, st.currentJob = some c ∧ c.id = j := by
    rcases hc : st.currentJob with _ | c
    · rw [h.out_current] at hv
      simp [currentIds, hc] at hv
    · rw [h.out_current] at hv
      simp [currentIds, hc] at hv
      exact ⟨c, rfl, hv.symm⟩
  obtain ⟨c, hc, hj⟩ := hcur
  rw [jobSettled_current_eq now st j res c hc hj]
  have herase : st.outstanding.erase j = [] := by
    rw [h.out_current]
    simp [currentIds, hc, hj]
  have hmid : InvND
      { st with outstanding := st.outstanding.erase j, currentJob := none,
                aborting := false,
                abortTimer := if st.aborting then none else st.abortTimer }
      (log ++ [.result j res.toWire]) := by
    refine ⟨?_, ?_, ?_, ?_, ?_, ?_, ?_, h.db_pending, ?_, ?_, ?_, ?_⟩
    · simp [currentIds, herase]
    · intro c' hc'
      simp at hc'
    · intro p' hp'
      exact h.used_pending p' hp'
    · intro c' p' hc' hp'
      simp at hc'
    · intro j'
      have hb := h.settle_bal j'
      have hcu := h.used_current c hc
      simp only [liveCount, live, hc] at hb ⊢
      by_cases hjj : j = j'
      · subst hjj
        subst hj
        rcases hq : st.pendingJob with _ | q
        · simp [settleCount_append, settleCount_cons, settleCount_nil,
            Msg.isResultFor, hq, hcu] at hb ⊢
          omega
        · have hd := h.cp_distinct c q hc hq
          simp [settleCount_append, settleCount_cons, settleCount_nil,
            Msg.isResultFor, hq, hcu, hd] at hb ⊢
          omega
      · have hcj : ¬ (c.id = j') := by rw [hj]; exact hjj
        simp [settleCount_append, settleCount_cons, settleCount_nil,
          Msg.isResultFor, hjj, Ne.symm hjj, hcj] at hb ⊢
        omega
    · intro ha
      cases ha
    · intro hti
      rcases ha : st.aborting with _ | _
      · rw [ha] at hti
        simp at hti
        have := (h.abortTimer_inv (by simp [hti])).1
        rw [ha] at this
        cases this
      · rw [ha] at hti
        simp at hti
    · intro j'
      simpa [signalCount_append, signalCount_cons, signalCount_nil,
        Msg.isSignalFor] using h.sig_le j'
    · intro j' hj'
      refine h.sig_used j' ?_
      simpa [signalCount_append, signalCount_cons, signalCount_nil,
        Msg.isSignalFor] using hj'
    · intro p' hp'
      simpa [signalCount_append, signalCount_cons, signalCount_nil,
        Msg.isSignalFor] using h.sig_pending p' hp'
    · intro c' hc'
      simp at hc'
  have hfin := inv_maybeStartNext now _ _ hmid rfl
  simpa using hfin

/-- One-step invariant preservation for the worker host. -/
theorem inv_step (now : Nat) (st : State) (log : List Msg) (ev : Event)
    (h : Inv st log) (hv : validB st now ev = true) :
    Inv (step now st ev).1 (log ++ (step now st ev).2) := by
  cases ev with
  | generate id p bp rq dm =>
      have hv' : id ∉ st.used := by simpa [validB] using hv
      exact inv_generate now st log h id p bp rq dm hv'
  | abortReq r => exact inv_abortReq now st log h r
  | jobSettled j res =>
      have hv' : j ∈ st.outstanding := by simpa [validB] using hv
      exact inv_jobSettled now st log h j res hv'
  | abortTimerFire => exact inv_abortTimerFire st log h
  | debounceTimerFire => exact inv_debounceTimerFire st log h

/-- Invariant preservation along any valid trace. -/
theorem inv_run (tr : List (Nat × Event)) :
    ∀ (st : State) (log : List Msg), Inv st log → validTraceB st tr = true →
      Inv (run st tr).1 (log ++ (run st tr).2) := by
  induction tr with
  | nil =>
      intro st log h _
      simpa [run] using h
  | cons e rest ih =>
      intro st log h hv
      obtain ⟨now, ev⟩ := e
      simp [validTraceB, Bool.and_eq_true] at hv
      have h1 := inv_step now st log ev h hv.1
      have h2 := ih (step now st ev).1 (log ++ (step now st ev).2) h1 hv.2
      simpa [run, List.append_assoc] using h2

end Host


namespace Inline

/-- Ids currently executing in the inline scheduler. -/
def currentIds (st : State) : List Nat :=
  match st.currentJob with
  | some c => [c.id]
  | none => []

/-- Live occurrences of `j` in the inline scheduler's slots. -/
def liveCount (st : State) (j : Nat) : Nat :=
  live st.currentJob st.pendingJob j

/-- The parameters after the inline scheduler's model resolution
(`inline_host.ts` L215). -/
def resolvedParams (p : JobParams) (m : ModelId) : JobParams :=
  { p with model := some m }

/-- The submission's requested model resolves successfully against the
loaded model. -/
def ModelOk (st : State) (p : JobParams) (m : ModelId) : Prop :=
  st.loadedModel = some m ∧ (p.model = some m ∨ p.model = none)

/-! ### Branch equations for the inline scheduler -/

theorem generate_noload_none_eq (now : Nat) (st : State) (id : Nat) (p : JobParams)
    (bp : Option BusyPolicy) (rq : Option Bool) (dm : Option Int)
    (hm : st.loadedModel = none) (hp : p.model = none) :
    generate now st id p bp rq dm =
      ({ st with used := id :: st.used },
       [.result id (.err (.ec .modelNotLoaded)
         (some "No model loaded; specify a model or call load() first."))]) := by
  simp [generate, hm, hp, Option.orElse]

theorem generate_noload_some_eq (now : Nat) (st : State) (id : Nat) (p : JobParams)
    (bp : Option BusyPolicy) (rq : Option Bool) (dm : Option Int) (x : ModelId)
    (hm : st.loadedModel = none) (hp : p.model = some x) :
    generate now st id p bp rq dm =
      ({ st with used := id :: st.used },
       [.result id (.err (.ec .modelNotLoaded)
         (some "No model loaded; call load() first."))]) := by
  simp [generate, hm, hp, Option.orElse]

theorem generate_mismatch_eq (now : Nat) (st : State) (id : Nat) (p : JobParams)
    (bp : Option BusyPolicy) (rq : Option Bool) (dm : Option Int) (m x : ModelId)
    (hm : st.loadedModel = some m) (hp : p.model = some x) (hne : m ≠ x) :
    generate now st id p bp rq dm =
      ({ st with used := id :: st.used },
       [.result id (.err (.ec .modelNotLoaded)
         (some ("Loaded model is \"" ++ m.str ++ "\"; requested generate for \""
                ++ x.str ++ "\".")))]) := by
  simp [generate, hm, hp, hne, Option.orElse]

theorem modelOk_resolves (st : State) (p : JobParams) (m : ModelId)
    (hok : ModelOk st p m) :
    p.model.orElse (fun _ => st.loadedModel) = some m := by
  obtain ⟨hm, hp | hp⟩ := hok <;> simp [hp, hm, Option.orElse]

theorem generate_idle_eq_inl (now : Nat) (st : State) (id : Nat) (p : JobParams)
    (bp : Option BusyPolicy) (rq : Option Bool) (dm : Option Int) (m : ModelId)
    (hok : ModelOk st p m) (hc : st.currentJob = none) :
    generate now st id p bp rq dm =
      ({ st with used := id :: st.used, stateF := .running,
                 currentJob := some { id := id, aborted := false,
                                      params := resolvedParams p m },
                 outstanding := id :: st.outstanding },
       [.state .running]) := by
  have hm := hok.1
  rw [generate]
  rw [modelOk_resolves st p m hok]
  simp [hm, hc, setState, resolvedParams]

theorem generate_reject_eq_inl (now : Nat) (st : State) (id : Nat) (p : JobParams)
    (bp : Option BusyPolicy) (rq : Option Bool) (dm : Option Int) (m : ModelId)
    (c : CurrentJob) (hok : ModelOk st p m) (hc : st.currentJob = some c)
    (hbp : bp.getD .queue = .reject) :
    generate now st id p bp rq dm =
      ({ st with used := id :: st.used },
       [.result id (.err (.ec .internalError) (some "Generator is busy"))]) := by
  have hm := hok.1
  rw [generate]
  rw [modelOk_resolves st p m hok]
  simp [hm, hc, hbp]

theorem generate_queue_install_eq_inl (now : Nat) (st : State) (id : Nat) (p : JobParams)
    (bp : Option BusyPolicy) (rq : Option Bool) (dm : Option Int) (m : ModelId)
    (c : CurrentJob) (hok : ModelOk st p m) (hc : st.currentJob = some c)
    (hq : st.pendingJob = none) (hbp : bp.getD .queue = .queue) :
    generate now st id p bp rq dm =
      ({ st with used := id :: st.used, stateF := .queued,
                 pendingJob := some (mkPending now id (resolvedParams p m)
                   (max 0 (dm.getD 0)).toNat) },
       [.state .queued]) := by
  have hm := hok.1
  rw [generate]
  rw [modelOk_resolves st p m hok]
  simp [hm, hc, hq, hbp, setState, mkPending, resolvedParams]

theorem generate_queue_replace_eq_inl (now : Nat) (st : State) (id : Nat) (p : JobParams)
    (bp : Option BusyPolicy) (rq : Option Bool) (dm : Option Int) (m : ModelId)
    (c : CurrentJob) (q : PendingJob) (hok : ModelOk st p m)
    (hc : st.currentJob = some c) (hq : st.pendingJob = some q)
    (hbp : bp.getD .queue = .queue) (hrq : rq.getD true = true) :
    generate now st id p bp rq dm =
      ({ st with used := id :: st.used, stateF := .queued,
                 pendingJob := some (mkPending now id (resolvedParams p m)
                   (max 0 (dm.getD 0)).toNat) },
       [.result q.id (.err (.ec .cancelled) none), .state .queued, .state .queued]) := by
  have hm := hok.1
  rw [generate]
  rw [modelOk_resolves st p m hok]
  simp [hm, hc, hq, hbp, hrq, setState, supersedePending, mkPending, resolvedParams]

theorem generate_queue_busy_eq_inl (now : Nat) (st : State) (id : Nat) (p : JobParams)
    (bp : Option BusyPolicy) (rq : Option Bool) (dm : Option Int) (m : ModelId)
    (c : CurrentJob) (q : PendingJob) (hok : ModelOk st p m)
    (hc : st.currentJob = some c) (hq : st.pendingJob = some q)
    (hbp : bp.getD .queue = .queue) (hrq : rq.getD true = false) :
    generate now st id p bp rq dm =
      ({ st with used := id :: st.used, stateF := .queued },
       [.result id (.err (.ec .internalError) (some "Generator is busy")),
        .state .queued]) := by
  have hm := hok.1
  rw [generate]
  rw [modelOk_resolves st p m hok]
  simp [hm, hc, hq, hbp, hrq, setState]

theorem generate_aaq_busy_eq_inl (now : Nat) (st : State) (id : Nat) (p : JobParams)
    (bp : Option BusyPolicy) (rq : Option Bool) (dm : Option Int) (m : ModelId)
    (c : CurrentJob) (q : PendingJob) (hok : ModelOk st p m)
    (hc : st.currentJob = some c) (hq : st.pendingJob = some q)
    (hbp : bp.getD .queue = .abortAndQueue) (hrq : rq.getD true = false) :
    generate now st id p bp rq dm =
      ({ st with used := id :: st.used },
       [.result id (.err (.ec .internalError) (some "Generator is busy"))]) := by
  have hm := hok.1
  rw [generate]
  rw [modelOk_resolves st p m hok]
  simp [hm, hc, hq, hbp, hrq]

theorem beginAbort_eq_inl (now : Nat) (st : State) (c : CurrentJob) (sink : Option Nat) :
    beginAbort now st c sink =
      ({ st with stateF := .aborting, aborting := true,
                 currentJob := some { c with aborted := true },
                 abortTimer := some (now + ABORT_TIMEOUT_MS),
                 abortSink := sink },
       .state .aborting :: (if c.aborted then [] else [.signal c.id])) := by
  rcases c with ⟨ci, ca, cp⟩
  by_cases h : ca <;> simp [beginAbort, Host.abortController, setState, h]

theorem generate_aaq_go_eq_inl (now : Nat) (st : State) (id : Nat) (p : JobParams)
    (bp : Option BusyPolicy) (rq : Option Bool) (dm : Option Int) (m : ModelId)
    (c : CurrentJob) (hok : ModelOk st p m) (hc : st.currentJob = some c)
    (hbp : bp.getD .queue = .abortAndQueue)
    (hinst : rq.getD true = true ∨ st.pendingJob = none) :
    generate now st id p bp rq dm =
      let sup : List Msg :=
        if rq.getD true = true then
          (match st.pendingJob with
           | some q => [.result q.id (.err (.ec .cancelled) none)]
           | none => []) ++ [.state .queued]
        else []
      let st1 : State :=
        { st with used := id :: st.used,
                  stateF := if rq.getD true = true then .queued else st.stateF,
                  pendingJob := some (mkPending now id (resolvedParams p m)
                    (max 0 (dm.getD 0)).toNat) }
      if st.aborting then (st1, sup)
      else
        ({ st1 with stateF := .aborting, aborting := true,
                    currentJob := some { c with aborted := true },
                    abortTimer := some (now + ABORT_TIMEOUT_MS),
                    abortSink := some id },
         sup ++ (.state .aborting :: (if c.aborted then [] else [.signal c.id]))) := by
  have hm := hok.1
  rcases c with ⟨ci, ca, cp⟩
  rw [generate]
  rw [modelOk_resolves st p m hok]
  rcases hrq : rq.getD true with _ | _
  · rcases hinst with h | hq
    · rw [hrq] at h; exact absurd h (by simp)
    · by_cases ha : st.aborting <;>
        by_cases hca : ca <;>
          by_cases hdm : 0 < (max 0 (dm.getD 0)).toNat <;>
            simp [hm, hc, hq, hbp, hrq, ha, hca, hdm, supersedePending, beginAbort,
              Host.abortController, setState, mkPending, resolvedParams]
  · rcases hq : st.pendingJob with _ | q <;>
      by_cases ha : st.aborting <;>
        by_cases hca : ca <;>
          by_cases hdm : 0 < (max 0 (dm.getD 0)).toNat <;>
            simp [hm, hc, hq, hbp, hrq, ha, hca, hdm, supersedePending, beginAbort,
              Host.abortController, setState, mkPending, resolvedParams]

theorem startPending_go_eq_inl (st : State) (p : PendingJob)
    (hp : st.pendingJob = some p) (hc : st.currentJob = none) :
    startPending st =
      ({ st with stateF := .running, pendingJob := none,
                 currentJob := some { id := p.id, aborted := false, params := p.params },
                 outstanding := p.id :: st.outstanding },
       [.state .running]) := by
  simp [startPending, setState, hp, hc]

theorem startPending_skip_current_eq_inl (st : State) (c : CurrentJob)
    (hc : st.currentJob = some c) : startPending st = (st, []) := by
  rcases hp : st.pendingJob with _ | p <;> simp [startPending, hp, hc]

theorem startPending_skip_pending_eq_inl (st : State)
    (hp : st.pendingJob = none) : startPending st = (st, []) := by
  rcases hc : st.currentJob with _ | c <;> simp [startPending, hp, hc]

theorem maybeStartNext_current_eq_inl (now : Nat) (st : State) (c : CurrentJob)
    (hc : st.currentJob = some c) : maybeStartNext now st = (st, []) := by
  simp [maybeStartNext, hc]

theorem maybeStartNext_idle_eq_inl (now : Nat) (st : State)
    (hc : st.currentJob = none) (hp : st.pendingJob = none) :
    maybeStartNext now st = ({ st with stateF := .idle }, [.state .idle]) := by
  simp [maybeStartNext, setState, hc, hp]

theorem maybeStartNext_wait_eq_inl (now : Nat) (st : State) (p : PendingJob)
    (hc : st.currentJob = none) (hp : st.pendingJob = some p)
    (hw : now < p.debounceUntil.getD 0) :
    maybeStartNext now st =
      ({ st with stateF := .queued, debounceTimer := some (p.debounceUntil.getD 0) },
       [.state .queued]) := by
  have h1 : now + (p.debounceUntil.getD 0 - now) = p.debounceUntil.getD 0 := by omega
  have h2 : 0 < p.debounceUntil.getD 0 - now := by omega
  simp [maybeStartNext, setState, hc, hp, h1, h2]

theorem maybeStartNext_go_eq_inl (now : Nat) (st : State) (p : PendingJob)
    (hc : st.currentJob = none) (hp : st.pendingJob = some p)
    (hw : p.debounceUntil.getD 0 ≤ now) :
    maybeStartNext now st =
      ({ st with stateF := .running, debounceTimer := none, pendingJob := none,
                 currentJob := some { id := p.id, aborted := false, params := p.params },
                 outstanding := p.id :: st.outstanding },
       [.state .queued, .state .running]) := by
  have h2 : p.debounceUntil.getD 0 - now = 0 := by omega
  simp [maybeStartNext, setState, hc, hp, h2, startPending]

theorem jobSettled_stale_none_eq_inl (now : Nat) (st : State) (j : Nat) (res : ExecRes)
    (hc : st.currentJob = none) :
    jobSettled now st j res =
      ({ st with outstanding := st.outstanding.erase j },
       [.result j (.err (.ec .cancelled) none)]) := by
  simp [jobSettled, hc]

theorem jobSettled_stale_other_eq_inl (now : Nat) (st : State) (j : Nat) (res : ExecRes)
    (c : CurrentJob) (hc : st.currentJob = some c) (hj : c.id ≠ j) :
    jobSettled now st j res =
      ({ st with outstanding := st.outstanding.erase j },
       [.result j (.err (.ec .cancelled) none)]) := by
  simp [jobSettled, hc, hj]

theorem jobSettled_current_eq_inl (now : Nat) (st : State) (j : Nat) (res : ExecRes)
    (c : CurrentJob) (hc : st.currentJob = some c) (hj : c.id = j) :
    jobSettled now st j res =
      (let st2 : State :=
        { st with outstanding := st.outstanding.erase j, currentJob := none,
                  aborting := false,
                  abortTimer := if st.aborting then none else st.abortTimer }
       ((maybeStartNext now st2).1, (maybeStartNext now st2).2 ++ [.result j res.toWire])) := by
  by_cases ha : st.aborting <;> simp [jobSettled, hc, hj, ha]

theorem abortReq_idle_eq_inl (now : Nat) (st : State)
    (hc : st.currentJob = none) : abortReq now st = (st, []) := by
  simp [abortReq, hc]

theorem abortReq_aborting_eq_inl (now : Nat) (st : State) (c : CurrentJob)
    (hc : st.currentJob = some c) (ha : st.aborting = true) :
    abortReq now st = (st, []) := by
  simp [abortReq, hc, ha]

theorem abortReq_go_eq_inl (now : Nat) (st : State) (c : CurrentJob)
    (hc : st.currentJob = some c) (ha : st.aborting = false) :
    abortReq now st = beginAbort now st c none := by
  simp [abortReq, hc, ha]

end Inline

namespace Inline

/-- Reachability invariant of the inline scheduler, without the
debounce-deadline clause. -/
structure InvND (st : State) (log : List Msg) : Prop where
  out_current : st.outstanding = currentIds st
  used_current : ∀ c, st.currentJob = some c → c.id ∈ st.used
  used_pending : ∀ p, st.pendingJob = some p → p.id ∈ st.used
  cp_distinct : ∀ c p, st.currentJob = some c → st.pendingJob = some p → c.id ≠ p.id
  settle_bal : ∀ j, settleCount log j + liveCount st j = (if j ∈ st.used then 1 else 0)
  aborting_current : st.aborting = true → st.currentJob.isSome
  abortTimer_inv : st.abortTimer.isSome → st.aborting = true ∧ st.currentJob.isSome
  db_pending : st.debounceTimer.isSome → st.pendingJob.isSome
  sig_le : ∀ j, signalCount log j ≤ 1
  sig_used : ∀ j, 1 ≤ signalCount log j → j ∈ st.used
  sig_pending : ∀ p, st.pendingJob = some p → signalCount log p.id = 0
  sig_current : ∀ c, st.currentJob = some c →
      signalCount log c.id = (if c.aborted then 1 else 0)

/-- Full reachability invariant of the inline scheduler. -/
structure Inv (st : State) (log : List Msg) extends InvND st log : Prop where
  db_inv : ∀ t, st.debounceTimer = some t → st.currentJob = none →
      ∃ p, st.pendingJob = some p ∧ p.debounceUntil.getD 0 ≤ t

theorem inv_init_inl (m : Option ModelId) : Inv (init m) [] := by
  refine ⟨⟨rfl, ?_, ?_, ?_, ?_, ?_, ?_, ?_, ?_, ?_, ?_, ?_⟩, ?_⟩ <;>
    simp [init, settleCount, signalCount, liveCount, live, currentIds]

/-- An `Inv` only depends on the log through its settle and signal counts. -/
theorem inv_counts (st : State) (l l' : List Msg) (h : Inv st l)
    (hs : ∀ j, settleCount l' j = settleCount l j)
    (hg : ∀ j, signalCount l' j = signalCount l j) : Inv st l' := by
  refine ⟨⟨h.out_current, h.used_current, h.used_pending, h.cp_distinct, ?_,
    h.aborting_current, h.abortTimer_inv, h.db_pending, ?_, ?_, ?_, ?_⟩, h.db_inv⟩
  · intro j
    rw [hs]
    exact h.settle_bal j
  · intro j
    rw [hg]
    exact h.sig_le j
  · intro j hj
    rw [hg] at hj
    exact h.sig_used j hj
  · intro p hp
    rw [hg]
    exact h.sig_pending p hp
  · intro c hc
    rw [hg]
    exact h.sig_current c hc

theorem inv_append_neutral_inl (st : State) (log out : List Msg) (h : Inv st log)
    (hout : ∀ m ∈ out, m.neutral) : Inv st (log ++ out) := by
  refine inv_counts st log _ h ?_ ?_
  · intro j
    simp [settleCount_append, settleCount_neutral out hout]
  · intro j
    simp [signalCount_append, signalCount_neutral out hout]

/-- The invariant does not constrain the stored `state` field. -/
theorem inv_stateF (st : State) (s : WState) (log : List Msg) (h : Inv st log) :
    Inv { st with stateF := s } log :=
  ⟨⟨h.out_current, h.used_current, h.used_pending, h.cp_distinct, h.settle_bal,
    h.aborting_current, h.abortTimer_inv, h.db_pending, h.sig_le, h.sig_used,
    h.sig_pending, h.sig_current⟩, h.db_inv⟩

/-- Counting facts for an unused id. -/
theorem fresh_counts_inl (st : State) (log : List Msg) (h : Inv st log) (id : Nat)
    (hv : id ∉ st.used) :
    settleCount log id = 0 ∧ liveCount st id = 0 ∧ signalCount log id = 0 := by
  have hb := h.settle_bal id
  rw [if_neg hv] at hb
  have hsig : signalCount log id = 0 := by
    by_contra h0
    exact hv (h.sig_used id (by omega))
  exact ⟨by omega, by omega, hsig⟩

theorem inv_startPending_inl (st : State) (log : List Msg) (h : Inv st log)
    (hdb : st.debounceTimer = none) :
    Inv (startPending st).1 (log ++ (startPending st).2) := by
  rcases hp : st.pendingJob with _ | p
  · rw [startPending_skip_pending_eq_inl st hp]
    simpa using h
  · rcases hc : st.currentJob with _ | c
    · rw [startPending_go_eq_inl st p hp hc]
      have hout : st.outstanding = [] := by rw [h.out_current]; simp [currentIds, hc]
      have hps := h.sig_pending p hp
      have hpu := h.used_pending p hp
      refine ⟨⟨?_, ?_, ?_, ?_, ?_, ?_, ?_, ?_, ?_, ?_, ?_, ?_⟩, ?_⟩
      · simp [currentIds, hout]
      · rintro c' hc'
        simp at hc'
        simp [← hc', hpu]
      · simp
      · simp
      · intro j
        have hb := h.settle_bal j
        simp only [liveCount, live, hc, hp] at hb
        simp only [settleCount_append, settleCount_cons, settleCount_nil,
          Msg.isResultFor, liveCount, live]
        simp
        omega
      · simp
      · intro hti
        simp at hti ⊢
        exact (h.abortTimer_inv (by simpa using hti)).1
      · simp [hdb]
      · intro j
        simpa [signalCount_append, signalCount_cons, signalCount_nil,
          Msg.isSignalFor] using h.sig_le j
      · intro j hj
        simp [signalCount_append, signalCount_cons, signalCount_nil,
          Msg.isSignalFor] at hj
        simpa using h.sig_used j hj
      · simp
      · rintro c' hc'
        simp at hc'
        simp [signalCount_append, signalCount_cons, signalCount_nil,
          Msg.isSignalFor, ← hc']
        exact hps
      · simp
    · rw [startPending_skip_current_eq_inl st c hc]
      simpa using h

theorem inv_maybeStartNext_inl (now : Nat) (st : State) (log : List Msg)
    (h : InvND st log) (hc : st.currentJob = none) :
    Inv (maybeStartNext now st).1 (log ++ (maybeStartNext now st).2) := by
  rcases hp : st.pendingJob with _ | p
  · rw [maybeStartNext_idle_eq_inl now st hc hp]
    have hdb : st.debounceTimer = none := by
      cases hdb : st.debounceTimer with
      | none => rfl
      | some t =>
        have := h.db_pending (by simp [hdb])
        simp [hp] at this
    refine ⟨⟨h.out_current, h.used_current, h.used_pending, h.cp_distinct, ?_,
      h.aborting_current, h.abortTimer_inv, h.db_pending, ?_, ?_, ?_, ?_⟩, ?_⟩
    · intro j
      simpa [settleCount_append, settleCount_cons, settleCount_nil,
        Msg.isResultFor] using h.settle_bal j
    · intro j
      simpa [signalCount_append, signalCount_cons, signalCount_nil,
        Msg.isSignalFor] using h.sig_le j
    · intro j hj
      refine h.sig_used j ?_
      simpa [signalCount_append, signalCount_cons, signalCount_nil,
        Msg.isSignalFor] using hj
    · intro p hp'
      simpa [signalCount_append, signalCount_cons, signalCount_nil,
        Msg.isSignalFor] using h.sig_pending p hp'
    · intro c hc'
      simpa [signalCount_append, signalCount_cons, signalCount_nil,
        Msg.isSignalFor] using h.sig_current c hc'
    · intro t ht _
      rw [hdb] at ht
      cases ht
  · by_cases hw : now < p.debounceUntil.getD 0
    · rw [maybeStartNext_wait_eq_inl now st p hc hp hw]
      refine ⟨⟨h.out_current, h.used_current, h.used_pending, h.cp_distinct, ?_,
        h.aborting_current, ?_, ?_, ?_, ?_, ?_, ?_⟩, ?_⟩
      · intro j
        simpa [settleCount_append, settleCount_cons, settleCount_nil,
          Msg.isResultFor, liveCount, live] using h.settle_bal j
      · intro hti
        exact h.abortTimer_inv (by simpa using hti)
      · simp [hp]
      · intro j
        simpa [signalCount_append, signalCount_cons, signalCount_nil,
          Msg.isSignalFor] using h.sig_le j
      · intro j hj
        refine h.sig_used j ?_
        simpa [signalCount_append, signalCount_cons, signalCount_nil,
          Msg.isSignalFor] using hj
      · intro q hq
        simp at hq
        simpa [signalCount_append, signalCount_cons, signalCount_nil,
          Msg.isSignalFor] using h.sig_pending q (by simpa using hq)
      · intro c hc'
        rw [hc] at hc'
        cases hc'
      · intro t ht _
        simp at ht
        refine ⟨p, by simp [hp], ?_⟩
        omega
    · rw [maybeStartNext_go_eq_inl now st p hc hp (by omega)]
      have hout : st.outstanding = [] := by rw [h.out_current]; simp [currentIds, hc]
      have hps := h.sig_pending p hp
      have hpu := h.used_pending p hp
      refine ⟨⟨?_, ?_, ?_, ?_, ?_, ?_, ?_, ?_, ?_, ?_, ?_, ?_⟩, ?_⟩
      · simp [currentIds, hout]
      · rintro c' hc'
        simp at hc'
        simp [← hc', hpu]
      · simp
      · simp
      · intro j
        have hb := h.settle_bal j
        simp only [liveCount, live, hc, hp] at hb
        simp only [settleCount_append, settleCount_cons, settleCount_nil,
          Msg.isResultFor, liveCount, live]
        simp
        omega
      · simp
      · intro hti
        simp at hti ⊢
        exact (h.abortTimer_inv (by simpa using hti)).1
      · simp
      · intro j
        simpa [signalCount_append, signalCount_cons, signalCount_nil,
          Msg.isSignalFor] using h.sig_le j
      · intro j hj
        simp [signalCount_append, signalCount_cons, signalCount_nil,
          Msg.isSignalFor] at hj
        simpa using h.sig_used j hj
      · simp
      · rintro c' hc'
        simp at hc'
        simp [signalCount_append, signalCount_cons, signalCount_nil,
          Msg.isSignalFor, ← hc']
        exact hps
      · simp

theorem inv_beginAbort_inl (now : Nat) (st : State) (log : List Msg) (c : CurrentJob)
    (sink : Option Nat) (h : Inv st log) (hc : st.currentJob = some c) :
    Inv (beginAbort now st c sink).1 (log ++ (beginAbort now st c sink).2) := by
  rw [beginAbort_eq_inl]
  have hcu : c.id ∈ st.used := h.used_current c hc
  have hsc := h.sig_current c hc
  refine ⟨⟨?_, ?_, ?_, ?_, ?_, ?_, ?_, ?_, ?_, ?_, ?_, ?_⟩, ?_⟩
  · simpa [currentIds, hc] using h.out_current
  · rintro c' hc'
    simp at hc'
    simp [← hc', hcu]
  · intro p hp
    exact h.used_pending p hp
  · rintro c' p hc' hp
    simp at hc'
    simp [← hc']
    exact h.cp_distinct c p hc hp
  · intro j
    have hb := h.settle_bal j
    simp only [liveCount, live, hc] at hb
    by_cases hca : c.aborted <;>
      by_cases hij : c.id = j <;>
        simp [settleCount_append, settleCount_cons, settleCount_nil,
          Msg.isResultFor, liveCount, live, hca, hij] at hb ⊢ <;>
      omega
  · intro _
    simp
  · intro _
    simp
  · intro hti
    exact h.db_pending hti
  · intro j
    by_cases hij : c.id = j
    · subst hij
      by_cases hca : c.aborted <;>
        simp [signalCount_append, signalCount_cons, signalCount_nil,
          Msg.isSignalFor, hca, hsc]
    · have hl := h.sig_le j
      by_cases hca : c.aborted <;>
        simp [signalCount_append, signalCount_cons, signalCount_nil,
          Msg.isSignalFor, hca, hij, hl]
  · intro j hj
    by_cases hij : c.id = j
    · subst hij
      exact hcu
    · refine h.sig_used j ?_
      by_cases hca : c.aborted <;>
        simpa [signalCount_append, signalCount_cons, signalCount_nil,
          Msg.isSignalFor, hca, hij] using hj
  · intro p hp
    have hd := h.cp_distinct c p hc hp
    have h0 := h.sig_pending p hp
    by_cases hca : c.aborted <;>
      simp [signalCount_append, signalCount_cons, signalCount_nil,
        Msg.isSignalFor, hca, h0, hd]
  · rintro c' hc'
    simp at hc'
    by_cases hca : c.aborted <;>
      simp [← hc', signalCount_append, signalCount_cons, signalCount_nil,
        Msg.isSignalFor, hca, hsc]
  · intro t ht hnone
    simp at hnone

end Inline

namespace Inline

theorem inv_install_inl (now : Nat) (st : State) (log : List Msg) (h : Inv st log)
    (c : CurrentJob) (hc : st.currentJob = some c) (id : Nat) (rp : JobParams)
    (dms : Nat) (hv : id ∉ st.used) (hp : st.pendingJob = none) :
    Inv { st with used := id :: st.used,
                  pendingJob := some (mkPending now id rp dms) } log := by
  obtain ⟨hs0, hl0, hg0⟩ := fresh_counts_inl st log h id hv
  have hci : c.id ≠ id := fun he => hv (he ▸ h.used_current c hc)
  refine ⟨⟨?_, ?_, ?_, ?_, ?_, ?_, ?_, ?_, ?_, ?_, ?_, ?_⟩, ?_⟩
  · simpa [currentIds] using h.out_current
  · intro c' hc'
    exact List.mem_cons_of_mem _ (h.used_current c' hc')
  · rintro p' hp'
    simp [mkPending] at hp'
    simp [← hp', mkPending]
  · rintro c' p' hc' hp'
    simp [mkPending] at hp'
    simp at hc'
    rw [hc] at hc'
    cases hc'
    simp [← hp', mkPending]
    exact hci
  · intro j
    have hb := h.settle_bal j
    simp only [liveCount, live, hc, hp] at hb ⊢
    by_cases hij : id = j
    · subst hij
      simp [mkPending, hci, hv] at hb ⊢
      omega
    · by_cases hm : j ∈ st.used <;>
        simp [mkPending, hij, Ne.symm hij, hm] at hb ⊢ <;> omega
  · intro ha
    simpa using (h.aborting_current ha)
  · intro hti
    simpa using h.abortTimer_inv hti
  · simp
  · exact h.sig_le
  · intro j hj
    exact List.mem_cons_of_mem _ (h.sig_used j hj)
  · rintro p' hp'
    simp [mkPending] at hp'
    simpa [← hp', mkPending] using hg0
  · exact h.sig_current
  · intro t ht hn
    rw [hc] at hn
    cases hn

theorem inv_replace_inl (now : Nat) (st : State) (log : List Msg) (h : Inv st log)
    (c : CurrentJob) (hc : st.currentJob = some c) (id : Nat) (rp : JobParams)
    (dms : Nat) (hv : id ∉ st.used) (q : PendingJob) (hq : st.pendingJob = some q) :
    Inv { st with used := id :: st.used,
                  pendingJob := some (mkPending now id rp dms) }
        (log ++ [.result q.id (.err (.ec .cancelled) none)]) := by
  obtain ⟨hs0, hl0, hg0⟩ := fresh_counts_inl st log h id hv
  have hci : c.id ≠ id := fun he => hv (he ▸ h.used_current c hc)
  have hqi : q.id ≠ id := fun he => hv (he ▸ h.used_pending q hq)
  have hcq : c.id ≠ q.id := h.cp_distinct c q hc hq
  refine ⟨⟨?_, ?_, ?_, ?_, ?_, ?_, ?_, ?_, ?_, ?_, ?_, ?_⟩, ?_⟩
  · simpa [currentIds] using h.out_current
  · intro c' hc'
    exact List.mem_cons_of_mem _ (h.used_current c' hc')
  · rintro p' hp'
    simp [mkPending] at hp'
    simp [← hp', mkPending]
  · rintro c' p' hc' hp'
    simp [mkPending] at hp'
    simp at hc'
    rw [hc] at hc'
    cases hc'
    simp [← hp', mkPending]
    exact hci
  · intro j
    have hb := h.settle_bal j
    simp only [liveCount, live, hc, hq] at hb ⊢
    by_cases hij : id = j
    · subst hij
      simp [mkPending, settleCount_append, settleCount_cons, settleCount_nil,
        Msg.isResultFor, hci, hqi, hv] at hb ⊢
      omega
    · by_cases hqj : q.id = j
      · subst hqj
        have hqu := h.used_pending q hq
        simp [mkPending, settleCount_append, settleCount_cons, settleCount_nil,
          Msg.isResultFor, hij, Ne.symm hij, hcq, hqu] at hb ⊢
        omega
      · by_cases hm : j ∈ st.used <;>
          simp [mkPending, settleCount_append, settleCount_cons, settleCount_nil,
            Msg.isResultFor, hij, Ne.symm hij, hqj, hm] at hb ⊢ <;> omega
  · intro ha
    simpa using (h.aborting_current ha)
  · intro hti
    simpa using h.abortTimer_inv hti
  · simp
  · intro j
    simpa [signalCount_append, signalCount_cons, signalCount_nil,
      Msg.isSignalFor] using h.sig_le j
  · intro j hj
    simp [signalCount_append, signalCount_cons, signalCount_nil,
      Msg.isSignalFor] at hj
    exact List.mem_cons_of_mem _ (h.sig_used j hj)
  · rintro p' hp'
    simp [mkPending] at hp'
    simp [← hp', mkPending, signalCount_append, signalCount_cons,
      signalCount_nil, Msg.isSignalFor]
    exact hg0
  · intro c' hc'
    simpa [signalCount_append, signalCount_cons, signalCount_nil,
      Msg.isSignalFor] using h.sig_current c' hc'
  · intro t ht hn
    rw [hc] at hn
    cases hn

/-- Settling a fresh submission immediately with a failed result preserves
the invariant (model-resolution failures and busy rejections). -/
theorem inv_failResult (st : State) (log : List Msg) (h : Inv st log)
    (id : Nat) (r : Reason) (m : Option String) (hv : id ∉ st.used) :
    Inv { st with used := id :: st.used }
        (log ++ [.result id (.err r m)]) := by
  obtain ⟨hs0, hl0, hg0⟩ := fresh_counts_inl st log h id hv
  refine ⟨⟨?_, ?_, ?_, ?_, ?_, ?_, ?_, ?_, ?_, ?_, ?_, ?_⟩, ?_⟩
  · simpa [currentIds] using h.out_current
  · intro c' hc'
    exact List.mem_cons_of_mem _ (h.used_current c' hc')
  · intro p' hp'
    exact List.mem_cons_of_mem _ (h.used_pending p' hp')
  · exact h.cp_distinct
  · intro j
    have hb := h.settle_bal j
    simp only [liveCount, live] at hb ⊢
    by_cases hij : id = j
    · subst hij
      simp [settleCount_append, settleCount_cons, settleCount_nil,
        Msg.isResultFor, hv] at hb ⊢
      omega
    · by_cases hm : j ∈ st.used <;>
        simp [settleCount_append, settleCount_cons, settleCount_nil,
          Msg.isResultFor, hij, Ne.symm hij, hm] at hb ⊢ <;> omega
  · exact h.aborting_current
  · exact h.abortTimer_inv
  · exact h.db_pending
  · intro j
    simpa [signalCount_append, signalCount_cons, signalCount_nil,
      Msg.isSignalFor] using h.sig_le j
  · intro j hj
    simp [signalCount_append, signalCount_cons, signalCount_nil,
      Msg.isSignalFor] at hj
    exact List.mem_cons_of_mem _ (h.sig_used j hj)
  · intro p' hp'
    simpa [signalCount_append, signalCount_cons, signalCount_nil,
      Msg.isSignalFor] using h.sig_pending p' hp'
  · intro c' hc'
    simpa [signalCount_append, signalCount_cons, signalCount_nil,
      Msg.isSignalFor] using h.sig_current c' hc'
  · exact h.db_inv

end Inline

namespace Inline

theorem inv_generate_ok (now : Nat) (st : State) (log : List Msg) (h : Inv st log)
    (id : Nat) (p : JobParams) (bp : Option BusyPolicy) (rq : Option Bool)
    (dm : Option Int) (m : ModelId) (hok : ModelOk st p m) (hv : id ∉ st.used) :
    Inv (generate now st id p bp rq dm).1
        (log ++ (generate now st id p bp rq dm).2) := by
  rcases hc : st.currentJob with _ | c
  · rw [generate_idle_eq_inl now st id p bp rq dm m hok hc]
    obtain ⟨hs0, hl0, hg0⟩ := fresh_counts_inl st log h id hv
    refine ⟨⟨?_, ?_, ?_, ?_, ?_, ?_, ?_, ?_, ?_, ?_, ?_, ?_⟩, ?_⟩
    · have hout : st.outstanding = [] := by rw [h.out_current]; simp [currentIds, hc]
      simp [currentIds, hout]
    · rintro c' hc'
      simp at hc'
      simp [← hc']
    · intro p' hp'
      exact List.mem_cons_of_mem _ (h.used_pending p' hp')
    · rintro c' p' hc' hp'
      simp at hc'
      have := h.used_pending p' hp'
      simp [← hc']
      intro he
      exact hv (he ▸ this)
    · intro j
      have hb := h.settle_bal j
      simp only [liveCount, live, hc] at hb ⊢
      by_cases hij : id = j
      · subst hij
        simp [settleCount_append, settleCount_cons, settleCount_nil,
          Msg.isResultFor, hv] at hb ⊢
        omega
      · by_cases hm2 : j ∈ st.used <;>
          simp [settleCount_append, settleCount_cons, settleCount_nil,
            Msg.isResultFor, hij, Ne.symm hij, hm2] at hb ⊢ <;> omega
    · intro _
      simp
    · intro hti
      obtain ⟨_, hcs⟩ := h.abortTimer_inv (by simpa using hti)
      rw [hc] at hcs
      cases hcs
    · exact h.db_pending
    · intro j
      simpa [signalCount_append, signalCount_cons, signalCount_nil,
        Msg.isSignalFor] using h.sig_le j
    · intro j hj
      refine List.mem_cons_of_mem _ (h.sig_used j ?_)
      simpa [signalCount_append, signalCount_cons, signalCount_nil,
        Msg.isSignalFor] using hj
    · intro p' hp'
      simpa [signalCount_append, signalCount_cons, signalCount_nil,
        Msg.isSignalFor] using h.sig_pending p' hp'
    · rintro c' hc'
      simp at hc'
      simp [← hc', signalCount_append, signalCount_cons, signalCount_nil,
        Msg.isSignalFor]
      exact hg0
    · intro t ht hn
      simp at hn
  · rcases hpol : bp.getD .queue with _ | _ | _
    · rw [generate_reject_eq_inl now st id p bp rq dm m c hok hc hpol]
      exact inv_failResult st log h id (.ec .internalError) (some "Generator is busy") hv
    · rcases hrq : rq.getD true with _ | _
      · rcases hq : st.pendingJob with _ | q
        · rw [generate_aaq_go_eq_inl now st id p bp rq dm m c hok hc hpol (Or.inr hq)]
          simp only [hrq]
          have h1 := inv_install_inl now st log h c hc id (resolvedParams p m)
            (max 0 (dm.getD 0)).toNat hv hq
          by_cases ha : st.aborting
          · simpa [ha] using h1
          · have h2 := inv_beginAbort_inl now _ _ c (some id) h1 (by simpa using hc)
            rw [beginAbort_eq_inl] at h2
            simpa [ha, mkPending] using h2
        · rw [generate_aaq_busy_eq_inl now st id p bp rq dm m c q hok hc hq hpol hrq]
          exact inv_failResult st log h id (.ec .internalError) (some "Generator is busy") hv
      · rw [generate_aaq_go_eq_inl now st id p bp rq dm m c hok hc hpol (Or.inl hrq)]
        simp only [hrq]
        have h1 : Inv { st with used := id :: st.used, stateF := WState.queued, pendingJob := some (mkPending now id (resolvedParams p m) (max 0 (dm.getD 0)).toNat) }
            (log ++ ((match st.pendingJob with
              | some q => [Msg.result q.id (.err (.ec .cancelled) none)]
              | none => []) ++ [Msg.state .queued])) := by
          rcases hq : st.pendingJob with _ | q
          · have h0 := inv_install_inl now st log h c hc id (resolvedParams p m)
              (max 0 (dm.getD 0)).toNat hv hq
            have h0' := inv_stateF _ .queued _ h0
            have h2 := inv_append_neutral_inl _ _ [.state .queued] h0' (by simp [Msg.neutral])
            refine inv_counts _ _ _ h2 (by intro j; simp) (by intro j; simp)
          · have h0 := inv_replace_inl now st log h c hc id (resolvedParams p m)
              (max 0 (dm.getD 0)).toNat hv q hq
            have h0' := inv_stateF _ .queued _ h0
            have h2 := inv_append_neutral_inl _ _ [.state .queued] h0' (by simp [Msg.neutral])
            refine inv_counts _ _ _ h2 ?_ ?_ <;>
              intro j <;>
                simp [settleCount_append, signalCount_append]
        by_cases ha : st.aborting
        · simpa [ha] using h1
        · have h2 := inv_beginAbort_inl now _ _ c (some id) h1 (by simpa using hc)
          rw [beginAbort_eq_inl] at h2
          simpa [ha, mkPending] using h2
    · rcases hq : st.pendingJob with _ | q
      · rw [generate_queue_install_eq_inl now st id p bp rq dm m c hok hc hq hpol]
        have h1 := inv_install_inl now st log h c hc id (resolvedParams p m)
          (max 0 (dm.getD 0)).toNat hv hq
        have h1' := inv_stateF _ .queued _ h1
        have h2 := inv_append_neutral_inl _ _ [.state .queued] h1' (by simp [Msg.neutral])
        refine inv_counts _ _ _ h2 (by intro j; simp) (by intro j; simp)
      · rcases hrq : rq.getD true with _ | _
        · rw [generate_queue_busy_eq_inl now st id p bp rq dm m c q hok hc hq hpol hrq]
          have h1 := inv_failResult st log h id (.ec .internalError)
            (some "Generator is busy") hv
          have h1' := inv_stateF _ .queued _ h1
          have h2 := inv_append_neutral_inl _ _ [.state .queued] h1' (by simp [Msg.neutral])
          refine inv_counts _ _ _ h2 ?_ ?_ <;>
            intro j <;>
              simp [settleCount_append, signalCount_append]
        · rw [generate_queue_replace_eq_inl now st id p bp rq dm m c q hok hc hq hpol hrq]
          have h1 := inv_replace_inl now st log h c hc id (resolvedParams p m)
            (max 0 (dm.getD 0)).toNat hv q hq
          have h1' := inv_stateF _ .queued _ h1
          have h2 := inv_append_neutral_inl _ _ [.state .queued, .state .queued] h1'
            (by simp [Msg.neutral])
          refine inv_counts _ _ _ h2 ?_ ?_ <;>
            intro j <;>
              simp [settleCount_append, signalCount_append]

theorem inv_generate_inl (now : Nat) (st : State) (log : List Msg) (h : Inv st log)
    (id : Nat) (p : JobParams) (bp : Option BusyPolicy) (rq : Option Bool)
    (dm : Option Int) (hv : id ∉ st.used) :
    Inv (generate now st id p bp rq dm).1
        (log ++ (generate now st id p bp rq dm).2) := by
  rcases hm : st.loadedModel with _ | m
  · rcases hp : p.model with _ | x
    · rw [generate_noload_none_eq now st id p bp rq dm hm hp]
      exact inv_failResult st log h id (.ec .modelNotLoaded) _ hv
    · rw [generate_noload_some_eq now st id p bp rq dm x hm hp]
      exact inv_failResult st log h id (.ec .modelNotLoaded) _ hv
  · rcases hp : p.model with _ | x
    · exact inv_generate_ok now st log h id p bp rq dm m ⟨hm, Or.inr hp⟩ hv
    · by_cases hxm : m = x
      · subst hxm
        exact inv_generate_ok now st log h id p bp rq dm m ⟨hm, Or.inl hp⟩ hv
      · rw [generate_mismatch_eq now st id p bp rq dm m x hm hp hxm]
        exact inv_failResult st log h id (.ec .modelNotLoaded) _ hv

theorem inv_abortReq_inl (now : Nat) (st : State) (log : List Msg) (h : Inv st log) :
    Inv (abortReq now st).1 (log ++ (abortReq now st).2) := by
  rcases hc : st.currentJob with _ | c
  · rw [abortReq_idle_eq_inl now st hc]
    simpa using h
  · rcases ha : st.aborting with _ | _
    · rw [abortReq_go_eq_inl now st c hc ha]
      exact inv_beginAbort_inl now st log c none h hc
    · rw [abortReq_aborting_eq_inl now st c hc ha]
      simpa using h

theorem inv_abortTimerFire_inl (st : State) (log : List Msg) (h : Inv st log) :
    Inv (abortTimerFire st).1 (log ++ (abortTimerFire st).2) := by
  have hneu : ∀ m ∈ (abortTimerFire st).2, m.neutral := by
    rcases hc : st.currentJob with _ | c <;>
      rcases hs : st.abortSink with _ | s <;>
        simp [abortTimerFire, hc, hs, Msg.neutral]
  have hs : ∀ j, settleCount (log ++ (abortTimerFire st).2) j = settleCount log j := by
    intro j
    simp [settleCount_append, settleCount_neutral _ hneu]
  have hg : ∀ j, signalCount (log ++ (abortTimerFire st).2) j = signalCount log j := by
    intro j
    simp [signalCount_append, signalCount_neutral _ hneu]
  have hst : (abortTimerFire st).1 = { st with abortTimer := none, aborting := false } := by
    rcases hc : st.currentJob with _ | c <;>
      rcases hsk : st.abortSink with _ | s <;>
        simp [abortTimerFire, hc, hsk]
  rw [hst]
  refine ⟨⟨?_, h.used_current, h.used_pending, h.cp_distinct, ?_, ?_, ?_,
    h.db_pending, ?_, ?_, ?_, ?_⟩, ?_⟩
  · simpa [currentIds] using h.out_current
  · intro j
    rw [hs]
    exact h.settle_bal j
  · intro ha
    cases ha
  · intro hti
    simp at hti
  · intro j
    rw [hg]
    exact h.sig_le j
  · intro j hj
    rw [hg] at hj
    exact h.sig_used j hj
  · intro p hp
    rw [hg]
    exact h.sig_pending p hp
  · intro c hc
    rw [hg]
    exact h.sig_current c hc
  · exact h.db_inv

theorem inv_debounceTimerFire_inl (st : State) (log : List Msg) (h : Inv st log) :
    Inv (debounceTimerFire st).1 (log ++ (debounceTimerFire st).2) := by
  have h' : Inv { st with debounceTimer := none } log := by
    refine ⟨⟨h.out_current, h.used_current, h.used_pending, h.cp_distinct,
      h.settle_bal, h.aborting_current, ?_, ?_, h.sig_le, h.sig_used,
      h.sig_pending, h.sig_current⟩, ?_⟩
    · intro hti
      exact h.abortTimer_inv hti
    · simp
    · intro t ht
      simp at ht
  exact inv_startPending_inl _ _ h' rfl

theorem inv_jobSettled_inl (now : Nat) (st : State) (log : List Msg) (h : Inv st log)
    (j : Nat) (res : ExecRes) (hv : j ∈ st.outstanding) :
    Inv (jobSettled now st j res).1 (log ++ (jobSettled now st j res).2) := by
  have hcur : ∃ c, st.currentJob = some c ∧ c.id = j := by
    rcases hc : st.currentJob with _ | c
    · rw [h.out_current] at hv
      simp [currentIds, hc] at hv
    · rw [h.out_current] at hv
      simp [currentIds, hc] at hv
      exact ⟨c, rfl, hv.symm⟩
  obtain ⟨c, hc, hj⟩ := hcur
  rw [jobSettled_current_eq_inl now st j res c hc hj]
  have herase : st.outstanding.erase j = [] := by
    rw [h.out_current]
    simp [currentIds, hc, hj]
  have hmid : InvND
      { st with outstanding := st.outstanding.erase j, currentJob := none,
                aborting := false,
                abortTimer := if st.aborting then none else st.abortTimer }
      (log ++ [.result j res.toWire]) := by
    refine ⟨?_, ?_, ?_, ?_, ?_, ?_, ?_, h.db_pending, ?_, ?_, ?_, ?_⟩
    · simp [currentIds, herase]
    · intro c' hc'
      simp at hc'
    · intro p' hp'
      exact h.used_pending p' hp'
    · intro c' p' hc' hp'
      simp at hc'
    · intro j'
      have hb := h.settle_bal j'
      have hcu := h.used_current c hc
      simp only [liveCount, live, hc] at hb ⊢
      by_cases hjj : j = j'
      · subst hjj
        subst hj
        rcases hq : st.pendingJob with _ | q
        · simp [settleCount_append, settleCount_cons, settleCount_nil,
            Msg.isResultFor, hq, hcu] at hb ⊢
          omega
        · have hd := h.cp_distinct c q hc hq
          simp [settleCount_append, settleCount_cons, settleCount_nil,
            Msg.isResultFor, hq, hcu, hd] at hb ⊢
          omega
      · have hcj : ¬ (c.id = j') := by rw [hj]; exact hjj
        simp [settleCount_append, settleCount_cons, settleCount_nil,
          Msg.isResultFor, hjj, Ne.symm hjj, hcj] at hb ⊢
        omega
    · intro ha
      cases ha
    · intro hti
      rcases ha : st.aborting with _ | _
      · rw [ha] at hti
        simp at hti
        have := (h.abortTimer_inv (by simp [hti])).1
        rw [ha] at this
        cases this
      · rw [ha] at hti
        simp at hti
    · intro j'
      simpa [signalCount_append, signalCount_cons, signalCount_nil,
        Msg.isSignalFor] using h.sig_le j'
    · intro j' hj'
      refine h.sig_used j' ?_
      simpa [signalCount_append, signalCount_cons, signalCount_nil,
        Msg.isSignalFor] using hj'
    · intro p' hp'
      simpa [signalCount_append, signalCount_cons, signalCount_nil,
        Msg.isSignalFor] using h.sig_pending p' hp'
    · intro c' hc'
      simp at hc'
  have hfin := inv_maybeStartNext_inl now _ _ hmid rfl
  refine inv_counts _ _ _ hfin ?_ ?_ <;>
    intro j' <;>
      simp [settleCount_append, settleCount_cons, settleCount_nil,
        signalCount_append, signalCount_cons, signalCount_nil]

/-- One-step invariant preservation for the inline scheduler. -/
theorem inv_step_inl (now : Nat) (st : State) (log : List Msg) (ev : Event)
    (h : Inv st log) (hv : validB st now ev = true) :
    Inv (step now st ev).1 (log ++ (step now st ev).2) := by
  cases ev with
  | generate id p bp rq dm =>
      have hv' : id ∉ st.used := by simpa [validB] using hv
      exact inv_generate_inl now st log h id p bp rq dm hv'
  | abortReq r => exact inv_abortReq_inl now st log h
  | jobSettled j res =>
      have hv' : j ∈ st.outstanding := by simpa [validB] using hv
      exact inv_jobSettled_inl now st log h j res hv'
  | abortTimerFire => exact inv_abortTimerFire_inl st log h
  | debounceTimerFire => exact inv_debounceTimerFire_inl st log h

/-- Invariant preservation along any valid inline trace. -/
theorem inv_run_inl (tr : List (Nat × Event)) :
    ∀ (st : State) (log : List Msg), Inv st log → validTraceB st tr = true →
      Inv (run st tr).1 (log ++ (run st tr).2) := by
  induction tr with
  | nil =>
      intro st log h _
      simpa [run] using h
  | cons e rest ih =>
      intro st log h hv
      obtain ⟨now, ev⟩ := e
      simp [validTraceB, Bool.and_eq_true] at hv
      have h1 := inv_step_inl now st log ev h hv.1
      have h2 := ih (step now st ev).1 (log ++ (step now st ev).2) h1 hv.2
      simpa [run, List.append_assoc] using h2

end Inline

/-! ## Claim theorems -/

/-- C10: a call to the inline scheduler's `enqueueGenerate` when no model is
loaded, or when the requested model differs from the loaded model, settles
immediately with `{ ok: false, reason: 'model_not_loaded' }` and changes
nothing: no job is created, the current and pending slots, the aborting
flag, the timers, the stored state and the loaded model are all untouched
(only the ghost `used` bookkeeping of generated uids grows). -/
theorem c10_model_not_loaded_pure (now : Nat) (st : Inline.State) (id : Nat)
    (p : JobParams) (bp : Option BusyPolicy) (rq : Option Bool) (dm : Option Int)
    (hfail : st.loadedModel = none ∨
      ∃ m x, st.loadedModel = some m ∧ p.model = some x ∧ m ≠ x) :
    ∃ msg, Inline.generate now st id p bp rq dm =
      ({ st with used := id :: st.used },
       [.result id (.err (.ec .modelNotLoaded) (some msg))]) := by
  rcases hfail with hm | ⟨m, x, hm, hp, hne⟩
  · rcases hp : p.model with _ | x
    · exact ⟨_, Inline.generate_noload_none_eq now st id p bp rq dm hm hp⟩
    · exact ⟨_, Inline.generate_noload_some_eq now st id p bp rq dm x hm hp⟩
  · exact ⟨_, Inline.generate_mismatch_eq now st id p bp rq dm m x hm hp hne⟩

/-- C10 witness: evaluating the inline scheduler on a concrete no-model
submission settles it with `model_not_loaded` and leaves the state unchanged
apart from the uid bookkeeping. -/
theorem c10_model_not_loaded_pure_witness :
    ∃ msg, Inline.generate 0 (Inline.init none) 1 { model := none, payload := 0 }
        none none none =
      ({ Inline.init none with used := [1] },
       [.result 1 (.err (.ec .modelNotLoaded) (some msg))]) :=
  c10_model_not_loaded_pure 0 (Inline.init none) 1 { model := none, payload := 0 }
    none none none (Or.inl rfl)

/-- C8 (amended): a submission with busy policy `reject` that arrives while a
job is active is settled immediately and mutates nothing (only the ghost uid
bookkeeping grows): in the worker host the outcome is `busy` and in the
inline scheduler it is `internal_error` with message "Generator is busy" (the
slot state, flags and timers are unchanged in both; the host posts no extra
state message, the inline path does not either). -/
theorem c8_reject_purity (now : Nat) (id : Nat) (p : JobParams)
    (rq : Option Bool) (dm : Option Int) :
    (∀ (st : Host.State) (c : CurrentJob), st.currentJob = some c →
      Host.generate now st id p (some .reject) rq dm =
        ({ st with used := id :: st.used }, [.result id (.err .busy none)])) ∧
    (∀ (st : Inline.State) (c : CurrentJob) (m : ModelId), Inline.ModelOk st p m →
      st.currentJob = some c →
      Inline.generate now st id p (some .reject) rq dm =
        ({ st with used := id :: st.used },
         [.result id (.err (.ec .internalError) (some "Generator is busy"))])) := by
  constructor
  · intro st c hc
    exact Host.generate_reject_eq now st id p (some .reject) rq dm c hc rfl
  · intro st c m hok hc
    exact Inline.generate_reject_eq_inl now st id p (some .reject) rq dm m c hok hc rfl

/-- Trace for the C8 witness and counterexample: job 1 starts, then job 2
arrives with policy `reject`. -/
def c8trace : List (Nat × Event) :=
  [(0, .generate 1 { model := some .sdTurbo, payload := 0 } none none none),
   (10, .generate 2 { model := some .sdTurbo, payload := 1 } (some .reject) none none)]

/-- C8 witness: the reject equations applied to the concrete state reached
after starting job 1. -/
theorem c8_reject_purity_witness :
    Host.generate 10 (Host.run Host.init [(0, .generate 1 { model := some .sdTurbo, payload := 0 } none none none)]).1
        2 { model := some .sdTurbo, payload := 1 } (some .reject) none none =
      ({ (Host.run Host.init [(0, .generate 1 { model := some .sdTurbo, payload := 0 } none none none)]).1 with used := [2, 1] },
       [.result 2 (.err .busy none)]) := by
  have h := (c8_reject_purity 10 2 { model := some .sdTurbo, payload := 1 } none none).1
    (Host.run Host.init [(0, .generate 1 { model := some .sdTurbo, payload := 0 } none none none)]).1
    { id := 1, aborted := false, params := { model := some .sdTurbo, payload := 0 } }
    (by decide)
  rw [h]
  decide

/-- C8 counterexample: on the concrete reject scenario the inline scheduler
settles the rejected submission with reason `internal_error` ("Generator is
busy"), not with outcome `busy` as the claim states (the trace is valid, and
job 2's only settlement carries `internal_error`). -/
theorem c8_reject_counterexample :
    Inline.validTraceB (Inline.init (some .sdTurbo)) c8trace = true ∧
    (Inline.run (Inline.init (some .sdTurbo)) c8trace).2.filter (Msg.isResultFor 2) =
      [.result 2 (.err (.ec .internalError) (some "Generator is busy"))] := by
  constructor
  · decide
  · decide

/-- C2 (amended): whenever a step of either scheduler replaces the occupied
pending slot (the pending occupant changes to a different job), the displaced
job's settlement is the very first message emitted by that step — delivered
before the new job is installed, within the same synchronous action.  The
worker host settles the displaced job with reason `superseded`; the inline
scheduler settles it with reason `cancelled`. -/
theorem c2_supersede_settles_displaced (now : Nat) (ev : Event) :
    (∀ (st : Host.State) (q k : PendingJob), st.pendingJob = some q →
      (Host.step now st ev).1.pendingJob = some k → k.id ≠ q.id →
      (Host.step now st ev).2.head? = some (.result q.id (.err .superseded none))) ∧
    (∀ (st : Inline.State) (q k : PendingJob), st.pendingJob = some q →
      (Inline.step now st ev).1.pendingJob = some k → k.id ≠ q.id →
      (Inline.step now st ev).2.head? =
        some (.result q.id (.err (.ec .cancelled) none))) := by
  constructor
  · intro st q k hq hk hne
    cases ev with
    | generate id p bp rq dm =>
        simp only [Host.step] at hk ⊢
        rcases hc : st.currentJob with _ | c
        · rw [Host.generate_idle_eq now st id p bp rq dm hc] at hk
          simp [hq] at hk
          simp [← hk] at hne
        · rcases hbp : bp.getD .queue with _ | _ | _
          · rw [Host.generate_reject_eq now st id p bp rq dm c hc hbp] at hk
            simp [hq] at hk
            simp [← hk] at hne
          · rcases hrq : rq.getD true with _ | _
            · rw [Host.generate_aaq_busy_eq now st id p bp rq dm c q hc hq hbp hrq] at hk
              simp [hq] at hk
              simp [← hk] at hne
            · rw [Host.generate_aaq_go_eq now st id p bp rq dm c hc hbp (Or.inl hrq)]
              simp only [hrq, hq]
              by_cases ha : st.aborting <;> simp [ha]
          · rcases hrq : rq.getD true with _ | _
            · rw [Host.generate_queue_busy_eq now st id p bp rq dm c q hc hq hbp hrq] at hk
              simp [hq] at hk
              simp [← hk] at hne
            · rw [Host.generate_queue_replace_eq now st id p bp rq dm c q hc hq hbp hrq]
              simp
    | abortReq r =>
        simp only [Host.step] at hk ⊢
        rcases hc : st.currentJob with _ | c
        · rw [Host.abortReq_idle_eq now st r hc] at hk
          simp [hq] at hk
          simp [← hk] at hne
        · rcases ha : st.aborting with _ | _
          · rw [Host.abortReq_go_eq now st r c hc ha, Host.beginAbort_eq] at hk
            simp [hq] at hk
            simp [← hk] at hne
          · rw [Host.abortReq_aborting_eq now st r c hc ha] at hk
            simp [hq] at hk
            simp [← hk] at hne
    | jobSettled j res =>
        simp only [Host.step] at hk ⊢
        rcases hc : st.currentJob with _ | c
        · rw [Host.jobSettled_stale_none_eq now st j res hc] at hk
          simp [hq] at hk
          simp [← hk] at hne
        · by_cases hj : c.id = j
          · rw [Host.jobSettled_current_eq now st j res c hc hj] at hk
            simp only at hk
            by_cases hw : now < q.debounceUntil.getD 0
            · rw [Host.maybeStartNext_wait_eq now _ q (by simp) (by simp [hq]) hw] at hk
              simp [hq] at hk
              simp [← hk] at hne
            · rw [Host.maybeStartNext_go_eq now _ q (by simp) (by simp [hq]) (by omega)] at hk
              simp at hk
          · rw [Host.jobSettled_stale_other_eq now st j res c hc hj] at hk
            simp [hq] at hk
            simp [← hk] at hne
    | abortTimerFire =>
        have hpe : (Host.step now st .abortTimerFire).1.pendingJob = st.pendingJob := by
          rcases hc : st.currentJob with _ | c <;> simp [Host.step, Host.abortTimerFire, hc]
        rw [hpe, hq] at hk
        simp at hk
        simp [← hk] at hne
    | debounceTimerFire =>
        simp only [Host.step, Host.debounceTimerFire] at hk ⊢
        rcases hc : st.currentJob with _ | c
        · rw [Host.startPending_go_eq _ q (by simp [hq]) (by simp [hc])] at hk
          simp at hk
        · rw [Host.startPending_skip_current_eq _ c (by simp [hc])] at hk
          simp [hq] at hk
          simp [← hk] at hne
  · intro st q k hq hk hne
    cases ev with
    | generate id p bp rq dm =>
        simp only [Inline.step] at hk ⊢
        rcases hm : st.loadedModel with _ | m
        · rcases hp : p.model with _ | x
          · rw [Inline.generate_noload_none_eq now st id p bp rq dm hm hp] at hk
            simp [hq] at hk
            simp [← hk] at hne
          · rw [Inline.generate_noload_some_eq now st id p bp rq dm x hm hp] at hk
            simp [hq] at hk
            simp [← hk] at hne
        · have hmain : ∀ (hok : Inline.ModelOk st p m),
              (Inline.generate now st id p bp rq dm).2.head? =
                some (.result q.id (.err (.ec .cancelled) none)) := by
            intro hok
            rcases hc : st.currentJob with _ | c
            · exfalso
              rw [Inline.generate_idle_eq_inl now st id p bp rq dm m hok hc] at hk
              simp [hq] at hk
              simp [← hk] at hne
            · rcases hbp : bp.getD .queue with _ | _ | _
              · exfalso
                rw [Inline.generate_reject_eq_inl now st id p bp rq dm m c hok hc hbp] at hk
                simp [hq] at hk
                simp [← hk] at hne
              · rcases hrq : rq.getD true with _ | _
                · exfalso
                  rw [Inline.generate_aaq_busy_eq_inl now st id p bp rq dm m c q hok hc hq hbp hrq] at hk
                  simp [hq] at hk
                  simp [← hk] at hne
                · rw [Inline.generate_aaq_go_eq_inl now st id p bp rq dm m c hok hc hbp (Or.inl hrq)]
                  simp only [hrq, hq]
                  by_cases ha : st.aborting <;> simp [ha]
              · rcases hrq : rq.getD true with _ | _
                · exfalso
                  rw [Inline.generate_queue_busy_eq_inl now st id p bp rq dm m c q hok hc hq hbp hrq] at hk
                  simp [hq] at hk
                  simp [← hk] at hne
                · rw [Inline.generate_queue_replace_eq_inl now st id p bp rq dm m c q hok hc hq hbp hrq]
                  simp
          rcases hp : p.model with _ | x
          · exact hmain ⟨hm, Or.inr hp⟩
          · by_cases hxm : m = x
            · subst hxm
              exact hmain ⟨hm, Or.inl hp⟩
            · rw [Inline.generate_mismatch_eq now st id p bp rq dm m x hm hp hxm] at hk
              simp [hq] at hk
              simp [← hk] at hne
    | abortReq r =>
        simp only [Inline.step] at hk ⊢
        rcases hc : st.currentJob with _ | c
        · rw [Inline.abortReq_idle_eq_inl now st hc] at hk
          simp [hq] at hk
          simp [← hk] at hne
        · rcases ha : st.aborting with _ | _
          · rw [Inline.abortReq_go_eq_inl now st c hc ha, Inline.beginAbort_eq_inl] at hk
            simp [hq] at hk
            simp [← hk] at hne
          · rw [Inline.abortReq_aborting_eq_inl now st c hc ha] at hk
            simp [hq] at hk
            simp [← hk] at hne
    | jobSettled j res =>
        simp only [Inline.step] at hk ⊢
        rcases hc : st.currentJob with _ | c
        · rw [Inline.jobSettled_stale_none_eq_inl now st j res hc] at hk
          simp [hq] at hk
          simp [← hk] at hne
        · by_cases hj : c.id = j
          · rw [Inline.jobSettled_current_eq_inl now st j res c hc hj] at hk
            simp only at hk
            by_cases hw : now < q.debounceUntil.getD 0
            · rw [Inline.maybeStartNext_wait_eq_inl now _ q (by simp) (by simp [hq]) hw] at hk
              simp [hq] at hk
              simp [← hk] at hne
            · rw [Inline.maybeStartNext_go_eq_inl now _ q (by simp) (by simp [hq]) (by omega)] at hk
              simp at hk
          · rw [Inline.jobSettled_stale_other_eq_inl now st j res c hc hj] at hk
            simp [hq] at hk
            simp [← hk] at hne
    | abortTimerFire =>
        have hpe : (Inline.step now st .abortTimerFire).1.pendingJob = st.pendingJob := by
          rcases hc : st.currentJob with _ | c <;>
            rcases hs : st.abortSink with _ | sk <;>
              simp [Inline.step, Inline.abortTimerFire, hc, hs]
        rw [hpe, hq] at hk
        simp at hk
        simp [← hk] at hne
    | debounceTimerFire =>
        simp only [Inline.step, Inline.debounceTimerFire] at hk ⊢
        rcases hc : st.currentJob with _ | c
        · rw [Inline.startPending_go_eq_inl _ q (by simp [hq]) (by simp [hc])] at hk
          simp at hk
        · rw [Inline.startPending_skip_current_eq_inl _ c (by simp [hc])] at hk
          simp [hq] at hk
          simp [← hk] at hne

/-- Trace for the C2 witness and counterexample: job 1 runs, job 2 queues,
job 3 queues with replacement — job 2 is displaced. -/
def c2trace : List (Nat × Event) :=
  [(0, .generate 1 { model := some .sdTurbo, payload := 0 } none none none),
   (10, .generate 2 { model := some .sdTurbo, payload := 1 } (some .queue) none none),
   (20, .generate 3 { model := some .sdTurbo, payload := 2 } (some .queue) (some true) none)]

/-- C2 witness: the supersede step of the worker host on the concrete
queue-replace scenario settles displaced job 2 first, with `superseded`. -/
theorem c2_supersede_settles_displaced_witness :
    (Host.step 20 (Host.run Host.init (c2trace.take 2)).1
        (.generate 3 { model := some .sdTurbo, payload := 2 } (some .queue) (some true) none)).2.head? =
      some (.result 2 (.err .superseded none)) := by
  have h := (c2_supersede_settles_displaced 20
      (.generate 3 { model := some .sdTurbo, payload := 2 } (some .queue) (some true) none)).1
    (Host.run Host.init (c2trace.take 2)).1
    { id := 2, params := { model := some .sdTurbo, payload := 1 }, debounceUntil := none }
    { id := 3, params := { model := some .sdTurbo, payload := 2 }, debounceUntil := none }
    (by decide) (by decide) (by decide)
  exact h

/-- C2 counterexample: on the same scenario the inline scheduler settles the
displaced job 2 with reason `cancelled`, not `superseded` as the claim
states (the trace is valid; job 2's only settlement carries `cancelled`). -/
theorem c2_supersede_counterexample :
    Inline.validTraceB (Inline.init (some .sdTurbo)) c2trace = true ∧
    (Inline.run (Inline.init (some .sdTurbo)) c2trace).2.filter (Msg.isResultFor 2) =
      [.result 2 (.err (.ec .cancelled) none)] := by
  constructor
  · decide
  · decide

/-- C4 (amended): a submission with busy policy `abort_and_queue` arriving
while a job is active and the scheduler is not already aborting signals the
active job's cancellation token (its controller ends up aborted), starts the
Abort Timeout Guard for `ABORT_TIMEOUT_MS = 8000` ms, and emits the
`aborting` state — *provided the pending slot is successfully handled*
(`replaceQueued` true, or the slot empty).  When the pending slot is occupied
and `replaceQueued` is false, the submission is instead settled busy and
**no abort occurs**: the whole scheduler state is unchanged (in both
schedulers). -/
theorem c4_abort_and_queue_signals (now : Nat) (id : Nat) (p : JobParams)
    (rq : Option Bool) (dm : Option Int) :
    ABORT_TIMEOUT_MS = 8000 ∧
    (∀ (st : Host.State) (c : CurrentJob), st.currentJob = some c →
      st.aborting = false → (rq.getD true = true ∨ st.pendingJob = none) →
      (Host.generate now st id p (some .abortAndQueue) rq dm).1.aborting = true ∧
      (Host.generate now st id p (some .abortAndQueue) rq dm).1.abortTimer =
        some (now + ABORT_TIMEOUT_MS) ∧
      (Host.generate now st id p (some .abortAndQueue) rq dm).1.currentJob =
        some { c with aborted := true } ∧
      Msg.state .aborting ∈ (Host.generate now st id p (some .abortAndQueue) rq dm).2) ∧
    (∀ (st : Host.State) (c : CurrentJob) (q : PendingJob), st.currentJob = some c →
      st.pendingJob = some q → rq.getD true = false →
      Host.generate now st id p (some .abortAndQueue) rq dm =
        ({ st with used := id :: st.used }, [.result id (.err .busy none)])) ∧
    (∀ (st : Inline.State) (c : CurrentJob) (m : ModelId), Inline.ModelOk st p m →
      st.currentJob = some c →
      st.aborting = false → (rq.getD true = true ∨ st.pendingJob = none) →
      (Inline.generate now st id p (some .abortAndQueue) rq dm).1.aborting = true ∧
      (Inline.generate now st id p (some .abortAndQueue) rq dm).1.abortTimer =
        some (now + ABORT_TIMEOUT_MS) ∧
      (Inline.generate now st id p (some .abortAndQueue) rq dm).1.currentJob =
        some { c with aborted := true } ∧
      Msg.state .aborting ∈ (Inline.generate now st id p (some .abortAndQueue) rq dm).2) ∧
    (∀ (st : Inline.State) (c : CurrentJob) (q : PendingJob) (m : ModelId),
      Inline.ModelOk st p m → st.currentJob = some c →
      st.pendingJob = some q → rq.getD true = false →
      Inline.generate now st id p (some .abortAndQueue) rq dm =
        ({ st with used := id :: st.used },
         [.result id (.err (.ec .internalError) (some "Generator is busy"))])) := by
  refine ⟨rfl, ?_, ?_, ?_, ?_⟩
  · intro st c hc ha hinst
    rw [Host.generate_aaq_go_eq now st id p (some .abortAndQueue) rq dm c hc rfl hinst]
    rcases hrq : rq.getD true with _ | _ <;> simp [ha, hrq]
  · intro st c q hc hq hrq
    exact Host.generate_aaq_busy_eq now st id p (some .abortAndQueue) rq dm c q hc hq rfl hrq
  · intro st c m hok hc ha hinst
    rw [Inline.generate_aaq_go_eq_inl now st id p (some .abortAndQueue) rq dm m c hok hc rfl hinst]
    rcases hrq : rq.getD true with _ | _ <;> simp [ha, hrq]
  · intro st c q m hok hc hq hrq
    exact Inline.generate_aaq_busy_eq_inl now st id p (some .abortAndQueue) rq dm m c q hok hc hq rfl hrq

/-- C4 witness: the positive branch applied after starting job 1 in the
worker host. -/
theorem c4_abort_and_queue_signals_witness :
    (Host.generate 10 (Host.run Host.init [(0, .generate 1 { model := some .sdTurbo, payload := 0 } none none none)]).1
        2 { model := some .sdTurbo, payload := 1 } (some .abortAndQueue) none none).1.aborting = true := by
  have h := (c4_abort_and_queue_signals 10 2 { model := some .sdTurbo, payload := 1 } none none).2.1
    (Host.run Host.init [(0, .generate 1 { model := some .sdTurbo, payload := 0 } none none none)]).1
    { id := 1, aborted := false, params := { model := some .sdTurbo, payload := 0 } }
    (by decide) (by decide) (Or.inl (by decide))
  exact h.1

/-- Trace for the C4 counterexample: job 1 runs, job 2 queues, job 3 arrives
via `abort_and_queue` with `replaceQueued = false`. -/
def c4trace : List (Nat × Event) :=
  [(0, .generate 1 { model := some .sdTurbo, payload := 0 } none none none),
   (10, .generate 2 { model := some .sdTurbo, payload := 1 } (some .queue) none none),
   (20, .generate 3 { model := some .sdTurbo, payload := 2 } (some .abortAndQueue) (some false) none)]

/-- C4 counterexample: on the concrete scenario where the pending slot is
occupied and `replaceQueued` is false, the `abort_and_queue` submission does
NOT signal the running job's cancellation token and does not start the
guard — the claim's "including …" case fails: the trace is valid, job 3
settles busy, the token of job 1 is never signalled, no guard is armed and
the scheduler never enters `aborting`. -/
theorem c4_abort_and_queue_counterexample :
    Host.validTraceB Host.init c4trace = true ∧
    (Host.run Host.init c4trace).1.aborting = false ∧
    (Host.run Host.init c4trace).1.abortTimer = none ∧
    signalCount (Host.run Host.init c4trace).2 1 = 0 ∧
    (Host.run Host.init c4trace).2.filter (Msg.isResultFor 3) =
      [.result 3 (.err .busy none)] := by
  refine ⟨by decide, by decide, by decide, by decide, by decide⟩

/-- C3 (amended): a `queue`-policy submission arriving while the pending slot
is occupied **and a current job exists** is handled in the pending slot:
with `replaceQueued` the occupant is superseded and the new job installed
(current job untouched — the new job is not started); without it the new
submission settles busy and nothing changes.  However, when no job is
currently running (e.g. during a debounce wait after the previous job
completed), the code's idle test (`!currentJob`) sends the new submission
down the immediate-start path: it becomes the current job at once and the
pending occupant stays queued. -/
theorem c3_queue_policy (now : Nat) (id : Nat) (p : JobParams) (dm : Option Int) :
    (∀ (st : Host.State) (c : CurrentJob) (q : PendingJob),
      st.currentJob = some c → st.pendingJob = some q →
      Host.generate now st id p (some .queue) (some true) dm =
        ({ st with used := id :: st.used,
                   pendingJob := some (mkPending now id p (max 0 (dm.getD 0)).toNat) },
         [.result q.id (.err .superseded none), .state .queued, .accepted id,
          .state .queued])) ∧
    (∀ (st : Host.State) (c : CurrentJob) (q : PendingJob),
      st.currentJob = some c → st.pendingJob = some q →
      Host.generate now st id p (some .queue) (some false) dm =
        ({ st with used := id :: st.used },
         [.result id (.err .busy none), .state .queued])) ∧
    (∀ (st : Host.State) (rq : Option Bool), st.currentJob = none →
      (Host.generate now st id p (some .queue) rq dm).1.currentJob =
        some { id := id, aborted := false, params := p } ∧
      (Host.generate now st id p (some .queue) rq dm).1.pendingJob = st.pendingJob) ∧
    (∀ (st : Inline.State) (c : CurrentJob) (q : PendingJob) (m : ModelId),
      Inline.ModelOk st p m → st.currentJob = some c → st.pendingJob = some q →
      Inline.generate now st id p (some .queue) (some true) dm =
        ({ st with used := id :: st.used, stateF := .queued,
                   pendingJob := some (mkPending now id (Inline.resolvedParams p m)
                     (max 0 (dm.getD 0)).toNat) },
         [.result q.id (.err (.ec .cancelled) none), .state .queued, .state .queued])) ∧
    (∀ (st : Inline.State) (c : CurrentJob) (q : PendingJob) (m : ModelId),
      Inline.ModelOk st p m → st.currentJob = some c → st.pendingJob = some q →
      Inline.generate now st id p (some .queue) (some false) dm =
        ({ st with used := id :: st.used, stateF := .queued },
         [.result id (.err (.ec .internalError) (some "Generator is busy")),
          .state .queued])) ∧
    (∀ (st : Inline.State) (rq : Option Bool) (m : ModelId), Inline.ModelOk st p m →
      st.currentJob = none →
      (Inline.generate now st id p (some .queue) rq dm).1.currentJob =
        some { id := id, aborted := false, params := Inline.resolvedParams p m } ∧
      (Inline.generate now st id p (some .queue) rq dm).1.pendingJob = st.pendingJob) := by
  refine ⟨?_, ?_, ?_, ?_, ?_, ?_⟩
  · intro st c q hc hq
    exact Host.generate_queue_replace_eq now st id p (some .queue) (some true) dm c q hc hq rfl rfl
  · intro st c q hc hq
    exact Host.generate_queue_busy_eq now st id p (some .queue) (some false) dm c q hc hq rfl rfl
  · intro st rq hc
    rw [Host.generate_idle_eq now st id p (some .queue) rq dm hc]
    simp
  · intro st c q m hok hc hq
    exact Inline.generate_queue_replace_eq_inl now st id p (some .queue) (some true) dm m c q hok hc hq rfl rfl
  · intro st c q m hok hc hq
    exact Inline.generate_queue_busy_eq_inl now st id p (some .queue) (some false) dm m c q hok hc hq rfl rfl
  · intro st rq m hok hc
    rw [Inline.generate_idle_eq_inl now st id p (some .queue) rq dm m hok hc]
    simp

/-- C3 witness: the replace branch applied at a concrete busy state (job 1
running, job 2 pending): job 2 is superseded and job 3 installed. -/
theorem c3_queue_policy_witness :
    Host.generate 20 (Host.run Host.init [(0, .generate 1 { model := some .sdTurbo, payload := 0 } none none none), (10, .generate 2 { model := some .sdTurbo, payload := 1 } (some .queue) none none)]).1
        3 { model := some .sdTurbo, payload := 2 } (some .queue) (some true) none =
      ({ (Host.run Host.init [(0, .generate 1 { model := some .sdTurbo, payload := 0 } none none none), (10, .generate 2 { model := some .sdTurbo, payload := 1 } (some .queue) none none)]).1 with
           used := [3, 2, 1],
           pendingJob := some (mkPending 20 3 { model := some .sdTurbo, payload := 2 } 0) },
       [.result 2 (.err .superseded none), .state .queued, .accepted 3, .state .queued]) := by
  have h := (c3_queue_policy 20 3 { model := some .sdTurbo, payload := 2 } none).1
    (Host.run Host.init [(0, .generate 1 { model := some .sdTurbo, payload := 0 } none none none), (10, .generate 2 { model := some .sdTurbo, payload := 1 } (some .queue) none none)]).1
    { id := 1, aborted := false, params := { model := some .sdTurbo, payload := 0 } }
    { id := 2, params := { model := some .sdTurbo, payload := 1 }, debounceUntil := none }
    (by decide) (by decide)
  rw [h]
  decide

/-- Trace for the C3 counterexample: job 1 runs, job 2 queues with a 5000 ms
debounce, job 1 completes (job 2 now waits on its debounce deadline with no
job running, state `queued`), then job 3 arrives with policy `queue`. -/
def c3trace : List (Nat × Event) :=
  [(0, .generate 1 { model := some .sdTurbo, payload := 0 } none none none),
   (10, .generate 2 { model := some .sdTurbo, payload := 1 } (some .queue) none (some 5000)),
   (20, .jobSettled 1 (.ok 7 15)),
   (30, .generate 3 { model := some .sdTurbo, payload := 2 } (some .queue) none none)]

/-- C3 counterexample: on the concrete debounce-wait scenario — pending slot
occupied by job 2, no job running — the `queue`-policy submission of job 3 is
NOT installed into the pending slot: it starts running immediately while
job 2 remains the pending occupant, contradicting the claim's "including
when no job is currently running" case (the trace is valid). -/
theorem c3_queue_policy_counterexample :
    Host.validTraceB Host.init c3trace = true ∧
    (Host.run Host.init c3trace).1.currentJob =
      some { id := 3, aborted := false,
             params := { model := some .sdTurbo, payload := 2 } } ∧
    (Host.run Host.init c3trace).1.pendingJob =
      some { id := 2, params := { model := some .sdTurbo, payload := 1 },
             debounceUntil := some 5010 } := by
  refine ⟨by decide, by decide, by decide⟩

namespace Host

/-- The invariant holds in every state reached by a valid trace from the
initial worker state, relative to the emitted log. -/
theorem reach_inv (tr : List (Nat × Event)) (h : validTraceB init tr = true) :
    Inv (run init tr).1 (run init tr).2 := by
  have := inv_run tr init [] inv_init h
  simpa using this

end Host

namespace Inline

/-- The invariant holds in every state reached by a valid trace from an
initial inline-scheduler state. -/
theorem reach_inv_inl (m0 : Option ModelId) (tr : List (Nat × Event))
    (h : validTraceB (init m0) tr = true) :
    Inv (run (init m0) tr).1 (run (init m0) tr).2 := by
  have := inv_run_inl tr (init m0) [] (inv_init_inl m0) h
  simpa using this

end Inline

/-- C6: across any valid sequence of submissions, abort requests,
settlements and timer firings — including runs in which the Abort Timeout
Guard fires between two abort requests — each job's cancellation token is
signalled at most once (its `AbortController` transitions to aborted only
once), in both schedulers; and a second abort request issued while a job is
already aborting is a no-op: the worker host only replies `accepted` and
changes nothing, the inline scheduler does nothing at all. -/
theorem c6_token_signalled_once :
    (∀ tr, Host.validTraceB Host.init tr = true →
      ∀ j, signalCount (Host.run Host.init tr).2 j ≤ 1) ∧
    (∀ tr now r, Host.validTraceB Host.init tr = true →
      (Host.run Host.init tr).1.aborting = true →
      Host.step now (Host.run Host.init tr).1 (.abortReq r) =
        ((Host.run Host.init tr).1, [.accepted r])) ∧
    (∀ m0 tr, Inline.validTraceB (Inline.init m0) tr = true →
      ∀ j, signalCount (Inline.run (Inline.init m0) tr).2 j ≤ 1) ∧
    (∀ m0 tr now r, Inline.validTraceB (Inline.init m0) tr = true →
      (Inline.run (Inline.init m0) tr).1.aborting = true →
      Inline.step now (Inline.run (Inline.init m0) tr).1 (.abortReq r) =
        ((Inline.run (Inline.init m0) tr).1, [])) := by
  refine ⟨?_, ?_, ?_, ?_⟩
  · intro tr h j
    exact (Host.reach_inv tr h).sig_le j
  · intro tr now r h ha
    have hinv := Host.reach_inv tr h
    have hcs := hinv.aborting_current ha
    rcases hc : (Host.run Host.init tr).1.currentJob with _ | c
    · rw [hc] at hcs
      cases hcs
    · simpa [Host.step] using Host.abortReq_aborting_eq now _ r c hc ha
  · intro m0 tr h j
    exact (Inline.reach_inv_inl m0 tr h).sig_le j
  · intro m0 tr now r h ha
    have hinv := Inline.reach_inv_inl m0 tr h
    have hcs := hinv.aborting_current ha
    rcases hc : (Inline.run (Inline.init m0) tr).1.currentJob with _ | c
    · rw [hc] at hcs
      cases hcs
    · simpa [Inline.step] using Inline.abortReq_aborting_eq_inl now _ c hc ha

/-- Trace for the C6 witness: start job 1, then issue two abort requests;
the guard later fires and a third abort is requested before job 1 finally
settles cancelled. -/
def c6trace : List (Nat × Event) :=
  [(0, .generate 1 { model := some .sdTurbo, payload := 0 } none none none),
   (10, .abortReq 100),
   (20, .abortReq 101),
   (8050, .abortTimerFire),
   (8060, .abortReq 102),
   (8100, .jobSettled 1 (.err .cancelled none))]

/-- C6 witness: on the concrete abort-heavy trace job 1's token is signalled
exactly once (so at most once), and the second abort request against the
aborting job is a pure `accepted` no-op. -/
theorem c6_token_signalled_once_witness :
    signalCount (Host.run Host.init c6trace).2 1 ≤ 1 ∧
    Host.step 20 (Host.run Host.init (c6trace.take 2)).1 (.abortReq 101) =
      ((Host.run Host.init (c6trace.take 2)).1, [.accepted 101]) := by
  constructor
  · exact c6_token_signalled_once.1 c6trace (by decide) 1
  · exact c6_token_signalled_once.2.1 (c6trace.take 2) 20 101 (by decide) (by decide)

namespace Host

theorem maybeStartNext_abortTimer (now : Nat) (st : State) :
    (maybeStartNext now st).1.abortTimer = st.abortTimer := by
  rcases hc : st.currentJob with _ | c
  · rcases hp : st.pendingJob with _ | p
    · rw [maybeStartNext_idle_eq now st hc hp]
    · by_cases hw : now < p.debounceUntil.getD 0
      · rw [maybeStartNext_wait_eq now st p hc hp hw]
      · rw [maybeStartNext_go_eq now st p hc hp (by omega)]
  · rw [maybeStartNext_current_eq now st c hc]

theorem maybeStartNext_no_hint (now : Nat) (st : State) (s : Nat) :
    Msg.hint s ∉ (maybeStartNext now st).2 := by
  rcases hc : st.currentJob with _ | c
  · rcases hp : st.pendingJob with _ | p
    · rw [maybeStartNext_idle_eq now st hc hp]
      simp
    · by_cases hw : now < p.debounceUntil.getD 0
      · rw [maybeStartNext_wait_eq now st p hc hp hw]
        simp
      · rw [maybeStartNext_go_eq now st p hc hp (by omega)]
        simp
  · rw [maybeStartNext_current_eq now st c hc]
    simp

end Host

namespace Inline

theorem maybeStartNext_abortTimer_inl (now : Nat) (st : State) :
    (maybeStartNext now st).1.abortTimer = st.abortTimer := by
  rcases hc : st.currentJob with _ | c
  · rcases hp : st.pendingJob with _ | p
    · rw [maybeStartNext_idle_eq_inl now st hc hp]
    · by_cases hw : now < p.debounceUntil.getD 0
      · rw [maybeStartNext_wait_eq_inl now st p hc hp hw]
      · rw [maybeStartNext_go_eq_inl now st p hc hp (by omega)]
  · rw [maybeStartNext_current_eq_inl now st c hc]

theorem maybeStartNext_no_hint_inl (now : Nat) (st : State) (s : Nat) :
    Msg.hint s ∉ (maybeStartNext now st).2 := by
  rcases hc : st.currentJob with _ | c
  · rcases hp : st.pendingJob with _ | p
    · rw [maybeStartNext_idle_eq_inl now st hc hp]
      simp
    · by_cases hw : now < p.debounceUntil.getD 0
      · rw [maybeStartNext_wait_eq_inl now st p hc hp hw]
        simp
      · rw [maybeStartNext_go_eq_inl now st p hc hp (by omega)]
        simp
  · rw [maybeStartNext_current_eq_inl now st c hc]
    simp

end Inline

/-- C5 (amended): in any reachable state where the Abort Timeout Guard is
armed, a job is still running.  If the guard's deadline elapses while that
job is unsettled, the guard fires a single non-fatal `aborting_timeout`
progress hint and clears the aborting flag (and the timer).  The worker host
delivers the hint to the active job's progress sink; the inline scheduler
delivers it to the progress sink captured when the guard was started — the
sink of the `abort_and_queue` submission that triggered the abort, or no
sink at all when the abort came from `abort()`.  If instead the active job
settles first, the guard is cancelled and no hint is ever emitted in that
step. -/
theorem c5_abort_timeout_guard :
    (∀ tr now, Host.validTraceB Host.init tr = true →
      ∀ t, (Host.run Host.init tr).1.abortTimer = some t → t ≤ now →
      ∃ c, (Host.run Host.init tr).1.currentJob = some c ∧
        Host.step now (Host.run Host.init tr).1 .abortTimerFire =
          ({ (Host.run Host.init tr).1 with abortTimer := none, aborting := false },
           [.hint c.id])) ∧
    (∀ tr now j res, Host.validTraceB Host.init tr = true →
      (Host.run Host.init tr).1.abortTimer.isSome →
      j ∈ (Host.run Host.init tr).1.outstanding →
      (Host.step now (Host.run Host.init tr).1 (.jobSettled j res)).1.abortTimer = none ∧
      ∀ s, Msg.hint s ∉ (Host.step now (Host.run Host.init tr).1 (.jobSettled j res)).2) ∧
    (∀ m0 tr now, Inline.validTraceB (Inline.init m0) tr = true →
      ∀ t, (Inline.run (Inline.init m0) tr).1.abortTimer = some t → t ≤ now →
      ∃ c, (Inline.run (Inline.init m0) tr).1.currentJob = some c ∧
        Inline.step now (Inline.run (Inline.init m0) tr).1 .abortTimerFire =
          ({ (Inline.run (Inline.init m0) tr).1 with abortTimer := none, aborting := false },
           match (Inline.run (Inline.init m0) tr).1.abortSink with
           | some s => [.hint s]
           | none => [])) ∧
    (∀ m0 tr now j res, Inline.validTraceB (Inline.init m0) tr = true →
      (Inline.run (Inline.init m0) tr).1.abortTimer.isSome →
      j ∈ (Inline.run (Inline.init m0) tr).1.outstanding →
      (Inline.step now (Inline.run (Inline.init m0) tr).1 (.jobSettled j res)).1.abortTimer = none ∧
      ∀ s, Msg.hint s ∉ (Inline.step now (Inline.run (Inline.init m0) tr).1 (.jobSettled j res)).2) := by
  refine ⟨?_, ?_, ?_, ?_⟩
  · intro tr now h t ht _
    have hinv := Host.reach_inv tr h
    have hcs := (hinv.abortTimer_inv (by simp [ht])).2
    rcases hc : (Host.run Host.init tr).1.currentJob with _ | c
    · rw [hc] at hcs
      cases hcs
    · exact ⟨c, rfl, by simp [Host.step, Host.abortTimerFire, hc]⟩
  · intro tr now j res h ht hj
    have hinv := Host.reach_inv tr h
    have ha := (hinv.abortTimer_inv ht).1
    have hcur : ∃ c, (Host.run Host.init tr).1.currentJob = some c ∧ c.id = j := by
      rcases hc : (Host.run Host.init tr).1.currentJob with _ | c
      · rw [hinv.out_current] at hj
        simp [Host.currentIds, hc] at hj
      · rw [hinv.out_current] at hj
        simp [Host.currentIds, hc] at hj
        exact ⟨c, rfl, hj.symm⟩
    obtain ⟨c, hc, hcj⟩ := hcur
    rw [show Host.step now (Host.run Host.init tr).1 (.jobSettled j res)
        = Host.jobSettled now (Host.run Host.init tr).1 j res from rfl,
      Host.jobSettled_current_eq now _ j res c hc hcj]
    simp only
    constructor
    · rw [Host.maybeStartNext_abortTimer]
      simp [ha]
    · intro s
      simp only [List.mem_cons]
      rintro (h1 | h2)
      · cases h1
      · exact Host.maybeStartNext_no_hint now _ s h2
  · intro m0 tr now h t ht _
    have hinv := Inline.reach_inv_inl m0 tr h
    have hcs := (hinv.abortTimer_inv (by simp [ht])).2
    rcases hc : (Inline.run (Inline.init m0) tr).1.currentJob with _ | c
    · rw [hc] at hcs
      cases hcs
    · refine ⟨c, rfl, ?_⟩
      rcases hs : (Inline.run (Inline.init m0) tr).1.abortSink with _ | s <;>
        simp [Inline.step, Inline.abortTimerFire, hc, hs]
  · intro m0 tr now j res h ht hj
    have hinv := Inline.reach_inv_inl m0 tr h
    have ha := (hinv.abortTimer_inv ht).1
    have hcur : ∃ c, (Inline.run (Inline.init m0) tr).1.currentJob = some c ∧ c.id = j := by
      rcases hc : (Inline.run (Inline.init m0) tr).1.currentJob with _ | c
      · rw [hinv.out_current] at hj
        simp [Inline.currentIds, hc] at hj
      · rw [hinv.out_current] at hj
        simp [Inline.currentIds, hc] at hj
        exact ⟨c, rfl, hj.symm⟩
    obtain ⟨c, hc, hcj⟩ := hcur
    rw [show Inline.step now (Inline.run (Inline.init m0) tr).1 (.jobSettled j res)
        = Inline.jobSettled now (Inline.run (Inline.init m0) tr).1 j res from rfl,
      Inline.jobSettled_current_eq_inl now _ j res c hc hcj]
    simp only
    constructor
    · rw [Inline.maybeStartNext_abortTimer_inl]
      simp [ha]
    · intro s
      simp only [List.mem_append, List.mem_cons]
      rintro (h1 | h2)
      · exact Inline.maybeStartNext_no_hint_inl now _ s h1
      · simp at h2

/-- Trace for the C5 witness: job 1 starts and an abort is requested at
t = 10, arming the guard for t = 8010. -/
def c5trace : List (Nat × Event) :=
  [(0, .generate 1 { model := some .sdTurbo, payload := 0 } none none none),
   (10, .abortReq 100)]

/-- C5 witness: firing the armed guard at t = 8050 on the concrete aborting
state emits the hint for running job 1 and clears the aborting flag. -/
theorem c5_abort_timeout_guard_witness :
    ∃ c, (Host.run Host.init c5trace).1.currentJob = some c ∧
      Host.step 8050 (Host.run Host.init c5trace).1 .abortTimerFire =
        ({ (Host.run Host.init c5trace).1 with abortTimer := none, aborting := false },
         [.hint c.id]) :=
  c5_abort_timeout_guard.1 c5trace 8050 (by decide) 8010 (by decide) (by decide)

/-- Trace for the C5 counterexample: job 1 (submitter's sink = id 1) runs;
job 2 arrives via `abort_and_queue` (its sink = id 2); the guard then fires. -/
def c5trace2 : List (Nat × Event) :=
  [(0, .generate 1 { model := some .sdTurbo, payload := 0 } none none none),
   (10, .generate 2 { model := some .sdTurbo, payload := 1 } (some .abortAndQueue) none none),
   (8050, .abortTimerFire)]

/-- C5 counterexample: in the inline scheduler the fired guard delivers the
`aborting_timeout` hint to the sink of submission 2 (which triggered the
abort), not to the active job 1's progress sink as the claim states: the
trace is valid, the hint for sink 2 is emitted and no hint ever goes to
job 1's sink. -/
theorem c5_abort_timeout_counterexample :
    Inline.validTraceB (Inline.init (some .sdTurbo)) c5trace2 = true ∧
    Msg.hint 2 ∈ (Inline.run (Inline.init (some .sdTurbo)) c5trace2).2 ∧
    Msg.hint 1 ∉ (Inline.run (Inline.init (some .sdTurbo)) c5trace2).2 := by
  refine ⟨by decide, by decide, by decide⟩

namespace Host

/-- A busy `generate` never replaces the current job: it at most marks its
controller aborted. -/
theorem generate_busy_current (now : Nat) (st : State) (id : Nat) (p : JobParams)
    (bp : Option BusyPolicy) (rq : Option Bool) (dm : Option Int) (c : CurrentJob)
    (hc : st.currentJob = some c) :
    (generate now st id p bp rq dm).1.currentJob = some c ∨
    (generate now st id p bp rq dm).1.currentJob = some { c with aborted := true } := by
  rcases hbp : bp.getD .queue with _ | _ | _
  · rw [generate_reject_eq now st id p bp rq dm c hc hbp]
    left
    simpa using hc
  · rcases hrq : rq.getD true with _ | _
    · rcases hq : st.pendingJob with _ | q
      · rw [generate_aaq_go_eq now st id p bp rq dm c hc hbp (Or.inr hq)]
        by_cases ha : st.aborting <;> simp [ha, hrq, hc]
      · rw [generate_aaq_busy_eq now st id p bp rq dm c q hc hq hbp hrq]
        left
        simpa using hc
    · rw [generate_aaq_go_eq now st id p bp rq dm c hc hbp (Or.inl hrq)]
      by_cases ha : st.aborting <;> simp [ha, hrq, hc]
  · rcases hq : st.pendingJob with _ | q
    · rw [generate_queue_install_eq now st id p bp rq dm c hc hq hbp]
      left
      simpa using hc
    · rcases hrq : rq.getD true with _ | _
      · rw [generate_queue_busy_eq now st id p bp rq dm c q hc hq hbp hrq]
        left
        simpa using hc
      · rw [generate_queue_replace_eq now st id p bp rq dm c q hc hq hbp hrq]
        left
        simpa using hc

end Host

namespace Inline

/-- A busy (or model-failing) `enqueueGenerate` never replaces the current
job: it at most marks its controller aborted. -/
theorem generate_busy_current_inl (now : Nat) (st : State) (id : Nat) (p : JobParams)
    (bp : Option BusyPolicy) (rq : Option Bool) (dm : Option Int) (c : CurrentJob)
    (hc : st.currentJob = some c) :
    (generate now st id p bp rq dm).1.currentJob = some c ∨
    (generate now st id p bp rq dm).1.currentJob = some { c with aborted := true } := by
  have hmain : ∀ m, ModelOk st p m →
      (generate now st id p bp rq dm).1.currentJob = some c ∨
      (generate now st id p bp rq dm).1.currentJob = some { c with aborted := true } := by
    intro m hok
    rcases hbp : bp.getD .queue with _ | _ | _
    · rw [generate_reject_eq_inl now st id p bp rq dm m c hok hc hbp]
      left
      simpa using hc
    · rcases hrq : rq.getD true with _ | _
      · rcases hq : st.pendingJob with _ | q
        · rw [generate_aaq_go_eq_inl now st id p bp rq dm m c hok hc hbp (Or.inr hq)]
          by_cases ha : st.aborting <;> simp [ha, hrq, hc]
        · rw [generate_aaq_busy_eq_inl now st id p bp rq dm m c q hok hc hq hbp hrq]
          left
          simpa using hc
      · rw [generate_aaq_go_eq_inl now st id p bp rq dm m c hok hc hbp (Or.inl hrq)]
        by_cases ha : st.aborting <;> simp [ha, hrq, hc]
    · rcases hq : st.pendingJob with _ | q
      · rw [generate_queue_install_eq_inl now st id p bp rq dm m c hok hc hq hbp]
        left
        simpa using hc
      · rcases hrq : rq.getD true with _ | _
        · rw [generate_queue_busy_eq_inl now st id p bp rq dm m c q hok hc hq hbp hrq]
          left
          simpa using hc
        · rw [generate_queue_replace_eq_inl now st id p bp rq dm m c q hok hc hq hbp hrq]
          left
          simpa using hc
  rcases hm : st.loadedModel with _ | m
  · rcases hp : p.model with _ | x
    · rw [generate_noload_none_eq now st id p bp rq dm hm hp]
      left
      simpa using hc
    · rw [generate_noload_some_eq now st id p bp rq dm x hm hp]
      left
      simpa using hc
  · rcases hp : p.model with _ | x
    · exact hmain m ⟨hm, Or.inr hp⟩
    · by_cases hxm : m = x
      · subst hxm
        exact hmain m ⟨hm, Or.inl hp⟩
      · rw [generate_mismatch_eq now st id p bp rq dm m x hm hp hxm]
        left
        simpa using hc

end Inline

/-- C7: debounce timing.  In any reachable state of either scheduler, a step
that promotes the pending job `p` to the current slot can only happen at a
time `now ≥ p.debounceUntil` (and `debounceUntil` is `installation time +
debounceMs`, per `mkPending`): the pending job is never promoted before its
debounce deadline, even if the running slot frees earlier.  And debounce
never delays a submission that arrives when no job is running: such a
submission becomes the current job within its own `generate` step. -/
theorem c7_debounce_timing :
    (∀ tr now ev, Host.validTraceB Host.init tr = true →
      Host.validB (Host.run Host.init tr).1 now ev = true →
      ∀ (p : PendingJob) (c' : CurrentJob),
        (Host.run Host.init tr).1.pendingJob = some p →
        (Host.step now (Host.run Host.init tr).1 ev).1.currentJob = some c' →
        c'.id = p.id → p.debounceUntil.getD 0 ≤ now) ∧
    (∀ (st : Host.State) (now id : Nat) (p : JobParams) (bp : Option BusyPolicy)
      (rq : Option Bool) (dm : Option Int), st.currentJob = none →
      (Host.generate now st id p bp rq dm).1.currentJob =
        some { id := id, aborted := false, params := p }) ∧
    (∀ m0 tr now ev, Inline.validTraceB (Inline.init m0) tr = true →
      Inline.validB (Inline.run (Inline.init m0) tr).1 now ev = true →
      ∀ (p : PendingJob) (c' : CurrentJob),
        (Inline.run (Inline.init m0) tr).1.pendingJob = some p →
        (Inline.step now (Inline.run (Inline.init m0) tr).1 ev).1.currentJob = some c' →
        c'.id = p.id → p.debounceUntil.getD 0 ≤ now) ∧
    (∀ (st : Inline.State) (now id : Nat) (p : JobParams) (bp : Option BusyPolicy)
      (rq : Option Bool) (dm : Option Int) (m : ModelId), Inline.ModelOk st p m →
      st.currentJob = none →
      (Inline.generate now st id p bp rq dm).1.currentJob =
        some { id := id, aborted := false, params := Inline.resolvedParams p m }) := by
  refine ⟨?_, ?_, ?_, ?_⟩
  · intro tr now ev hvt hvev p c' hp hc' hcp
    have hinv := Host.reach_inv tr hvt
    cases ev with
    | generate id0 p0 bp rq dm =>
        have hid : id0 ∉ (Host.run Host.init tr).1.used := by
          simpa [Host.validB] using hvev
        simp only [Host.step] at hc'
        rcases hcS : (Host.run Host.init tr).1.currentJob with _ | c
        · rw [Host.generate_idle_eq now _ id0 p0 bp rq dm hcS] at hc'
          simp at hc'
          exfalso
          apply hid
          rw [← hc'] at hcp
          simp at hcp
          rw [hcp]
          exact hinv.used_pending p hp
        · rcases Host.generate_busy_current now _ id0 p0 bp rq dm c hcS with h1 | h1 <;>
          · rw [h1] at hc'
            simp at hc'
            exfalso
            apply hinv.cp_distinct c p hcS hp
            rw [← hc'] at hcp
            simpa using hcp
    | abortReq r =>
        simp only [Host.step] at hc'
        rcases hcS : (Host.run Host.init tr).1.currentJob with _ | c
        · rw [Host.abortReq_idle_eq now _ r hcS] at hc'
          simp [hcS] at hc'
        · rcases ha : (Host.run Host.init tr).1.aborting with _ | _
          · rw [Host.abortReq_go_eq now _ r c hcS ha, Host.beginAbort_eq] at hc'
            simp at hc'
            exfalso
            apply hinv.cp_distinct c p hcS hp
            rw [← hc'] at hcp
            simpa using hcp
          · rw [Host.abortReq_aborting_eq now _ r c hcS ha] at hc'
            rw [hcS] at hc'
            simp at hc'
            exfalso
            apply hinv.cp_distinct c p hcS hp
            rw [← hc'] at hcp
            simpa using hcp
    | jobSettled j res =>
        have hj : j ∈ (Host.run Host.init tr).1.outstanding := by
          simpa [Host.validB] using hvev
        have hcur : ∃ c, (Host.run Host.init tr).1.currentJob = some c ∧ c.id = j := by
          rcases hcS : (Host.run Host.init tr).1.currentJob with _ | c
          · rw [hinv.out_current] at hj
            simp [Host.currentIds, hcS] at hj
          · rw [hinv.out_current] at hj
            simp [Host.currentIds, hcS] at hj
            exact ⟨c, rfl, hj.symm⟩
        obtain ⟨c, hcS, hcj⟩ := hcur
        simp only [Host.step] at hc'
        rw [Host.jobSettled_current_eq now _ j res c hcS hcj] at hc'
        simp only at hc'
        by_cases hw : now < p.debounceUntil.getD 0
        · rw [Host.maybeStartNext_wait_eq now _ p (by simp) (by simp [hp]) hw] at hc'
          simp at hc'
        · omega
    | abortTimerFire =>
        have hce : (Host.step now (Host.run Host.init tr).1 .abortTimerFire).1.currentJob
            = (Host.run Host.init tr).1.currentJob := by
          rcases hcS : (Host.run Host.init tr).1.currentJob with _ | c <;>
            simp [Host.step, Host.abortTimerFire, hcS]
        rw [hce] at hc'
        exfalso
        apply hinv.cp_distinct c' p hc' hp
        exact hcp
    | debounceTimerFire =>
        obtain ⟨t, htm, htn⟩ : ∃ t, (Host.run Host.init tr).1.debounceTimer = some t ∧ t ≤ now := by
          revert hvev
          simp only [Host.validB]
          rcases hdb : (Host.run Host.init tr).1.debounceTimer with _ | t
          · simp
          · intro h
            exact ⟨t, rfl, by simpa using h⟩
        rcases hcS : (Host.run Host.init tr).1.currentJob with _ | c
        · obtain ⟨p2, hp2, hdl⟩ := hinv.db_inv t htm hcS
          rw [hp] at hp2
          cases hp2
          omega
        · simp only [Host.step, Host.debounceTimerFire] at hc'
          rw [Host.startPending_skip_current_eq _ c (by simp [hcS])] at hc'
          simp [hcS] at hc'
          exfalso
          apply hinv.cp_distinct c p hcS hp
          rw [← hc'] at hcp
          simpa using hcp
  · intro st now id p bp rq dm hc
    rw [Host.generate_idle_eq now st id p bp rq dm hc]
  · intro m0 tr now ev hvt hvev p c' hp hc' hcp
    have hinv := Inline.reach_inv_inl m0 tr hvt
    cases ev with
    | generate id0 p0 bp rq dm =>
        have hid : id0 ∉ (Inline.run (Inline.init m0) tr).1.used := by
          simpa [Inline.validB] using hvev
        simp only [Inline.step] at hc'
        rcases hcS : (Inline.run (Inline.init m0) tr).1.currentJob with _ | c
        · -- the submission may start immediately or fail model resolution;
          -- in every case the promoted id is the fresh id0, never p.id
          rcases hm : (Inline.run (Inline.init m0) tr).1.loadedModel with _ | m
          · rcases hpm : p0.model with _ | x
            · rw [Inline.generate_noload_none_eq now _ id0 p0 bp rq dm hm hpm] at hc'
              simp [hcS] at hc'
            · rw [Inline.generate_noload_some_eq now _ id0 p0 bp rq dm x hm hpm] at hc'
              simp [hcS] at hc'
          · have hmain : ∀ (hok : Inline.ModelOk (Inline.run (Inline.init m0) tr).1 p0 m),
                p.debounceUntil.getD 0 ≤ now := by
              intro hok
              rw [Inline.generate_idle_eq_inl now _ id0 p0 bp rq dm m hok hcS] at hc'
              simp at hc'
              exfalso
              apply hid
              rw [← hc'] at hcp
              simp at hcp
              rw [hcp]
              exact hinv.used_pending p hp
            rcases hpm : p0.model with _ | x
            · exact hmain ⟨hm, Or.inr hpm⟩
            · by_cases hxm : m = x
              · subst hxm
                exact hmain ⟨hm, Or.inl hpm⟩
              · rw [Inline.generate_mismatch_eq now _ id0 p0 bp rq dm m x hm hpm hxm] at hc'
                simp [hcS] at hc'
        · rcases Inline.generate_busy_current_inl now _ id0 p0 bp rq dm c hcS with h1 | h1 <;>
          · rw [h1] at hc'
            simp at hc'
            exfalso
            apply hinv.cp_distinct c p hcS hp
            rw [← hc'] at hcp
            simpa using hcp
    | abortReq r =>
        simp only [Inline.step] at hc'
        rcases hcS : (Inline.run (Inline.init m0) tr).1.currentJob with _ | c
        · rw [Inline.abortReq_idle_eq_inl now _ hcS] at hc'
          simp [hcS] at hc'
        · rcases ha : (Inline.run (Inline.init m0) tr).1.aborting with _ | _
          · rw [Inline.abortReq_go_eq_inl now _ c hcS ha, Inline.beginAbort_eq_inl] at hc'
            simp at hc'
            exfalso
            apply hinv.cp_distinct c p hcS hp
            rw [← hc'] at hcp
            simpa using hcp
          · rw [Inline.abortReq_aborting_eq_inl now _ c hcS ha] at hc'
            rw [hcS] at hc'
            simp at hc'
            exfalso
            apply hinv.cp_distinct c p hcS hp
            rw [← hc'] at hcp
            simpa using hcp
    | jobSettled j res =>
        have hj : j ∈ (Inline.run (Inline.init m0) tr).1.outstanding := by
          simpa [Inline.validB] using hvev
        have hcur : ∃ c, (Inline.run (Inline.init m0) tr).1.currentJob = some c ∧ c.id = j := by
          rcases hcS : (Inline.run (Inline.init m0) tr).1.currentJob with _ | c
          · rw [hinv.out_current] at hj
            simp [Inline.currentIds, hcS] at hj
          · rw [hinv.out_current] at hj
            simp [Inline.currentIds, hcS] at hj
            exact ⟨c, rfl, hj.symm⟩
        obtain ⟨c, hcS, hcj⟩ := hcur
        simp only [Inline.step] at hc'
        rw [Inline.jobSettled_current_eq_inl now _ j res c hcS hcj] at hc'
        simp only at hc'
        by_cases hw : now < p.debounceUntil.getD 0
        · rw [Inline.maybeStartNext_wait_eq_inl now _ p (by simp) (by simp [hp]) hw] at hc'
          simp at hc'
        · omega
    | abortTimerFire =>
        have hce : (Inline.step now (Inline.run (Inline.init m0) tr).1 .abortTimerFire).1.currentJob
            = (Inline.run (Inline.init m0) tr).1.currentJob := by
          rcases hcS : (Inline.run (Inline.init m0) tr).1.currentJob with _ | c <;>
            rcases hsk : (Inline.run (Inline.init m0) tr).1.abortSink with _ | sk <;>
              simp [Inline.step, Inline.abortTimerFire, hcS, hsk]
        rw [hce] at hc'
        exfalso
        apply hinv.cp_distinct c' p hc' hp
        exact hcp
    | debounceTimerFire =>
        obtain ⟨t, htm, htn⟩ : ∃ t, (Inline.run (Inline.init m0) tr).1.debounceTimer = some t ∧ t ≤ now := by
          revert hvev
          simp only [Inline.validB]
          rcases hdb : (Inline.run (Inline.init m0) tr).1.debounceTimer with _ | t
          · simp
          · intro h
            exact ⟨t, rfl, by simpa using h⟩
        rcases hcS : (Inline.run (Inline.init m0) tr).1.currentJob with _ | c
        · obtain ⟨p2, hp2, hdl⟩ := hinv.db_inv t htm hcS
          rw [hp] at hp2
          cases hp2
          omega
        · simp only [Inline.step, Inline.debounceTimerFire] at hc'
          rw [Inline.startPending_skip_current_eq_inl _ c (by simp [hcS])] at hc'
          simp [hcS] at hc'
          exfalso
          apply hinv.cp_distinct c p hcS hp
          rw [← hc'] at hcp
          simpa using hcp
  · intro st now id p bp rq dm m hok hc
    rw [Inline.generate_idle_eq_inl now st id p bp rq dm m hok hc]

/-- Trace for the C7 witness: job 1 runs, job 2 queues with a 5000 ms
debounce, job 1 settles at t = 20 (job 2 must wait until t = 5010). -/
def c7trace : List (Nat × Event) :=
  [(0, .generate 1 { model := some .sdTurbo, payload := 0 } none none none),
   (10, .generate 2 { model := some .sdTurbo, payload := 1 } (some .queue) none (some 5000))]

/-- C7 witness: settling job 1 at t = 5010 does promote the debounced job 2,
and the theorem's bound confirms 5010 is not before job 2's deadline;
a fresh idle submission starts immediately. -/
theorem c7_debounce_timing_witness :
    ({ id := 2, params := { model := some .sdTurbo, payload := 1 },
       debounceUntil := some 5010 } : PendingJob).debounceUntil.getD 0 ≤ 5010 ∧
    (Host.generate 0 Host.init 1 { model := some .sdTurbo, payload := 0 }
        none none none).1.currentJob =
      some { id := 1, aborted := false,
             params := { model := some .sdTurbo, payload := 0 } } := by
  constructor
  · exact c7_debounce_timing.1 c7trace 5010 (.jobSettled 1 (.ok 7 5)) (by decide) (by decide)
      { id := 2, params := { model := some .sdTurbo, payload := 1 }, debounceUntil := some 5010 }
      { id := 2, aborted := false, params := { model := some .sdTurbo, payload := 1 } }
      (by decide) (by decide) (by decide)
  · exact c7_debounce_timing.2.1 Host.init 0 1 { model := some .sdTurbo, payload := 0 }
      none none none (by decide)

/-- C1 (amended): along every valid run of either scheduler, each submitted
job id receives at most one terminal result; and whenever the scheduler is
quiescent (no current and no pending job — e.g. after every started run has
settled), every id ever submitted has received exactly one terminal result —
no job is silently dropped.  In the worker host the settlement event of a
started run always finds that run to be the current job (the stale-detection
branch of its `runJob` is unreachable); the inline scheduler's stale branch,
were it reached, settles the stale job's handle with reason `cancelled`. -/
theorem c1_exactly_once_settlement :
    (∀ tr, Host.validTraceB Host.init tr = true →
      (∀ j, settleCount (Host.run Host.init tr).2 j ≤ 1) ∧
      ((Host.run Host.init tr).1.currentJob = none →
        (Host.run Host.init tr).1.pendingJob = none →
        ∀ j ∈ (Host.run Host.init tr).1.used,
          settleCount (Host.run Host.init tr).2 j = 1) ∧
      (∀ j ∈ (Host.run Host.init tr).1.outstanding,
        ∃ c, (Host.run Host.init tr).1.currentJob = some c ∧ c.id = j)) ∧
    (∀ m0 tr, Inline.validTraceB (Inline.init m0) tr = true →
      (∀ j, settleCount (Inline.run (Inline.init m0) tr).2 j ≤ 1) ∧
      ((Inline.run (Inline.init m0) tr).1.currentJob = none →
        (Inline.run (Inline.init m0) tr).1.pendingJob = none →
        ∀ j ∈ (Inline.run (Inline.init m0) tr).1.used,
          settleCount (Inline.run (Inline.init m0) tr).2 j = 1) ∧
      (∀ j ∈ (Inline.run (Inline.init m0) tr).1.outstanding,
        ∃ c, (Inline.run (Inline.init m0) tr).1.currentJob = some c ∧ c.id = j)) ∧
    (∀ (now : Nat) (st : Inline.State) (j : Nat) (res : ExecRes),
      (∀ c, st.currentJob = some c → c.id ≠ j) →
      (Inline.jobSettled now st j res).2 =
        [.result j (.err (.ec .cancelled) none)]) := by
  refine ⟨?_, ?_, ?_⟩
  · intro tr h
    have hinv := Host.reach_inv tr h
    refine ⟨?_, ?_, ?_⟩
    · intro j
      have hb := hinv.settle_bal j
      by_cases hm : j ∈ (Host.run Host.init tr).1.used <;> simp [hm] at hb <;> omega
    · intro hcn hpn j hj
      have hb := hinv.settle_bal j
      simp [hj, Host.liveCount, live, hcn, hpn] at hb
      exact hb
    · intro j hj
      rcases hc : (Host.run Host.init tr).1.currentJob with _ | c
      · rw [hinv.out_current] at hj
        simp [Host.currentIds, hc] at hj
      · rw [hinv.out_current] at hj
        simp [Host.currentIds, hc] at hj
        exact ⟨c, rfl, hj.symm⟩
  · intro m0 tr h
    have hinv := Inline.reach_inv_inl m0 tr h
    refine ⟨?_, ?_, ?_⟩
    · intro j
      have hb := hinv.settle_bal j
      by_cases hm : j ∈ (Inline.run (Inline.init m0) tr).1.used <;>
        simp [hm] at hb <;> omega
    · intro hcn hpn j hj
      have hb := hinv.settle_bal j
      simp [hj, Inline.liveCount, live, hcn, hpn] at hb
      exact hb
    · intro j hj
      rcases hc : (Inline.run (Inline.init m0) tr).1.currentJob with _ | c
      · rw [hinv.out_current] at hj
        simp [Inline.currentIds, hc] at hj
      · rw [hinv.out_current] at hj
        simp [Inline.currentIds, hc] at hj
        exact ⟨c, rfl, hj.symm⟩
  · intro now st j res hst
    rcases hc : st.currentJob with _ | c
    · rw [Inline.jobSettled_stale_none_eq_inl now st j res hc]
    · rw [Inline.jobSettled_stale_other_eq_inl now st j res c hc (hst c hc)]

/-- Trace for the C1 witness: job 1 runs and settles, job 2 is rejected
busy, job 3 queues and is superseded by job 4, job 4 runs and settles. -/
def c1trace : List (Nat × Event) :=
  [(0, .generate 1 { model := some .sdTurbo, payload := 0 } none none none),
   (5, .generate 2 { model := some .sdTurbo, payload := 1 } (some .reject) none none),
   (10, .generate 3 { model := some .sdTurbo, payload := 2 } (some .queue) none none),
   (15, .generate 4 { model := some .sdTurbo, payload := 3 } (some .queue) (some true) none),
   (20, .jobSettled 1 (.ok 7 20)),
   (30, .jobSettled 4 (.err .cancelled none))]

/-- C1 witness: on the concrete four-submission run every submitted id
settles exactly once. -/
theorem c1_exactly_once_settlement_witness :
    settleCount (Host.run Host.init c1trace).2 1 = 1 ∧
    settleCount (Host.run Host.init c1trace).2 2 = 1 ∧
    settleCount (Host.run Host.init c1trace).2 3 = 1 ∧
    settleCount (Host.run Host.init c1trace).2 4 = 1 := by
  have h := (c1_exactly_once_settlement.1 c1trace (by decide)).2.1 (by decide) (by decide)
  exact ⟨h 1 (by decide), h 2 (by decide), h 3 (by decide), h 4 (by decide)⟩

/-- C1 counterexample: the worker host's stale-detection branch (`runJob`
after `await`, when the settled run is no longer the current job) does NOT
settle the stale job's handle — at a concrete state where job 2 is current
and the run of job 1 settles, the step emits no message at all, contradicting
the claim's "the job-completion path that detects a stale current job still
settles that job's handle".  (Such states are unreachable in valid runs —
see the claim theorem — which is why no job is actually dropped.) -/
theorem c1_stale_counterexample :
    (Host.jobSettled 100
      { currentJob := some { id := 2, aborted := false,
                             params := { model := some .sdTurbo, payload := 1 } },
        pendingJob := none, aborting := false, abortTimer := none,
        debounceTimer := none, outstanding := [1, 2], used := [1, 2] }
      1 (.err .cancelled none)).2 = [] := by
  decide

/-! ### Correspondence between the two schedulers -/

theorem jobResults_nil : jobResults [] = [] := rfl

theorem jobResults_append (l1 l2 : List Msg) :
    jobResults (l1 ++ l2) = jobResults l1 ++ jobResults l2 :=
  List.filterMap_append l1 l2 _

theorem jobResults_state (s : WState) (l : List Msg) :
    jobResults (.state s :: l) = jobResults l := by
  simp [jobResults, List.filterMap_cons]

theorem jobResults_accepted (i : Nat) (l : List Msg) :
    jobResults (.accepted i :: l) = jobResults l := by
  simp [jobResults, List.filterMap_cons]

theorem jobResults_ackOk (i : Nat) (l : List Msg) :
    jobResults (.ackOk i :: l) = jobResults l := by
  simp [jobResults, List.filterMap_cons]

theorem jobResults_hint (s : Nat) (l : List Msg) :
    jobResults (.hint s :: l) = jobResults l := by
  simp [jobResults, List.filterMap_cons]

theorem jobResults_signal (s : Nat) (l : List Msg) :
    jobResults (.signal s :: l) = jobResults l := by
  simp [jobResults, List.filterMap_cons]

theorem jobResults_result (i : Nat) (r : WireRes) (l : List Msg) :
    jobResults (.result i r :: l) = (i, r) :: jobResults l := by
  simp [jobResults, List.filterMap_cons]

/-- The inline scheduler's rendering of a worker-host terminal outcome: a
host `busy` becomes `internal_error` with message "Generator is busy", a
host `superseded` becomes `cancelled`; successes and executor errors pass
through unchanged. -/
def mapOutcome : WireRes → WireRes
  | .err .busy none => .err (.ec .internalError) (some "Generator is busy")
  | .err .superseded none => .err (.ec .cancelled) none
  | r => r

theorem mapOutcome_toWire (res : ExecRes) : mapOutcome res.toWire = res.toWire := by
  rcases res with _ | ⟨e, msg⟩
  · rfl
  · rcases e <;> rcases msg <;> rfl

theorem resolvedParams_self (p : JobParams) (m : ModelId) (hp : p.model = some m) :
    Inline.resolvedParams p m = p := by
  rcases p with ⟨pm, pl⟩
  simp at hp
  simp [Inline.resolvedParams, hp]

/-- Correspondence relation between a worker-host state and an inline
scheduler state (with model `m` loaded): the scheduler-relevant fields are
identical; the inline-only fields (`stateF`, `abortSink`) are unconstrained. -/
structure SchedRel (m : ModelId) (h : Host.State) (i : Inline.State) : Prop where
  cur : i.currentJob = h.currentJob
  pend : i.pendingJob = h.pendingJob
  abo : i.aborting = h.aborting
  atimer : i.abortTimer = h.abortTimer
  dtimer : i.debounceTimer = h.debounceTimer
  outs : i.outstanding = h.outstanding
  us : i.used = h.used
  model : i.loadedModel = some m

/-- Events whose payloads drive both schedulers identically: a `generate`
must explicitly request the loaded model (so the inline model resolution is
the identity). -/
def EventOk (m : ModelId) : Event → Prop
  | .generate _ p _ _ _ => p.model = some m
  | _ => True

theorem schedRel_init (m : ModelId) : SchedRel m Host.init (Inline.init (some m)) :=
  ⟨rfl, rfl, rfl, rfl, rfl, rfl, rfl, rfl⟩

/-- `maybeStartNext` corresponds across the relation (no job running). -/
theorem schedRel_maybeStartNext (m : ModelId) (now : Nat) (h : Host.State)
    (i : Inline.State) (hr : SchedRel m h i) (hc : h.currentJob = none) :
    SchedRel m (Host.maybeStartNext now h).1 (Inline.maybeStartNext now i).1 ∧
    jobResults (Host.maybeStartNext now h).2 = [] ∧
    jobResults (Inline.maybeStartNext now i).2 = [] := by
  have hci : i.currentJob = none := by rw [hr.cur, hc]
  rcases hp : h.pendingJob with _ | p
  · have hpi : i.pendingJob = none := by rw [hr.pend, hp]
    rw [Host.maybeStartNext_idle_eq now h hc hp,
      Inline.maybeStartNext_idle_eq_inl now i hci hpi]
    exact ⟨⟨hr.cur, hr.pend, hr.abo, hr.atimer, hr.dtimer, hr.outs, hr.us, hr.model⟩,
      by simp [jobResults_state, jobResults_nil],
      by simp [jobResults_state, jobResults_nil]⟩
  · have hpi : i.pendingJob = some p := by rw [hr.pend, hp]
    by_cases hw : now < p.debounceUntil.getD 0
    · rw [Host.maybeStartNext_wait_eq now h p hc hp hw,
        Inline.maybeStartNext_wait_eq_inl now i p hci hpi hw]
      exact ⟨⟨hr.cur, hr.pend, hr.abo, hr.atimer, by simp, hr.outs, hr.us, hr.model⟩,
        by simp [jobResults_state, jobResults_nil],
        by simp [jobResults_state, jobResults_nil]⟩
    · rw [Host.maybeStartNext_go_eq now h p hc hp (by omega),
        Inline.maybeStartNext_go_eq_inl now i p hci hpi (by omega)]
      refine ⟨⟨by simp, by simp, hr.abo, hr.atimer, by simp, by simp [hr.outs],
        hr.us, hr.model⟩, ?_, ?_⟩ <;>
        simp [jobResults_state, jobResults_nil]

/-- C9 (amended): under a fixed loaded model, with every submission
requesting that model, the message-passing worker scheduler and the inline
scheduler are step-by-step equivalent: from corresponding states any event
is admissible in one iff it is admissible in the other (same admission
decisions), it leads to corresponding states (same transitions of the
current/pending slots, aborting flag, timers and started runs), and it
settles exactly the same job ids — but with the terminal outcome labels
related by `mapOutcome`: where the host reports `busy` the inline scheduler
reports `internal_error` ("Generator is busy"), and where the host reports
`superseded` it reports `cancelled`; successes and executor outcomes pass
through identically.  (The settlement hypothesis reflects the executor
contract: a settlement is delivered for the started, still-current run;
in reachable states this always holds.) -/
theorem c9_transport_equivalence (m : ModelId) (now : Nat) (ev : Event)
    (h : Host.State) (i : Inline.State) (hr : SchedRel m h i)
    (hev : EventOk m ev)
    (hns : ∀ j, j ∈ h.outstanding → ∃ c, h.currentJob = some c ∧ c.id = j) :
    Host.validB h now ev = Inline.validB i now ev ∧
    (Host.validB h now ev = true →
      SchedRel m (Host.step now h ev).1 (Inline.step now i ev).1 ∧
      jobResults (Inline.step now i ev).2 =
        (jobResults (Host.step now h ev).2).map (fun x => (x.1, mapOutcome x.2))) := by
  constructor
  · cases ev <;> simp [Host.validB, Inline.validB, hr.us, hr.outs, hr.atimer, hr.dtimer]
  intro hv
  cases ev with
  | generate id p bp rq dm =>
      have hpm : p.model = some m := hev
      have hok : Inline.ModelOk i p m := ⟨hr.model, Or.inl hpm⟩
      have hrp : Inline.resolvedParams p m = p := resolvedParams_self p m hpm
      simp only [Host.step, Inline.step]
      rcases hc : h.currentJob with _ | c
      · have hci : i.currentJob = none := by rw [hr.cur, hc]
        rw [Host.generate_idle_eq now h id p bp rq dm hc,
          Inline.generate_idle_eq_inl now i id p bp rq dm m hok hci]
        refine ⟨⟨by simp [hrp], by simp [hr.pend], hr.abo, hr.atimer, hr.dtimer,
          by simp [hr.outs], by simp [hr.us], hr.model⟩, ?_⟩
        simp [jobResults_state, jobResults_nil]
      · have hci : i.currentJob = some c := by rw [hr.cur, hc]
        rcases hbp : bp.getD .queue with _ | _ | _
        · rw [Host.generate_reject_eq now h id p bp rq dm c hc hbp,
            Inline.generate_reject_eq_inl now i id p bp rq dm m c hok hci hbp]
          refine ⟨⟨hr.cur, hr.pend, hr.abo, hr.atimer, hr.dtimer, hr.outs,
            by simp [hr.us], hr.model⟩, ?_⟩
          simp [jobResults_result, jobResults_nil, mapOutcome]
        · rcases hrq : rq.getD true with _ | _
          · rcases hq : h.pendingJob with _ | q
            · have hqi : i.pendingJob = none := by rw [hr.pend, hq]
              rw [Host.generate_aaq_go_eq now h id p bp rq dm c hc hbp (Or.inr hq),
                Inline.generate_aaq_go_eq_inl now i id p bp rq dm m c hok hci hbp (Or.inr hqi)]
              simp only [hrq, hq, hqi]
              by_cases ha : h.aborting <;> have hai : i.aborting = h.aborting := hr.abo
              · rw [ha] at hai
                simp only [ha, hai, if_true]
                refine ⟨⟨hr.cur, by simp [hr.pend, hrp], by simp [hr.abo, ha, hai],
                  hr.atimer, hr.dtimer, hr.outs, by simp [hr.us], hr.model⟩, ?_⟩
                simp [jobResults_append, jobResults_accepted, jobResults_nil]
              · have haf : h.aborting = false := by simpa using ha
                rw [haf] at hai
                simp only [haf, hai, Bool.false_eq_true, if_false]
                refine ⟨⟨by simp, by simp [hr.pend, hrp], by simp, by simp,
                  by simp [hr.dtimer], by simp [hr.outs], by simp [hr.us],
                  by simp [hr.model]⟩, ?_⟩
                rcases hca : c.aborted <;>
                  simp [hca, jobResults_append, jobResults_accepted, jobResults_state,
                    jobResults_signal, jobResults_nil]
            · have hqi : i.pendingJob = some q := by rw [hr.pend, hq]
              rw [Host.generate_aaq_busy_eq now h id p bp rq dm c q hc hq hbp hrq,
                Inline.generate_aaq_busy_eq_inl now i id p bp rq dm m c q hok hci hqi hbp hrq]
              refine ⟨⟨hr.cur, hr.pend, hr.abo, hr.atimer, hr.dtimer, hr.outs,
                by simp [hr.us], hr.model⟩, ?_⟩
              simp [jobResults_result, jobResults_nil, mapOutcome]
          · rw [Host.generate_aaq_go_eq now h id p bp rq dm c hc hbp (Or.inl hrq),
              Inline.generate_aaq_go_eq_inl now i id p bp rq dm m c hok hci hbp (Or.inl hrq)]
            simp only [hrq, hr.pend]
            by_cases ha : h.aborting <;> have hai : i.aborting = h.aborting := hr.abo
            · rw [ha] at hai
              simp only [ha, hai, if_true]
              refine ⟨⟨hr.cur, by simp [hrp], by simp [ha, hai], hr.atimer,
                hr.dtimer, hr.outs, by simp [hr.us], hr.model⟩, ?_⟩
              rcases hq : h.pendingJob with _ | q <;>
                simp [jobResults_append, jobResults_accepted, jobResults_state,
                  jobResults_result, jobResults_nil, mapOutcome]
            · have haf : h.aborting = false := by simpa using ha
              rw [haf] at hai
              simp only [haf, hai, Bool.false_eq_true, if_false]
              refine ⟨⟨by simp, by simp [hrp], by simp, by simp, by simp [hr.dtimer],
                by simp [hr.outs], by simp [hr.us], by simp [hr.model]⟩, ?_⟩
              rcases hq : h.pendingJob with _ | q <;>
                rcases hca : c.aborted <;>
                  simp [hca, jobResults_append, jobResults_accepted, jobResults_state,
                    jobResults_signal, jobResults_result, jobResults_nil, mapOutcome]
        · rcases hq : h.pendingJob with _ | q
          · have hqi : i.pendingJob = none := by rw [hr.pend, hq]
            rw [Host.generate_queue_install_eq now h id p bp rq dm c hc hq hbp,
              Inline.generate_queue_install_eq_inl now i id p bp rq dm m c hok hci hqi hbp]
            refine ⟨⟨hr.cur, by simp [hrp], hr.abo, hr.atimer, hr.dtimer, hr.outs,
              by simp [hr.us], hr.model⟩, ?_⟩
            simp [jobResults_accepted, jobResults_state, jobResults_nil]
          · have hqi : i.pendingJob = some q := by rw [hr.pend, hq]
            rcases hrq : rq.getD true with _ | _
            · rw [Host.generate_queue_busy_eq now h id p bp rq dm c q hc hq hbp hrq,
                Inline.generate_queue_busy_eq_inl now i id p bp rq dm m c q hok hci hqi hbp hrq]
              refine ⟨⟨hr.cur, hr.pend, hr.abo, hr.atimer, hr.dtimer, hr.outs,
                by simp [hr.us], hr.model⟩, ?_⟩
              simp [jobResults_result, jobResults_state, jobResults_nil, mapOutcome]
            · rw [Host.generate_queue_replace_eq now h id p bp rq dm c q hc hq hbp hrq,
                Inline.generate_queue_replace_eq_inl now i id p bp rq dm m c q hok hci hqi hbp hrq]
              refine ⟨⟨hr.cur, by simp [hrp], hr.abo, hr.atimer, hr.dtimer, hr.outs,
                by simp [hr.us], hr.model⟩, ?_⟩
              simp [jobResults_result, jobResults_state, jobResults_accepted,
                jobResults_nil, mapOutcome]
  | abortReq r =>
      simp only [Host.step, Inline.step]
      rcases hc : h.currentJob with _ | c
      · have hci : i.currentJob = none := by rw [hr.cur, hc]
        rw [Host.abortReq_idle_eq now h r hc, Inline.abortReq_idle_eq_inl now i hci]
        exact ⟨hr, by simp [jobResults_ackOk, jobResults_nil]⟩
      · have hci : i.currentJob = some c := by rw [hr.cur, hc]
        rcases ha : h.aborting with _ | _
        · have hai : i.aborting = false := by rw [hr.abo, ha]
          rw [Host.abortReq_go_eq now h r c hc ha, Inline.abortReq_go_eq_inl now i c hci hai,
            Host.beginAbort_eq, Inline.beginAbort_eq_inl]
          refine ⟨⟨by simp, by simp [hr.pend], by simp, by simp, by simp [hr.dtimer],
            by simp [hr.outs], by simp [hr.us], by simp [hr.model]⟩, ?_⟩
          rcases hca : c.aborted <;>
            simp [hca, jobResults_append, jobResults_accepted, jobResults_state,
              jobResults_signal, jobResults_nil]
        · have hai : i.aborting = true := by rw [hr.abo, ha]
          rw [Host.abortReq_aborting_eq now h r c hc ha,
            Inline.abortReq_aborting_eq_inl now i c hci hai]
          exact ⟨hr, by simp [jobResults_accepted, jobResults_nil]⟩
  | jobSettled j res =>
      have hj : j ∈ h.outstanding := by simpa [Host.validB] using hv
      obtain ⟨c, hc, hcj⟩ := hns j hj
      have hci : i.currentJob = some c := by rw [hr.cur, hc]
      simp only [Host.step, Inline.step]
      rw [Host.jobSettled_current_eq now h j res c hc hcj,
        Inline.jobSettled_current_eq_inl now i j res c hci hcj]
      simp only
      have hmid : SchedRel m
          { h with outstanding := h.outstanding.erase j, currentJob := none,
                   aborting := false,
                   abortTimer := if h.aborting then none else h.abortTimer }
          { i with outstanding := i.outstanding.erase j, currentJob := none,
                   aborting := false,
                   abortTimer := if i.aborting then none else i.abortTimer } := by
        refine ⟨by simp, by simp [hr.pend], by simp, ?_, by simp [hr.dtimer],
          by simp [hr.outs], by simp [hr.us], by simp [hr.model]⟩
        simp [hr.abo, hr.atimer]
      obtain ⟨hrel, hres1, hres2⟩ := schedRel_maybeStartNext m now _ _ hmid (by simp)
      refine ⟨hrel, ?_⟩
      simp [jobResults_append, jobResults_result, jobResults_nil, hres1, hres2,
        mapOutcome_toWire]
  | abortTimerFire =>
      simp only [Host.step, Inline.step]
      refine ⟨⟨?_, ?_, ?_, ?_, ?_, ?_, ?_, ?_⟩, ?_⟩
      · rcases hc : h.currentJob with _ | c <;>
          have hci := hr.cur <;>
            rw [hc] at hci <;>
              rcases hs : i.abortSink with _ | sk <;>
                simp [Host.abortTimerFire, Inline.abortTimerFire, hc, hci, hs]
      · rcases hc : h.currentJob with _ | c <;>
          have hci := hr.cur <;>
            rw [hc] at hci <;>
              rcases hs : i.abortSink with _ | sk <;>
                simp [Host.abortTimerFire, Inline.abortTimerFire, hc, hci, hs, hr.pend]
      · rcases hc : h.currentJob with _ | c <;>
          have hci := hr.cur <;>
            rw [hc] at hci <;>
              rcases hs : i.abortSink with _ | sk <;>
                simp [Host.abortTimerFire, Inline.abortTimerFire, hc, hci, hs]
      · rcases hc : h.currentJob with _ | c <;>
          have hci := hr.cur <;>
            rw [hc] at hci <;>
              rcases hs : i.abortSink with _ | sk <;>
                simp [Host.abortTimerFire, Inline.abortTimerFire, hc, hci, hs]
      · rcases hc : h.currentJob with _ | c <;>
          have hci := hr.cur <;>
            rw [hc] at hci <;>
              rcases hs : i.abortSink with _ | sk <;>
                simp [Host.abortTimerFire, Inline.abortTimerFire, hc, hci, hs, hr.dtimer]
      · rcases hc : h.currentJob with _ | c <;>
          have hci := hr.cur <;>
            rw [hc] at hci <;>
              rcases hs : i.abortSink with _ | sk <;>
                simp [Host.abortTimerFire, Inline.abortTimerFire, hc, hci, hs, hr.outs]
      · rcases hc : h.currentJob with _ | c <;>
          have hci := hr.cur <;>
            rw [hc] at hci <;>
              rcases hs : i.abortSink with _ | sk <;>
                simp [Host.abortTimerFire, Inline.abortTimerFire, hc, hci, hs, hr.us]
      · rcases hc : h.currentJob with _ | c <;>
          have hci := hr.cur <;>
            rw [hc] at hci <;>
              rcases hs : i.abortSink with _ | sk <;>
                simp [Host.abortTimerFire, Inline.abortTimerFire, hc, hci, hs, hr.model]
      · rcases hc : h.currentJob with _ | c <;>
          have hci := hr.cur <;>
            rw [hc] at hci <;>
              rcases hs : i.abortSink with _ | sk <;>
                simp [Host.abortTimerFire, Inline.abortTimerFire, hc, hci, hs,
                  jobResults_hint, jobResults_nil]
  | debounceTimerFire =>
      simp only [Host.step, Inline.step, Host.debounceTimerFire, Inline.debounceTimerFire]
      rcases hc : h.currentJob with _ | c <;>
        have hci := hr.cur <;>
          rw [hc] at hci <;>
            rcases hp : h.pendingJob with _ | p <;>
              have hpi := hr.pend <;>
                rw [hp] at hpi <;>
                  refine ⟨⟨?_, ?_, ?_, ?_, ?_, ?_, ?_, ?_⟩, ?_⟩ <;>
                    simp [Host.startPending, Inline.startPending, Inline.setState,
                      hci, hpi, hr.cur, hr.pend, hr.abo, hr.atimer, hr.outs, hr.us,
                      hr.model, jobResults_state, jobResults_nil]

/-- C9 witness: the correspondence applied to the initial states and a
concrete first submission — both schedulers start job 1 immediately and
settle nothing. -/
theorem c9_transport_equivalence_witness :
    SchedRel ModelId.sdTurbo
      (Host.step 0 Host.init (.generate 1 { model := some .sdTurbo, payload := 0 } none none none)).1
      (Inline.step 0 (Inline.init (some .sdTurbo)) (.generate 1 { model := some .sdTurbo, payload := 0 } none none none)).1 ∧
    jobResults (Inline.step 0 (Inline.init (some .sdTurbo)) (.generate 1 { model := some .sdTurbo, payload := 0 } none none none)).2 =
      (jobResults (Host.step 0 Host.init (.generate 1 { model := some .sdTurbo, payload := 0 } none none none)).2).map
        (fun x => (x.1, mapOutcome x.2)) :=
  (c9_transport_equivalence ModelId.sdTurbo 0
    (.generate 1 { model := some .sdTurbo, payload := 0 } none none none)
    Host.init (Inline.init (some .sdTurbo)) (schedRel_init ModelId.sdTurbo)
    rfl (by intro j hj; cases hj)).2 (by decide)

/-- C9 counterexample: the two schedulers do NOT deliver the same terminal
outcome for each job as the claim states: on the same valid reject scenario
job 2 ends `busy` in the worker host but `internal_error` ("Generator is
busy") in the inline scheduler — and these outcomes differ. -/
theorem c9_transport_counterexample :
    Host.validTraceB Host.init c8trace = true ∧
    Inline.validTraceB (Inline.init (some .sdTurbo)) c8trace = true ∧
    jobResults (Host.run Host.init c8trace).2 = [(2, .err .busy none)] ∧
    jobResults (Inline.run (Inline.init (some .sdTurbo)) c8trace).2 =
      [(2, .err (.ec .internalError) (some "Generator is busy"))] ∧
    (WireRes.err .busy none ≠
      WireRes.err (.ec .internalError) (some "Generator is busy")) := by
  refine ⟨by decide, by decide, by decide, by decide, by decide⟩
